import Mathlib

/-
  Shallow embedding of TrueRou/migration-tools (src/migration_tools/) in Lean 4.

  Conventions used throughout:
  * Python strings are Lean `String`; `None`-able columns are `Option _`.
  * Python dicts are association lists in *insertion order reversed*: an
    assignment prepends a binding and `List.lookup` (first match) therefore
    realises the last-wins semantics of dict assignment.  A dict built by a
    comprehension is `dictOf pairs`.
  * Timestamps are opaque integers.  `datetime.utcnow()` is a `now : Int`
    parameter; `_ensure_datetime`'s timezone normalisation is the identity on
    naive values, so in this model a null timestamp becomes `now` and any other
    value passes through.
  * `uuid.uuid4()` and `_generate_password_hash()` are modelled by streams
    `fresh : Nat → String` / `phash : Nat → String` together with a counter
    that is threaded through exactly at the program points where the source
    calls them.
  * SQL tables are lists of record rows; an `INSERT ... ON CONFLICT (k) DO
    UPDATE` statement executed with a list of parameter rows is a left fold of
    a single-row upsert (sqlalchemy executemany applies the rows in order).
  * Raising an exception is returning `Except.error`; exceptions caught by the
    source (UnknownAspectError inside the image loops) never escape the model
    of the catching function.
-/

namespace Migration

/-! ## Python dict / set helpers -/

/-- Python dict assignment `m[k] = v`: the new binding shadows older ones. -/
def dictInsert {K V : Type} (m : List (K × V)) (k : K) (v : V) : List (K × V) :=
  (k, v) :: m

/-- A dict built by a comprehension over `pairs` (later pairs overwrite
earlier ones, as in Python). -/
def dictOf {K V : Type} (pairs : List (K × V)) : List (K × V) :=
  pairs.foldl (fun m p => dictInsert m p.1 p.2) []

/-- `m.get(k)` on a dict represented as above (first binding wins, i.e. the
most recent assignment). -/
def dget {K V : Type} [DecidableEq K] (m : List (K × V)) (k : K) : Option V :=
  m.lookup k

/-- `k in m` for a dict. -/
def dmem {K V : Type} [DecidableEq K] (m : List (K × V)) (k : K) : Bool :=
  (dget m k).isSome

/-- Keep only the visible (most recent) binding of every key: the first
occurrence of each key survives, later ones are dropped. -/
def dedupByKey {K V : Type} [DecidableEq K] : List (K × V) → List (K × V)
  | [] => []
  | p :: rest => p :: (dedupByKey rest).filter (fun q => !(q.1 == p.1))

/-- `set(m.values())` of a dict: the values of the visible bindings. -/
def dvalues {K V : Type} [DecidableEq K] (m : List (K × V)) : List V :=
  (dedupByKey m).map (·.2)

/-- Python `str(x)` for an optional string column (`str(None) = "None"`). -/
def pyStr (o : Option String) : String :=
  match o with
  | some s => s
  | none => "None"

/-- Python `s.upper()` (the data is ASCII, where `Char.toUpper` agrees with
Python; defined over the character list so terms evaluate by `decide`). -/
def pyUpper (s : String) : String :=
  String.mk (s.data.map Char.toUpper)

/-- Python `s.lower()`. -/
def pyLower (s : String) : String :=
  String.mk (s.data.map Char.toLower)

/-- Python `s.strip()`: remove leading and trailing whitespace. -/
def pyTrim (s : String) : String :=
  String.mk
    (((s.data.dropWhile Char.isWhitespace).reverse.dropWhile
        Char.isWhitespace).reverse)

instance {ε α : Type} [DecidableEq ε] [DecidableEq α] :
    DecidableEq (Except ε α) := fun x y =>
  match x, y with
  | Except.ok a, Except.ok b =>
      if h : a = b then isTrue (by rw [h])
      else isFalse (by intro hc; cases hc; exact h rfl)
  | Except.error a, Except.error b =>
      if h : a = b then isTrue (by rw [h])
      else isFalse (by intro hc; cases hc; exact h rfl)
  | Except.ok _, Except.error _ => isFalse nofun
  | Except.error _, Except.ok _ => isFalse nofun

/-! ## transform.py -/

/-- Per-section migration counters (transform.MergeSectionResult). -/
structure MergeSectionResult where
  processed : Nat := 0
  inserted : Nat := 0
  updated : Nat := 0
  skipped : Nat := 0
deriving DecidableEq

/-- transform._KIND_TO_ASPECT. -/
def KIND_TO_ASPECT : List (String × String) :=
  [("BACKGROUND", "id-1-ff"),
   ("FRAME", "id-1-ff"),
   ("CHARACTER", "id-1-ff"),
   ("MASK", "id-1-ff"),
   ("LABEL", "id-1-ff")]

/-- transform.derive_aspect_id; `Except.error` models raising
UnknownAspectError.  `(kind or "")` is the identity on strings. -/
def derive_aspect_id (kind : String) : Except String String :=
  let key := pyUpper kind
  match (KIND_TO_ASPECT.lookup key) with
  | some v => Except.ok v
  | none => Except.error ("未识别的图片类型: " ++ kind)

/-- transform.build_image_labels, mirroring the three sequential appends. -/
def build_image_labels (kind : String) (category : Option String)
    (workshop : Bool) : List String :=
  let labels : List String := []
  let labels := if kind ≠ "" then labels ++ [pyLower kind] else labels
  let labels :=
    match category with
    | none => labels
    | some c =>
        if c ≠ "" then
          let normalized := pyTrim c
          if normalized ≠ "" then labels ++ [pyLower normalized] else labels
        else labels
  let labels := if workshop then labels ++ ["workshop"] else labels
  labels

/-- transform.build_image_name. -/
def build_image_name (label : Option String) (trace_id : Option String) :
    String :=
  let lv := label.getD ""
  if lv ≠ "" ∧ pyTrim lv ≠ "" then pyTrim lv
  else
    let tv := trace_id.getD ""
    if tv ≠ "" ∧ pyTrim tv ≠ "" then pyTrim tv
    else ""

/-! ## merge.py : data model -/

/-- A row of the legacy `users` table as read by merge.py
(`SELECT id, username, hashed_password, email, created_at`). -/
structure SrcUser where
  id : String
  username : Option String
  hashed_password : String
  email : String
  created_at : Option Int
deriving DecidableEq

/-- A row of the legacy `images` table as read by merge.py. -/
structure SrcImage where
  uuid : String
  kind : String
  label : Option String
  file_name : String
  uploaded_by : Option String
  uploaded_at : Option Int
  category : Option String
  trace_id : Option String
deriving DecidableEq

/-- A row of the target `tbl_user` table (merge.py variant). -/
structure TblUserRow where
  id : String
  username : Option String
  hashed_password : String
  email : String
  permissions : String
  created_at : Int
  updated_at : Int
deriving DecidableEq

/-- The payload dict built by `_adapt_user_row` (the `permissions` column is
supplied as a literal by the INSERT statement, not by the dict). -/
structure UserEntry where
  id : String
  username : Option String
  hashed_password : String
  email : String
  created_at : Int
  updated_at : Int
deriving DecidableEq

/-- A row of the target `tbl_image` table (merge.py variant); also the shape
of the payload dict of `_adapt_image_row` (whose redundant `uuid` key, unused
by the INSERT, is not carried). -/
structure TblImageRow where
  id : String
  user_id : String
  aspect_id : String
  name : String
  description : String
  visibility : Int
  labels : List String
  original_name : String
  original_id : Option String
  created_at : Int
  updated_at : Int
deriving DecidableEq

/-- A row of `tbl_image_aspect`. -/
structure AspectRow where
  id : String
  name : String
  description : String
  ratio_width_unit : Int
  ratio_height_unit : Int
deriving DecidableEq

/-! ## merge.py : helpers -/

/-- merge._ensure_datetime.  Null becomes migration time; the timezone
normalisation is the identity on the naive integers of this model. -/
def _ensure_datetime (value : Option Int) (now : Int) : Int :=
  value.getD now

/-- merge._adapt_user_row; `freshId` is the `uuid.uuid4()` drawn for the row. -/
def _adapt_user_row (row : SrcUser) (freshId : String) (now : Int) : UserEntry :=
  { id := freshId
    username := row.username
    hashed_password := row.hashed_password
    email := row.email
    created_at := _ensure_datetime row.created_at now
    updated_at := now }

/-- merge._collect_existing_ids over `tbl_user` (a set of id strings;
membership in the list realises set membership). -/
def collectUserIds (table : List TblUserRow) : List String :=
  table.map (·.id)

/-- merge._collect_existing_ids over `tbl_image`. -/
def collectImageIds (table : List TblImageRow) : List String :=
  table.map (·.id)

/-- The dict comprehension over `SELECT username, id FROM tbl_user` used both
by `_upsert_users` and by `merge_images` (`str(row.username)` maps a NULL
username to the string None, as `pyStr` does). -/
def targetUsernameDict (table : List TblUserRow) : List (String × String) :=
  dictOf (table.map (fun r => (pyStr r.username, r.id)))

/-- The per-entry filter of `_upsert_users`: drop an entry whose username is
already taken by a different id (truthiness of `existing_id` included). -/
def userEntryKept (existing : List (String × String)) (e : UserEntry) : Bool :=
  match e.username with
  | none => true
  | some u =>
      match dget existing u with
      | some existing_id =>
          if existing_id ≠ "" ∧ existing_id ≠ e.id then false else true
      | none => true

/-- The `filtered` list computed inside `_upsert_users`. -/
def filteredUserPayload (table : List TblUserRow) (payload : List UserEntry) :
    List UserEntry :=
  payload.filter (userEntryKept (targetUsernameDict table))

/-- One parameter row of the `INSERT INTO tbl_user ... ON CONFLICT (id) DO
UPDATE` statement: update the matching row (permissions and created_at are
not in the update list), else append a new row with permissions set by the
literal in the VALUES clause. -/
def upsertUserRow (table : List TblUserRow) (e : UserEntry) : List TblUserRow :=
  if table.any (fun r => r.id == e.id) then
    table.map (fun r =>
      if r.id == e.id then
        { r with
            username := e.username
            hashed_password := e.hashed_password
            email := e.email
            updated_at := e.updated_at }
      else r)
  else
    table ++
      [{ id := e.id
         username := e.username
         hashed_password := e.hashed_password
         email := e.email
         permissions := "\x7b\x7d"
         created_at := e.created_at
         updated_at := e.updated_at }]

/-- merge._upsert_users: re-read the username map from the current table,
filter the payload, and execute the upsert over the surviving rows. -/
def _upsert_users (table : List TblUserRow) (payload : List UserEntry) :
    List TblUserRow :=
  if payload.isEmpty then table
  else
    let filtered := filteredUserPayload table payload
    if filtered.isEmpty then table
    else filtered.foldl upsertUserRow table

/-! ## merge.py : merge_users -/

/-- The mutable state of the `merge_users` row loop (`k` counts the
`uuid.uuid4()` calls made so far). -/
structure UsersLoopState where
  summary : MergeSectionResult
  payload : List UserEntry
  existing_ids : List String
  table : List TblUserRow
  k : Nat

/-- One iteration of the `merge_users` row loop, including the batch flush. -/
def usersStep (batch_size : Nat) (fresh : Nat → String) (now : Int)
    (st : UsersLoopState) (row : SrcUser) : UsersLoopState :=
  let summary := { st.summary with processed := st.summary.processed + 1 }
  let entry := _adapt_user_row row (fresh st.k) now
  let k := st.k + 1
  let (summary, existing_ids) :=
    if row.id ∈ st.existing_ids then
      ({ summary with updated := summary.updated + 1 }, st.existing_ids)
    else
      ({ summary with inserted := summary.inserted + 1 },
       row.id :: st.existing_ids)
  let payload := st.payload ++ [entry]
  if payload.length ≥ batch_size then
    { summary, payload := [], existing_ids
      table := _upsert_users st.table payload, k }
  else
    { summary, payload, existing_ids, table := st.table, k }

/-- The `merge_users` row loop. -/
def usersLoop (batch_size : Nat) (fresh : Nat → String) (now : Int) :
    List SrcUser → UsersLoopState → UsersLoopState
  | [], st => st
  | row :: rows, st =>
      usersLoop batch_size fresh now rows (usersStep batch_size fresh now st row)

/-- merge.merge_users: the users section against a given source row list and
target `tbl_user` table. -/
def merge_users (rows : List SrcUser) (table : List TblUserRow)
    (batch_size : Nat) (fresh : Nat → String) (now : Int) :
    MergeSectionResult × List TblUserRow :=
  let st0 : UsersLoopState :=
    { summary := {}, payload := [], existing_ids := collectUserIds table
      table := table, k := 0 }
  let st := usersLoop batch_size fresh now rows st0
  let table := if st.payload.isEmpty then st.table
               else _upsert_users st.table st.payload
  (st.summary, table)

/-! ## merge.py : ensure_required_aspects and merge_images -/

/-- The single row of the `required` dict in ensure_required_aspects. -/
def DEFAULT_ASPECT : AspectRow :=
  { id := "id-1-ff"
    name := "ISO 7810 ID-1 FF"
    description := "ISO 7810 ID-1 全画幅平铺"
    ratio_width_unit := 768
    ratio_height_unit := 1220 }

/-- merge.ensure_required_aspects: read the matching ids, compute the missing
rows, and insert them with `ON CONFLICT (id) DO NOTHING`. -/
def ensure_required_aspects (table : List AspectRow) : List AspectRow :=
  let required : List (String × AspectRow) := [("id-1-ff", DEFAULT_ASPECT)]
  let existing := (table.filter (fun r => r.id == "id-1-ff")).map (·.id)
  let missing := (required.filter (fun p => !(existing.contains p.1))).map (·.2)
  if missing.isEmpty then table
  else
    missing.foldl
      (fun t d => if t.any (fun r => r.id == d.id) then t else t ++ [d]) table

/-- merge._adapt_image_row. -/
def _adapt_image_row (row : SrcImage) (aspect_id : String) (user_id : String)
    (visibility : Int) (workshop : Bool) (now : Int) : TblImageRow :=
  { id := row.uuid
    user_id := user_id
    aspect_id := aspect_id
    name := build_image_name row.label row.trace_id
    description := ""
    visibility := visibility
    labels := build_image_labels row.kind row.category workshop
    original_name := row.file_name
    original_id := row.trace_id
    created_at := _ensure_datetime row.uploaded_at now
    updated_at := now }

/-- One parameter row of `_upsert_images` (merge.py): `ON CONFLICT (id) DO
UPDATE` sets every column except `created_at`. -/
def upsertImageRow (table : List TblImageRow) (e : TblImageRow) :
    List TblImageRow :=
  if table.any (fun r => r.id == e.id) then
    table.map (fun r => if r.id == e.id then { e with created_at := r.created_at } else r)
  else table ++ [e]

/-- The `source_id_to_username` dict of merge_images (value may be a NULL
username, which the later `is None` test treats like a missing key). -/
def sourceIdToUsername (users : List SrcUser) : List (String × Option String) :=
  dictOf (users.map (fun r => (r.id, r.username)))

/-- The state of the `merge_images` row loop.  `_upsert_images` is write-only
and nothing in the loop reads `tbl_image` back, so flushed batches are
accumulated in `written` and applied as one sequential fold at the end, which
yields the same table as flushing each batch in place. -/
structure ImagesLoopState where
  summary : MergeSectionResult
  payload : List TblImageRow
  existing_uuids : List String
  written : List TblImageRow

/-- The uploader resolution of one `merge_images` row: the source does three
successive checked steps (admin fallback for a NULL uploader, source id to
username, username to target id), each failing into a per-row skip; the
result carries the chosen user id and visibility. -/
def imgResolve (srcMap : List (String × Option String))
    (tgtMap : List (String × String)) (admin : Option String) (row : SrcImage) :
    Option (String × Int) :=
  match row.uploaded_by with
  | none =>
      match admin with
      | none => none
      | some a => some (a, 1)
  | some src_uid =>
      match (dget srcMap src_uid).join with
      | none => none
      | some username =>
          match dget tgtMap username with
          | none => none
          | some tgt_user_id => some (tgt_user_id, 0)

/-- One iteration of the `merge_images` row loop: resolve the uploader (or
fall back to the admin user), derive the aspect, adapt the row, reconcile the
uuid, and flush a full batch. -/
def imagesStep (srcMap : List (String × Option String))
    (tgtMap : List (String × String)) (admin : Option String) (batch_size : Nat)
    (now : Int) (st : ImagesLoopState) (row : SrcImage) : ImagesLoopState :=
  let summary := { st.summary with processed := st.summary.processed + 1 }
  match imgResolve srcMap tgtMap admin row with
  | none => { st with summary := { summary with skipped := summary.skipped + 1 } }
  | some (user_id, visibility) =>
      match derive_aspect_id row.kind with
      | Except.error _ =>
          { st with summary := { summary with skipped := summary.skipped + 1 } }
      | Except.ok aspect_id =>
          let entry :=
            _adapt_image_row row aspect_id user_id visibility
              (row.uploaded_by ≠ none) now
          let (summary, existing_uuids) :=
            if row.uuid ∈ st.existing_uuids then
              ({ summary with updated := summary.updated + 1 }, st.existing_uuids)
            else
              ({ summary with inserted := summary.inserted + 1 },
               row.uuid :: st.existing_uuids)
          let payload := st.payload ++ [entry]
          if payload.length ≥ batch_size then
            { summary, payload := [], existing_uuids
              written := st.written ++ payload }
          else
            { summary, payload, existing_uuids, written := st.written }

/-- The `merge_images` row loop. -/
def imagesLoop (srcMap : List (String × Option String))
    (tgtMap : List (String × String)) (admin : Option String) (batch_size : Nat)
    (now : Int) : List SrcImage → ImagesLoopState → ImagesLoopState
  | [], st => st
  | row :: rows, st =>
      imagesLoop srcMap tgtMap admin batch_size now rows
        (imagesStep srcMap tgtMap admin batch_size now st row)

/-- merge.merge_images.  The `Except.error` branch models the ValueError for
an unknown admin-user-id; in the source the preceding aspect insert has
already hit the (soon rolled back) transaction, which is observationally the
same as returning no state, since every raise ends in a full rollback. -/
def merge_images (src_users : List SrcUser) (rows : List SrcImage)
    (tbl_user : List TblUserRow) (tbl_image : List TblImageRow)
    (tbl_image_aspect : List AspectRow) (batch_size : Nat)
    (admin_user_id : Option String) (now : Int) :
    Except String (MergeSectionResult × List TblImageRow × List AspectRow) :=
  let aspects := ensure_required_aspects tbl_image_aspect
  let srcMap := sourceIdToUsername src_users
  let tgtMap := targetUsernameDict tbl_user
  let existing_uuids := collectImageIds tbl_image
  let known_user_ids := dvalues tgtMap
  let adminUnknown :=
    match admin_user_id with
    | some a => !(known_user_ids.contains a)
    | none => false
  if adminUnknown then
    Except.error "admin-user-id 不存在于目标库的 tbl_user 中"
  else
    let st :=
      imagesLoop srcMap tgtMap admin_user_id batch_size now rows
        { summary := {}, payload := [], existing_uuids := existing_uuids
          written := [] }
    let written := st.written ++ st.payload
    Except.ok (st.summary, written.foldl upsertImageRow tbl_image, aspects)

/-! ## merge.py : run_merge -/

/-- merge.MergeConfig. -/
structure MergeConfig where
  source_url : String
  target_url : String
  batch_size : Nat := 500
  dry_run : Bool := false
  admin_user_id : Option String := none

/-- merge.MergeResult. -/
structure MergeResult where
  users : MergeSectionResult
  images : MergeSectionResult
deriving DecidableEq

/-- The source database read by merge.py. -/
structure SourceDB where
  users : List SrcUser
  images : List SrcImage
deriving DecidableEq

/-- The target database written by merge.py. -/
structure TargetDB where
  tbl_user : List TblUserRow
  tbl_image : List TblImageRow
  tbl_image_aspect : List AspectRow
deriving DecidableEq

/-- The fate of one database transaction at the end of a run. -/
inductive TxFate
  | committed
  | rolledBack
deriving DecidableEq

/-- The body of the `try:` block of run_merge: the users section followed by
the images section, on the two open transactions. -/
def run_merge_body (config : MergeConfig) (src : SourceDB) (tgt : TargetDB)
    (fresh : Nat → String) (now : Int) :
    Except String (MergeResult × TargetDB) :=
  let usersOut := merge_users src.users tgt.tbl_user config.batch_size fresh now
  match merge_images src.users src.images usersOut.2 tgt.tbl_image
      tgt.tbl_image_aspect config.batch_size config.admin_user_id now with
  | Except.error e => Except.error e
  | Except.ok (images_summary, tbl_image, tbl_image_aspect) =>
      Except.ok
        ({ users := usersOut.1, images := images_summary },
         { tbl_user := usersOut.2, tbl_image := tbl_image
           tbl_image_aspect := tbl_image_aspect })

/-- The observable outcome of run_merge: the returned (or re-raised) result,
the state each database is left in after commit/rollback, and the fate of
each transaction.  A rollback restores the state the transaction began with;
the sections only read from the source, so its committed state is unchanged. -/
structure RunMergeOutcome where
  result : Except String MergeResult
  finalSource : SourceDB
  finalTarget : TargetDB
  source_tx : TxFate
  target_tx : TxFate

/-- merge.run_merge: run the body, then commit both transactions on success
without dry-run, and roll both back (re-raising any exception unchanged)
otherwise. -/
def run_merge (config : MergeConfig) (src : SourceDB) (tgt : TargetDB)
    (fresh : Nat → String) (now : Int) : RunMergeOutcome :=
  match run_merge_body config src tgt fresh now with
  | Except.error e =>
      { result := Except.error e, finalSource := src, finalTarget := tgt
        source_tx := TxFate.rolledBack, target_tx := TxFate.rolledBack }
  | Except.ok (res, tgt1) =>
      if config.dry_run then
        { result := Except.ok res, finalSource := src, finalTarget := tgt
          source_tx := TxFate.rolledBack, target_tx := TxFate.rolledBack }
      else
        { result := Except.ok res, finalSource := src, finalTarget := tgt1
          source_tx := TxFate.committed, target_tx := TxFate.committed }

/-! ## merge_up.py : data model -/

/-- Python `x or d` for an optional integer column (0 is falsy). -/
def pyOrInt (v : Option Int) (d : Int) : Int :=
  match v with
  | none => d
  | some x => if x = 0 then d else x

/-- Python `s or d` for a string (the empty string is falsy). -/
def pyOrStr (s : String) (d : String) : String :=
  if s = "" then d else s

/-- merge_up._null_to_empty (`value or ""`). -/
def _null_to_empty (value : Option String) : String :=
  value.getD ""

/-- merge_up._coerce_bool; the legacy flag arrives as null/bool/int, modelled
as an optional integer (a bool being 0 or 1). -/
def _coerce_bool (value : Option Int) (default : Bool) : Bool :=
  match value with
  | none => default
  | some v => v != 0

/-- A raw row of the legacy `users` table as read by merge_up. -/
structure RawUpUser where
  username : String
  prefer_server : Option String
  created_at : Option Int
  updated_at : Option Int
deriving DecidableEq

/-- A raw row of the legacy `user_accounts` table. -/
structure RawUpAccount where
  account_name : String
  account_server : Option String
  account_password : String
  nickname : String
  bind_qq : String
  player_rating : Option Int
  username : String
  created_at : Option Int
  updated_at : Option Int
deriving DecidableEq

/-- A raw row of the legacy `user_preferences` table. -/
structure RawUpPreference where
  username : String
  maimai_version : Option String
  simplified_code : Option String
  character_name : Option String
  friend_code : Option String
  display_name : Option String
  dx_rating : Option String
  qr_size : Option Int
  mask_type : Option Int
  character_id : Option String
  background_id : Option String
  frame_id : Option String
  passname_id : Option String
  chara_info_color : Option String
  show_date : Option Int
deriving DecidableEq

/-- A raw row of the legacy `images` table as read by merge_up. -/
structure RawUpImage where
  id : String
  name : Option String
  kind : String
  sega_name : Option String
  uploaded_by : Option String
  uploaded_at : Option Int
deriving DecidableEq

/-- merge_up.SourceUser (the loaded record). -/
structure SourceUser where
  username : String
  prefer_server : String
  created_at : Int
  updated_at : Int
deriving DecidableEq

/-- merge_up.SourceAccount. -/
structure SourceAccount where
  username : String
  account_name : String
  account_server : String
  account_password : String
  nickname : String
  bind_qq : String
  player_rating : Int
  created_at : Int
  updated_at : Int
deriving DecidableEq

/-- merge_up.SourcePreference. -/
structure SourcePreference where
  username : String
  maimai_version : String
  simplified_code : String
  character_name : String
  friend_code : String
  display_name : String
  dx_rating : String
  qr_size : Int
  mask_type : Int
  character_id : String
  background_id : String
  frame_id : String
  passname_id : String
  chara_info_color : String
  show_date : Bool
deriving DecidableEq

/-- merge_up.MigratedUser. -/
structure MigratedUser where
  source : SourceUser
  new_user_id : String
  new_username : String
  prefer_server : String
  primary_account : SourceAccount
  accounts : List SourceAccount
deriving DecidableEq

/-- One value of merge_up.SERVER_RULES (the source's `prefix` key is named
`prefixTag` here). -/
structure ServerRule where
  prefixTag : String
  strategy : Int
  identifier : String
deriving DecidableEq

/-- merge_up.SERVER_RULES. -/
def SERVER_RULES : List (String × ServerRule) :=
  [("DIVING_FISH",
    { prefixTag := "dvfh_", strategy := 1, identifier := "divingfish" }),
   ("LXNS",
    { prefixTag := "lxns_", strategy := 2, identifier := "lxns" })]

/-- A row of the leporid `tbl_user` table; also the shape of the payload dict
built by `_migrate_users`. -/
structure LeporidUserRow where
  id : String
  username : String
  password : String
  email : String
  permissions : String
  created_at : Int
  updated_at : Int
deriving DecidableEq

/-- A row of leporid `tbl_user_third_party`. -/
structure ThirdPartyRow where
  id : String
  user_id : String
  username : String
  strategy : Int
  created_at : Int
  updated_at : Int
deriving DecidableEq

/-- A row of usagipass `tbl_server`. -/
structure ServerRow where
  id : Int
  identifier : Option String
deriving DecidableEq

/-- A row of usagipass `tbl_account`. -/
structure AccountRow where
  id : String
  user_id : String
  server_id : Int
  credentials : String
  enabled : Bool
  created_at : Int
  updated_at : Int
deriving DecidableEq

/-- A row of usagipass `tbl_rating`. -/
structure RatingRow where
  user_id : String
  name : String
  rating : Int
  friend_code : String
  updated_at : Int
deriving DecidableEq

/-- The payload dict built by `_build_preference_row` (it carries an
`enable_mask` key that the INSERT statement does not use). -/
structure PreferenceEntry where
  user_id : String
  maimai_version : String
  simplified_code : String
  character_name : String
  friend_code : String
  display_name : String
  dx_rating : String
  qr_size : Int
  mask_type : Int
  player_info_color : String
  chara_info_color : String
  show_dx_rating : Bool
  show_display_name : Bool
  show_friend_code : Bool
  enable_mask : Bool
  show_date : Bool
  character_id : String
  mask_id : String
  background_id : String
  frame_id : String
  passname_id : String
deriving DecidableEq

/-- A row of usagipass `tbl_preference` (the columns the INSERT writes). -/
structure PreferenceRow where
  user_id : String
  maimai_version : String
  simplified_code : String
  character_name : String
  friend_code : String
  display_name : String
  dx_rating : String
  qr_size : Int
  mask_type : Int
  player_info_color : String
  chara_info_color : String
  show_dx_rating : Bool
  show_display_name : Bool
  show_friend_code : Bool
  show_date : Bool
  character_id : String
  mask_id : String
  background_id : String
  frame_id : String
  passname_id : String
deriving DecidableEq

/-- A row of leporid `tbl_image` (the merge_up target image schema). -/
structure LeporidImageRow where
  id : String
  user_id : String
  aspect_id : String
  name : String
  description : String
  visibility : Int
  labels : List String
  file_name : Option String
  metadata_id : Option String
  created_at : Int
  updated_at : Int
deriving DecidableEq

/-- merge_up.uuid_mapping: the hardcoded static override table. -/
def uuid_mapping : List (String × String) :=
  [("1051f05f-d605-4b73-93b8-66c6e32c4979", "bce7437d-0243-4b03-8ee4-90cf069fb403"),
   ("1a0bbc52-a927-45ef-b81d-a14c0442b563", "dce699fc-6878-43d6-b7fc-ce2d2d5afb40"),
   ("1c30bd9d-a0be-434f-96a3-31a34291ebc6", "deff9fde-4542-4dad-aa60-15b8848b2513"),
   ("1ed53623-0107-4b20-bd6b-699b27ad5b09", "84adfa36-69b7-491e-8faf-ecfeca08ba2c"),
   ("268a5b81-1e53-42aa-aaf0-4d17936d7116", "039f9d39-4bc1-4569-b4c1-ae5b7c6483c1"),
   ("2e0265e4-89b5-4977-86d4-96f961960561", "fcab9c9c-0be7-4d14-9172-72f10ee4282e"),
   ("3f9e16ad-cd47-4910-a4e5-d8c222976791", "cad4cc4f-0073-42e8-8596-bd22a7f5193d"),
   ("4091f5b5-f08e-45f3-ab0b-53249f3609e2", "f56964ac-6940-40b0-bb31-bd60afa064d2"),
   ("596a0a0e-721a-4fc4-a49b-b54f612d75e5", "1d4628b8-c1e8-4c8c-9d75-c6cb08cead0c"),
   ("77e8169b-e48f-43f0-b4ed-e9fd3c87805b", "23164b47-1cd4-4c39-b895-488eba89b8ab"),
   ("7d25b953-39b3-41a3-aec3-3cfa5e2d7adb", "b916c283-7003-4bec-b1d1-950ecb5b79ff"),
   ("888794e2-8d8a-4838-9d0f-d3e8d06d9b30", "3b57ce3f-e2d4-4165-844c-0d0d39fbbab2"),
   ("8eb3efbf-b199-48b3-aa08-fd427ac91cc9", "7e30dae1-d1f8-47bd-a6ff-56ac5983e6e2"),
   ("944d9a96-2774-4f4a-a9f9-422fb5f5f1a6", "ce79feda-4f5e-47fc-95bc-23f1e293570b"),
   ("adb6b3e9-b7f5-4724-946a-ef35be51603e", "6a742fd3-f9e2-4edf-ab65-9208fae30d36"),
   ("b0456170-441f-4dc1-81ce-fe549d442e90", "f7d4c8a8-9028-4375-9908-1ee59aadc18b"),
   ("b1c34d34-d086-4a08-9c96-df9b6dfe701f", "380e61f5-78a7-49c4-ba2e-013277f2741a"),
   ("b4152ca1-4722-414a-8b43-7483154bf217", "a23b0140-42e6-43df-b303-34596cb389be"),
   ("dd5043d8-02ef-4f94-877e-de236c048a02", "d9fd855e-d44b-48d0-aa0e-bf9c966e7ed9"),
   ("f0a98df7-7b0a-4e60-bfe9-5ce419713d34", "d46688e2-ace7-40ce-b76a-f89e11a016ff"),
   ("7a54e27d-0908-45be-a4f2-5a32021e26f9", "f363a632-4b9f-41de-824b-43bd010b9975"),
   ("48de8539-d700-4323-8e18-218c1751fd7b", "2aa7c158-875e-4cb1-96b1-65446917e4dc"),
   ("da6224bd-b7a3-4d29-8ba4-337347cba745", "036f4e1b-75f9-428c-9bab-180547bfaa3c"),
   ("d94e8c0d-15ac-47f6-92d1-d0fe6ffb99f8", "421943e9-2221-45f1-8f76-5a1ca012028e"),
   ("6c990fb7-beca-4ce5-93a7-f19f5e591a4d", "b86508d5-1aba-45b0-b66a-c91f2efcd319"),
   ("de4ba22d-37b4-43e9-8eaa-845f3e1b02b1", "fa52e0c6-656a-4812-818b-fb19455b1043"),
   ("76675abf-c8de-4486-b673-587e3b3e7f8f", "421943e9-2221-45f1-8f76-5a1ca012028e"),
   ("10843d4c-5522-4fb5-943c-9e4da8966d5a", "d46688e2-ace7-40ce-b76a-f89e11a016ff"),
   ("25776251-7a69-4265-a076-a3f8a526aee6", "d46688e2-ace7-40ce-b76a-f89e11a016ff"),
   ("2c4bc603-322a-4e7b-a5be-083ef3143583", "d46688e2-ace7-40ce-b76a-f89e11a016ff"),
   ("2d3fa0aa-5bc0-48a1-bcb6-ae05c94dfdb5", "d46688e2-ace7-40ce-b76a-f89e11a016ff"),
   ("2e104068-2394-4337-b87b-9c03b39ec552", "d46688e2-ace7-40ce-b76a-f89e11a016ff"),
   ("2f49c787-0e8a-40ca-adf2-0c665a93e942", "d46688e2-ace7-40ce-b76a-f89e11a016ff"),
   ("40a158db-0e11-466b-919d-ac4e4307ecea", "d46688e2-ace7-40ce-b76a-f89e11a016ff"),
   ("418737b1-8e60-4221-87cd-eb984ee47f10", "d46688e2-ace7-40ce-b76a-f89e11a016ff"),
   ("4f54a8d1-4c60-414a-8846-d60ecf37b50b", "d46688e2-ace7-40ce-b76a-f89e11a016ff"),
   ("50fa5f8e-5fcb-4407-aeb9-953c24fe192d", "d46688e2-ace7-40ce-b76a-f89e11a016ff"),
   ("6764ee42-09e3-4123-9e06-476b50fc1d8e", "d46688e2-ace7-40ce-b76a-f89e11a016ff"),
   ("a9aa77c8-8a75-4446-a4f9-7b42e5e84014", "d46688e2-ace7-40ce-b76a-f89e11a016ff"),
   ("c809fa61-8a3a-40c5-a25c-4fa7353b28d5", "d46688e2-ace7-40ce-b76a-f89e11a016ff"),
   ("e3976992-97b7-4e3a-8a8f-b21e531a5b77", "d46688e2-ace7-40ce-b76a-f89e11a016ff"),
   ("f0ce2fde-99a7-4619-8059-3ed902d6d301", "d46688e2-ace7-40ce-b76a-f89e11a016ff"),
   ("f973d4f4-e1d4-468c-a38b-ea5bcd6232f3", "d46688e2-ace7-40ce-b76a-f89e11a016ff")]

/-! ## merge_up.py : loaders and small helpers -/

/-- merge_up._load_source_users. -/
def _load_source_users (rows : List RawUpUser) (now : Int) : List SourceUser :=
  rows.map (fun row =>
    { username := row.username
      prefer_server := pyUpper (row.prefer_server.getD "")
      created_at := _ensure_datetime row.created_at now
      updated_at := _ensure_datetime row.updated_at now })

/-- merge_up._load_source_accounts. -/
def _load_source_accounts (rows : List RawUpAccount) (now : Int) :
    List SourceAccount :=
  rows.map (fun row =>
    { username := row.username
      account_name := row.account_name
      account_server := pyUpper (row.account_server.getD "")
      account_password := row.account_password
      nickname := row.nickname
      bind_qq := row.bind_qq
      player_rating := pyOrInt row.player_rating 0
      created_at := _ensure_datetime row.created_at now
      updated_at := _ensure_datetime row.updated_at now })

/-- merge_up._load_source_preferences. -/
def _load_source_preferences (rows : List RawUpPreference) :
    List SourcePreference :=
  rows.map (fun row =>
    { username := row.username
      maimai_version := _null_to_empty row.maimai_version
      simplified_code := _null_to_empty row.simplified_code
      character_name := _null_to_empty row.character_name
      friend_code := _null_to_empty row.friend_code
      display_name := _null_to_empty row.display_name
      dx_rating := _null_to_empty row.dx_rating
      qr_size := pyOrInt row.qr_size 15
      mask_type := pyOrInt row.mask_type 0
      character_id := _null_to_empty row.character_id
      background_id := _null_to_empty row.background_id
      frame_id := _null_to_empty row.frame_id
      passname_id := _null_to_empty row.passname_id
      chara_info_color := pyOrStr (_null_to_empty row.chara_info_color) "#fee37c"
      show_date := _coerce_bool row.show_date true })

/-- merge_up._load_source_images (`WHERE uploaded_by IS NOT NULL`). -/
def _load_source_images (rows : List RawUpImage) : List RawUpImage :=
  rows.filter (fun row => row.uploaded_by ≠ none)

/-- merge_up._collect_existing_usernames over leporid `tbl_user`. -/
def _collect_existing_usernames (table : List LeporidUserRow) :
    List (String × String) :=
  dictOf (table.map (fun r => (r.username, r.id)))

/-- The identifier-to-id mapping loop of merge_up._load_server_ids:
normalise each identifier and skip blank ones. -/
def serverMapping (rows : List ServerRow) : List (String × Int) :=
  rows.foldl
    (fun m row =>
      let identifier := pyLower (pyTrim (row.identifier.getD ""))
      if identifier = "" then m else dictInsert m identifier row.id) []

/-- merge_up._load_server_ids: build the mapping, then require divingfish and
lxns (RuntimeError becomes `Except.error`; the missing set sorts into the
divingfish-then-lxns order the filter produces). -/
def _load_server_ids (rows : List ServerRow) :
    Except String (List (String × Int)) :=
  let mapping := serverMapping rows
  let missing := ["divingfish", "lxns"].filter (fun r => !(dmem mapping r))
  if missing.isEmpty then Except.ok mapping
  else
    Except.error
      ("Usagipass 数据库缺少 server 标识: " ++ String.intercalate ", " missing)

/-- merge_up._select_primary_account. -/
def _select_primary_account (prefer_server : String)
    (accounts : List SourceAccount) : Option SourceAccount :=
  accounts.find? (fun a => a.account_server == prefer_server)

/-- The `accounts_by_user` defaultdict built in _execute_merge_up
(grouping preserves the relative order of a user's accounts). -/
def accountsByUser (accounts : List SourceAccount) (username : String) :
    List SourceAccount :=
  accounts.filter (fun a => a.username == username)

/-- The generator loop of merge_up._chunked: append each item to the current
chunk, flush when the chunk reaches `size` items, and yield a final partial
chunk. -/
def chunkLoop {α : Type} (size : Nat) : List α → List α → List (List α)
  | [], chunk => if chunk.isEmpty then [] else [chunk]
  | item :: rest, chunk =>
      let chunk := chunk ++ [item]
      if chunk.length ≥ size then chunk :: chunkLoop size rest []
      else chunkLoop size rest chunk

/-- merge_up._chunked. -/
def _chunked {α : Type} (sz : Nat) (sequence : List α) : List (List α) :=
  chunkLoop sz sequence []

/-! ## merge_up.py : users section -/

/-- The state of the `_migrate_users` loop: counters, accumulated MigratedUser
records and payload, the mutated `existing_users` dict, and the counters of
the uuid (`k`) and password-hash (`j`) streams. -/
structure UpUsersState where
  summary : MergeSectionResult
  migrated : List MigratedUser
  payload : List LeporidUserRow
  existing_users : List (String × String)
  k : Nat
  j : Nat

/-- The primary-account choice of `_migrate_users`: the preferred-server
account when it exists and its server is supported, otherwise the first
account with a supported server. -/
def upUserChoice (accounts : List SourceAccount) (user : SourceUser) :
    Option SourceAccount :=
  match _select_primary_account user.prefer_server accounts with
  | some p =>
      if (SERVER_RULES.lookup p.account_server).isSome then some p
      else accounts.find? (fun a => (SERVER_RULES.lookup a.account_server).isSome)
  | none =>
      accounts.find? (fun a => (SERVER_RULES.lookup a.account_server).isSome)

/-- One iteration of the `_migrate_users` loop over a source user. -/
def upUsersStep (abu : String → List SourceAccount) (fresh phash : Nat → String)
    (st : UpUsersState) (user : SourceUser) : UpUsersState :=
  let summary := { st.summary with processed := st.summary.processed + 1 }
  let accounts := abu user.username
  if accounts.isEmpty then
    { st with summary := { summary with skipped := summary.skipped + 1 } }
  else
    match upUserChoice accounts user with
    | none =>
        { st with summary := { summary with skipped := summary.skipped + 1 } }
    | some primary =>
        match SERVER_RULES.lookup primary.account_server with
        | none =>
            -- unreachable: primaryOpt only selects supported servers
            { st with summary := { summary with skipped := summary.skipped + 1 } }
        | some server_rule =>
            let new_username := server_rule.prefixTag ++ primary.account_name
            let reuse := dget st.existing_users new_username
            let new_user_id :=
              match reuse with
              | some existing_id => existing_id
              | none => fresh st.k
            let summary :=
              match reuse with
              | some _ => { summary with updated := summary.updated + 1 }
              | none => { summary with inserted := summary.inserted + 1 }
            let existing_users :=
              match reuse with
              | some _ => st.existing_users
              | none => dictInsert st.existing_users new_username new_user_id
            let k := match reuse with | some _ => st.k | none => st.k + 1
            let entry : LeporidUserRow :=
              { id := new_user_id
                username := new_username
                password := phash st.j
                email := ""
                permissions := "\x7b\x7d"
                created_at := user.created_at
                updated_at := user.updated_at }
            { summary
              migrated := st.migrated ++
                [{ source := user
                   new_user_id := new_user_id
                   new_username := new_username
                   prefer_server := primary.account_server
                   primary_account := primary
                   accounts := accounts }]
              payload := st.payload ++ [entry]
              existing_users
              k
              j := st.j + 1 }

/-- The `_migrate_users` loop. -/
def upUsersLoop (abu : String → List SourceAccount) (fresh phash : Nat → String) :
    List SourceUser → UpUsersState → UpUsersState
  | [], st => st
  | user :: users, st =>
      upUsersLoop abu fresh phash users (upUsersStep abu fresh phash st user)

/-- merge_up._migrate_users. -/
def _migrate_users (users : List SourceUser) (abu : String → List SourceAccount)
    (existing_users : List (String × String)) (fresh phash : Nat → String)
    (k0 j0 : Nat) : UpUsersState :=
  upUsersLoop abu fresh phash users
    { summary := {}, migrated := [], payload := []
      existing_users := existing_users, k := k0, j := j0 }

/-- One parameter row of the leporid `tbl_user` upsert (`ON CONFLICT (id) DO
UPDATE` sets everything except `created_at`). -/
def upsertLeporidUserRow (table : List LeporidUserRow) (e : LeporidUserRow) :
    List LeporidUserRow :=
  if table.any (fun r => r.id == e.id) then
    table.map (fun r => if r.id == e.id then { e with created_at := r.created_at } else r)
  else table ++ [e]

/-- merge_up._upsert_leporid_users: chunk the payload and upsert each chunk. -/
def _upsert_leporid_users (table : List LeporidUserRow)
    (payload : List LeporidUserRow) (batch_size : Nat) : List LeporidUserRow :=
  (_chunked batch_size payload).foldl
    (fun t chunk => chunk.foldl upsertLeporidUserRow t) table

/-! ## merge_up.py : third-party section -/

/-- One parameter row of the `tbl_user_third_party` upsert (update sets all
columns except `created_at`). -/
def upsertThirdPartyRow (table : List ThirdPartyRow) (e : ThirdPartyRow) :
    List ThirdPartyRow :=
  if table.any (fun r => r.id == e.id) then
    table.map (fun r => if r.id == e.id then { e with created_at := r.created_at } else r)
  else table ++ [e]

/-- The state of the `_migrate_third_parties` double loop.  The upsert is
write-only and nothing later in the loop reads the table, so flushed batches
accumulate in `written` and are applied as one sequential fold at the end. -/
structure TPState where
  summary : MergeSectionResult
  existing : List ((String × Int) × String)
  written : List ThirdPartyRow
  k : Nat

/-- One (user, account) iteration of `_migrate_third_parties`; an account
with an unsupported server is passed over without touching any counter. -/
def tpStep (fresh : Nat → String) (st : TPState)
    (p : MigratedUser × SourceAccount) : TPState :=
  match SERVER_RULES.lookup p.2.account_server with
  | none => st
  | some rule =>
      let summary := { st.summary with processed := st.summary.processed + 1 }
      let key := (p.2.account_name, rule.strategy)
      let reuse := dget st.existing key
      let entry_id :=
        match reuse with
        | some existing_id => existing_id
        | none => fresh st.k
      let summary :=
        match reuse with
        | some _ => { summary with updated := summary.updated + 1 }
        | none => { summary with inserted := summary.inserted + 1 }
      let existing :=
        match reuse with
        | some _ => st.existing
        | none => dictInsert st.existing key entry_id
      let k := match reuse with | some _ => st.k | none => st.k + 1
      { summary
        existing
        written := st.written ++
          [{ id := entry_id
             user_id := p.1.new_user_id
             username := p.2.account_name
             strategy := rule.strategy
             created_at := p.2.created_at
             updated_at := p.2.updated_at }]
        k }

/-- The (user, account) pairs the nested loops of the third-party and
accounts sections traverse, in traversal order. -/
def userAccountPairs (migrated : List MigratedUser) :
    List (MigratedUser × SourceAccount) :=
  migrated.flatMap (fun u => u.accounts.map (fun a => (u, a)))

/-- merge_up._migrate_third_parties; returns the summary, the table after all
flushes, and the advanced uuid counter. -/
def _migrate_third_parties (migrated : List MigratedUser)
    (table : List ThirdPartyRow) (fresh : Nat → String) (k0 : Nat) :
    MergeSectionResult × List ThirdPartyRow × Nat :=
  let existing0 := dictOf (table.map (fun r => ((r.username, r.strategy), r.id)))
  let st := (userAccountPairs migrated).foldl (tpStep fresh)
    { summary := {}, existing := existing0, written := [], k := k0 }
  (st.summary, st.written.foldl upsertThirdPartyRow table, st.k)

/-! ## merge_up.py : accounts section -/

/-- One parameter row of the `tbl_account` upsert (update sets all columns
except `created_at`). -/
def upsertAccountRow (table : List AccountRow) (e : AccountRow) :
    List AccountRow :=
  if table.any (fun r => r.id == e.id) then
    table.map (fun r => if r.id == e.id then { e with created_at := r.created_at } else r)
  else table ++ [e]

/-- The state of the `_migrate_accounts` double loop (same write-only batch
treatment as the third-party section). -/
structure AccState where
  summary : MergeSectionResult
  existing : List ((String × Int) × String)
  written : List AccountRow
  k : Nat

/-- One (user, account) iteration of `_migrate_accounts`.  A DIVING_FISH
account is counted (processed plus inserted-or-updated) and then passed over
before the payload append, so it is never written. -/
def accStep (server_ids : List (String × Int)) (fresh : Nat → String)
    (st : AccState) (p : MigratedUser × SourceAccount) : AccState :=
  match SERVER_RULES.lookup p.2.account_server with
  | none => st
  | some rule =>
      match dget server_ids rule.identifier with
      | none => st
      | some server_id =>
          let summary := { st.summary with processed := st.summary.processed + 1 }
          let key := (p.1.new_user_id, server_id)
          let reuse := dget st.existing key
          let entry_id :=
            match reuse with
            | some existing_id => existing_id
            | none => fresh st.k
          let summary :=
            match reuse with
            | some _ => { summary with updated := summary.updated + 1 }
            | none => { summary with inserted := summary.inserted + 1 }
          let existing :=
            match reuse with
            | some _ => st.existing
            | none => dictInsert st.existing key entry_id
          let k := match reuse with | some _ => st.k | none => st.k + 1
          if p.2.account_server == "DIVING_FISH" then
            { summary, existing, written := st.written, k }
          else
            { summary
              existing
              written := st.written ++
                [{ id := entry_id
                   user_id := p.1.new_user_id
                   server_id := server_id
                   credentials := p.2.account_password
                   enabled := true
                   created_at := p.2.created_at
                   updated_at := p.2.updated_at }]
              k }

/-- merge_up._migrate_accounts; returns the summary, the list of rows that
were actually sent to the upsert, the table after all flushes, and the
advanced uuid counter. -/
def _migrate_accounts (migrated : List MigratedUser)
    (server_ids : List (String × Int)) (table : List AccountRow)
    (fresh : Nat → String) (k0 : Nat) :
    MergeSectionResult × List AccountRow × List AccountRow × Nat :=
  let existing0 := dictOf (table.map (fun r => ((r.user_id, r.server_id), r.id)))
  let st := (userAccountPairs migrated).foldl (accStep server_ids fresh)
    { summary := {}, existing := existing0, written := [], k := k0 }
  (st.summary, st.written, st.written.foldl upsertAccountRow table, st.k)

/-! ## merge_up.py : ratings and preferences sections -/

/-- One parameter row of the `tbl_rating` upsert (conflict key `user_id`;
update sets every other column). -/
def upsertRatingRow (table : List RatingRow) (e : RatingRow) : List RatingRow :=
  if table.any (fun r => r.user_id == e.user_id) then
    table.map (fun r => if r.user_id == e.user_id then e else r)
  else table ++ [e]

/-- The state of the `_migrate_ratings` loop. -/
structure RatingsState where
  summary : MergeSectionResult
  existing_users : List String
  written : List RatingRow

/-- One iteration of `_migrate_ratings`. -/
def ratingsStep (st : RatingsState) (user : MigratedUser) : RatingsState :=
  let summary := { st.summary with processed := st.summary.processed + 1 }
  let written := st.written ++
    [{ user_id := user.new_user_id
       name := ""
       rating := user.primary_account.player_rating
       friend_code := ""
       updated_at := user.primary_account.updated_at }]
  if user.new_user_id ∈ st.existing_users then
    { summary := { summary with updated := summary.updated + 1 }
      existing_users := st.existing_users, written }
  else
    { summary := { summary with inserted := summary.inserted + 1 }
      existing_users := user.new_user_id :: st.existing_users, written }

/-- merge_up._migrate_ratings. -/
def _migrate_ratings (migrated : List MigratedUser) (table : List RatingRow) :
    MergeSectionResult × List RatingRow :=
  let st := migrated.foldl ratingsStep
    { summary := {}, existing_users := table.map (·.user_id), written := [] }
  (st.summary, st.written.foldl upsertRatingRow table)

/-- merge_up._build_image_uuid_lookup: join legacy `images.sega_name` with
leporid `tbl_image.file_name`. -/
def _build_image_uuid_lookup (src_images : List RawUpImage)
    (tbl_image : List LeporidImageRow) : List (String × String) :=
  let sega_name_by_id :=
    dictOf ((src_images.filter (fun r => (r.sega_name.getD "") ≠ "")).map
      (fun r => (r.id, r.sega_name.getD "")))
  if sega_name_by_id.isEmpty then []
  else
    let image_id_by_file_name :=
      dictOf ((tbl_image.filter (fun r => (r.file_name.getD "") ≠ "")).map
        (fun r => (r.file_name.getD "", r.id)))
    (dedupByKey sega_name_by_id).foldl
      (fun mapping p =>
        match dget image_id_by_file_name p.2 with
        | some target_id =>
            if target_id ≠ "" then dictInsert mapping p.1 target_id else mapping
        | none => mapping) []

/-- merge_up._resolve_image_reference: join-derived mapping first, then the
static uuid_mapping, else pass the value through. -/
def _resolve_image_reference (value : String)
    (lookup : List (String × String)) : String :=
  match dget lookup value with
  | some v => v
  | none =>
      match dget uuid_mapping value with
      | some v => v
      | none => value

/-- The default SourcePreference minted by `_build_preference_row` when the
user has no preference row. -/
def defaultSourcePreference (username : String) : SourcePreference :=
  { username := username
    maimai_version := ""
    simplified_code := ""
    character_name := ""
    friend_code := ""
    display_name := ""
    dx_rating := ""
    qr_size := 15
    mask_type := 0
    character_id := ""
    background_id := ""
    frame_id := ""
    passname_id := ""
    chara_info_color := "#fee37c"
    show_date := true }

/-- merge_up._build_preference_row. -/
def _build_preference_row (user : MigratedUser) (pref : Option SourcePreference)
    (image_uuid_lookup : List (String × String)) : PreferenceEntry :=
  let pref := pref.getD (defaultSourcePreference user.source.username)
  let character_id := _resolve_image_reference pref.character_id image_uuid_lookup
  let background_id := _resolve_image_reference pref.background_id image_uuid_lookup
  let frame_id := _resolve_image_reference pref.frame_id image_uuid_lookup
  let passname_id := _resolve_image_reference pref.passname_id image_uuid_lookup
  { user_id := user.new_user_id
    maimai_version := pref.maimai_version
    simplified_code := pref.simplified_code
    character_name := pref.character_name
    friend_code := pref.friend_code
    display_name := pref.display_name
    dx_rating := pref.dx_rating
    qr_size := pref.qr_size
    mask_type := pref.mask_type
    player_info_color := "#ffffff"
    chara_info_color := pyOrStr pref.chara_info_color "#fee37c"
    show_dx_rating := true
    show_display_name := true
    show_friend_code := true
    enable_mask := false
    show_date := pref.show_date
    character_id := character_id
    mask_id := ""
    background_id := background_id
    frame_id := frame_id
    passname_id := passname_id }

/-- Project a preference payload dict onto the columns the INSERT writes
(the `enable_mask` key is not among them). -/
def preferenceEntryToRow (e : PreferenceEntry) : PreferenceRow :=
  { user_id := e.user_id
    maimai_version := e.maimai_version
    simplified_code := e.simplified_code
    character_name := e.character_name
    friend_code := e.friend_code
    display_name := e.display_name
    dx_rating := e.dx_rating
    qr_size := e.qr_size
    mask_type := e.mask_type
    player_info_color := e.player_info_color
    chara_info_color := e.chara_info_color
    show_dx_rating := e.show_dx_rating
    show_display_name := e.show_display_name
    show_friend_code := e.show_friend_code
    show_date := e.show_date
    character_id := e.character_id
    mask_id := e.mask_id
    background_id := e.background_id
    frame_id := e.frame_id
    passname_id := e.passname_id }

/-- One parameter row of the `tbl_preference` upsert (conflict key `user_id`;
update sets every written column except `user_id`). -/
def upsertPreferenceRow (table : List PreferenceRow) (e : PreferenceEntry) :
    List PreferenceRow :=
  if table.any (fun r => r.user_id == e.user_id) then
    table.map (fun r => if r.user_id == e.user_id then preferenceEntryToRow e else r)
  else table ++ [preferenceEntryToRow e]

/-- The state of the `_migrate_preferences` loop. -/
structure PrefsState where
  summary : MergeSectionResult
  existing_users : List String
  written : List PreferenceEntry

/-- One iteration of `_migrate_preferences`. -/
def prefsStep (preferences_by_user : List (String × SourcePreference))
    (image_uuid_lookup : List (String × String)) (st : PrefsState)
    (user : MigratedUser) : PrefsState :=
  let summary := { st.summary with processed := st.summary.processed + 1 }
  let pref := dget preferences_by_user user.source.username
  let written := st.written ++ [_build_preference_row user pref image_uuid_lookup]
  if user.new_user_id ∈ st.existing_users then
    { summary := { summary with updated := summary.updated + 1 }
      existing_users := st.existing_users, written }
  else
    { summary := { summary with inserted := summary.inserted + 1 }
      existing_users := user.new_user_id :: st.existing_users, written }

/-- merge_up._migrate_preferences. -/
def _migrate_preferences (src_images : List RawUpImage)
    (lep_tbl_image : List LeporidImageRow) (migrated : List MigratedUser)
    (preferences_by_user : List (String × SourcePreference))
    (table : List PreferenceRow) : MergeSectionResult × List PreferenceRow :=
  let image_uuid_lookup := _build_image_uuid_lookup src_images lep_tbl_image
  let st := migrated.foldl (prefsStep preferences_by_user image_uuid_lookup)
    { summary := {}, existing_users := table.map (·.user_id), written := [] }
  (st.summary, st.written.foldl upsertPreferenceRow table)

/-! ## merge_up.py : images section -/

/-- merge_up._adapt_image_row_for_up. -/
def _adapt_image_row_for_up (row : RawUpImage) (aspect_id : String)
    (user_id : String) (workshop : Bool) (now : Int) : LeporidImageRow :=
  { id := row.id
    user_id := user_id
    aspect_id := aspect_id
    name := build_image_name row.name (some "")
    description := ""
    visibility := 0
    labels := build_image_labels row.kind row.sega_name workshop
    file_name := none
    metadata_id := none
    created_at := _ensure_datetime row.uploaded_at now
    updated_at := now }

/-- One parameter row of the leporid `tbl_image` upsert (update sets every
column except `created_at`). -/
def upsertLeporidImageRow (table : List LeporidImageRow) (e : LeporidImageRow) :
    List LeporidImageRow :=
  if table.any (fun r => r.id == e.id) then
    table.map (fun r => if r.id == e.id then { e with created_at := r.created_at } else r)
  else table ++ [e]

/-- The state of the `_migrate_images` loop of merge_up. -/
structure UpImagesState where
  summary : MergeSectionResult
  existing_ids : List String
  written : List LeporidImageRow

/-- One iteration of merge_up's `_migrate_images` loop. -/
def upImagesStep (migmap : List (String × MigratedUser)) (now : Int)
    (st : UpImagesState) (row : RawUpImage) : UpImagesState :=
  let summary := { st.summary with processed := st.summary.processed + 1 }
  let username := pyStr row.uploaded_by
  match dget migmap username with
  | none =>
      { st with summary := { summary with skipped := summary.skipped + 1 } }
  | some user =>
      match derive_aspect_id row.kind with
      | Except.error _ =>
          { st with summary := { summary with skipped := summary.skipped + 1 } }
      | Except.ok aspect_id =>
          let entry :=
            _adapt_image_row_for_up row aspect_id user.new_user_id
              (row.uploaded_by ≠ none) now
          let written := st.written ++ [entry]
          if row.id ∈ st.existing_ids then
            { summary := { summary with updated := summary.updated + 1 }
              existing_ids := st.existing_ids, written }
          else
            { summary := { summary with inserted := summary.inserted + 1 }
              existing_ids := row.id :: st.existing_ids, written }

/-- merge_up._migrate_images. -/
def _migrate_images_up (source_images : List RawUpImage)
    (tbl_image : List LeporidImageRow) (migrated : List MigratedUser)
    (now : Int) : MergeSectionResult × List LeporidImageRow :=
  let migmap := dictOf (migrated.map (fun u => (u.source.username, u)))
  let st := source_images.foldl (upImagesStep migmap now)
    { summary := {}, existing_ids := tbl_image.map (·.id), written := [] }
  (st.summary, st.written.foldl upsertLeporidImageRow tbl_image)

/-! ## merge_up.py : coordinator -/

/-- merge_up.MergeUpConfig. -/
structure MergeUpConfig where
  source_url : String
  leporid_url : String
  usagipass_url : String
  batch_size : Nat := 500
  dry_run : Bool := false

/-- merge_up.MergeUpResult. -/
structure MergeUpResult where
  users : MergeSectionResult
  third_parties : MergeSectionResult
  accounts : MergeSectionResult
  ratings : MergeSectionResult
  preferences : MergeSectionResult
  images : MergeSectionResult
deriving DecidableEq

/-- The legacy source database read by merge_up. -/
structure UpSourceDB where
  users : List RawUpUser
  user_accounts : List RawUpAccount
  user_preferences : List RawUpPreference
  images : List RawUpImage
deriving DecidableEq

/-- The leporid target database. -/
structure LeporidDB where
  tbl_user : List LeporidUserRow
  tbl_user_third_party : List ThirdPartyRow
  tbl_image : List LeporidImageRow
  tbl_image_aspect : List AspectRow
deriving DecidableEq

/-- The usagipass target database. -/
structure UsagipassDB where
  tbl_server : List ServerRow
  tbl_account : List AccountRow
  tbl_rating : List RatingRow
  tbl_preference : List PreferenceRow
deriving DecidableEq

/-- merge_up._execute_merge_up: load everything, check the server
pre-condition, then run the six sections in dependency order on the three
open transactions. -/
def _execute_merge_up (src : UpSourceDB) (lep : LeporidDB) (usagi : UsagipassDB)
    (batch_size : Nat) (fresh phash : Nat → String) (now : Int) :
    Except String (MergeUpResult × LeporidDB × UsagipassDB) :=
  let users := _load_source_users src.users now
  let accounts := _load_source_accounts src.user_accounts now
  let preferences := _load_source_preferences src.user_preferences
  let images := _load_source_images src.images
  let abu := accountsByUser accounts
  let preferences_by_user := dictOf (preferences.map (fun p => (p.username, p)))
  let existing_users := _collect_existing_usernames lep.tbl_user
  match _load_server_ids usagi.tbl_server with
  | Except.error e => Except.error e
  | Except.ok server_ids =>
      let ust := _migrate_users users abu existing_users fresh phash 0 0
      let lep_tbl_user := _upsert_leporid_users lep.tbl_user ust.payload batch_size
      let thirdOut := _migrate_third_parties ust.migrated lep.tbl_user_third_party
        fresh ust.k
      let accountOut := _migrate_accounts ust.migrated server_ids
        usagi.tbl_account fresh thirdOut.2.2
      let ratingOut := _migrate_ratings ust.migrated usagi.tbl_rating
      let prefOut := _migrate_preferences src.images lep.tbl_image ust.migrated
        preferences_by_user usagi.tbl_preference
      let tbl_image_aspect := ensure_required_aspects lep.tbl_image_aspect
      let imageOut := _migrate_images_up images lep.tbl_image ust.migrated now
      Except.ok
        ({ users := ust.summary
           third_parties := thirdOut.1
           accounts := accountOut.1
           ratings := ratingOut.1
           preferences := prefOut.1
           images := imageOut.1 },
         { tbl_user := lep_tbl_user
           tbl_user_third_party := thirdOut.2.1
           tbl_image := imageOut.2
           tbl_image_aspect := tbl_image_aspect },
         { tbl_server := usagi.tbl_server
           tbl_account := accountOut.2.2.1
           tbl_rating := ratingOut.2
           tbl_preference := prefOut.2 })

/-- The observable outcome of run_merge_up (same reading as
`RunMergeOutcome`, over three endpoints). -/
structure RunMergeUpOutcome where
  result : Except String MergeUpResult
  finalSource : UpSourceDB
  finalLeporid : LeporidDB
  finalUsagipass : UsagipassDB
  source_tx : TxFate
  leporid_tx : TxFate
  usagipass_tx : TxFate

/-- merge_up.run_merge_up: run the body and commit all three transactions on
success without dry-run, roll all three back (re-raising any exception
unchanged) otherwise.  The sections only read from the source database. -/
def run_merge_up (config : MergeUpConfig) (src : UpSourceDB) (lep : LeporidDB)
    (usagi : UsagipassDB) (fresh phash : Nat → String) (now : Int) :
    RunMergeUpOutcome :=
  match _execute_merge_up src lep usagi config.batch_size fresh phash now with
  | Except.error e =>
      { result := Except.error e, finalSource := src, finalLeporid := lep
        finalUsagipass := usagi, source_tx := TxFate.rolledBack
        leporid_tx := TxFate.rolledBack, usagipass_tx := TxFate.rolledBack }
  | Except.ok (res, lep1, usagi1) =>
      if config.dry_run then
        { result := Except.ok res, finalSource := src, finalLeporid := lep
          finalUsagipass := usagi, source_tx := TxFate.rolledBack
          leporid_tx := TxFate.rolledBack, usagipass_tx := TxFate.rolledBack }
      else
        { result := Except.ok res, finalSource := src, finalLeporid := lep1
          finalUsagipass := usagi1, source_tx := TxFate.committed
          leporid_tx := TxFate.committed, usagipass_tx := TxFate.committed }

/-! ## Derived predicates used by the statements -/

/-- The counter invariant of a section summary. -/
def balancedCounters (s : MergeSectionResult) : Prop :=
  s.processed = s.inserted + s.updated + s.skipped

/-- Whether a merge_images row is skipped: its uploader fails to resolve
(NULL uploader with no admin id, unknown source id, or username absent from
the target) or its kind has no aspect. -/
def imgRowSkips (srcMap : List (String × Option String))
    (tgtMap : List (String × String)) (admin : Option String)
    (row : SrcImage) : Bool :=
  (imgResolve srcMap tgtMap admin row).isNone ||
    !(derive_aspect_id row.kind).isOk

/-- The primary account and server rule that `_migrate_users` settles on for
a source user, when the user is not skipped. -/
def upUserTarget (abu : String → List SourceAccount) (user : SourceUser) :
    Option (SourceAccount × ServerRule) :=
  let accounts := abu user.username
  if accounts.isEmpty then none
  else
    match upUserChoice accounts user with
    | none => none
    | some primary =>
        match SERVER_RULES.lookup primary.account_server with
        | none => none
        | some rule => some (primary, rule)

/-- The target username `_migrate_users` derives for a non-skipped user. -/
def upUserNewName (abu : String → List SourceAccount) (user : SourceUser) :
    Option String :=
  (upUserTarget abu user).map (fun pr => pr.2.prefixTag ++ pr.1.account_name)

/-- Whether a (user, account) pair is counted by the third-parties section
(its server tag is supported). -/
def tpPairCounted (p : MigratedUser × SourceAccount) : Bool :=
  (SERVER_RULES.lookup p.2.account_server).isSome

/-- Whether a (user, account) pair is counted by the accounts section (its
server tag is supported and its server identifier resolves). -/
def accPairCounted (server_ids : List (String × Int))
    (p : MigratedUser × SourceAccount) : Bool :=
  match SERVER_RULES.lookup p.2.account_server with
  | none => false
  | some rule => (dget server_ids rule.identifier).isSome

/-- Whether a (user, account) pair is actually written by the accounts
section (counted and not DIVING_FISH). -/
def accPairWritten (server_ids : List (String × Int))
    (p : MigratedUser × SourceAccount) : Bool :=
  accPairCounted server_ids p && !(p.2.account_server == "DIVING_FISH")

/-- Whether a merge_up images row is skipped (its uploader has no migrated
user, or its kind has no aspect). -/
def upImgSkips (migmap : List (String × MigratedUser)) (row : RawUpImage) :
    Bool :=
  (dget migmap (pyStr row.uploaded_by)).isNone ||
    !(derive_aspect_id row.kind).isOk

/-- The reconciliation key the third-parties section derives for a (user,
account) pair: the account name paired with the supported server's strategy
code. -/
def tpKey (p : MigratedUser × SourceAccount) : Option (String × Int) :=
  (SERVER_RULES.lookup p.2.account_server).map
    (fun rule => (p.2.account_name, rule.strategy))

/-- The invariant the third-parties loop maintains between its key dict, its
accumulated writes, and the initial table: the dict maps a key to an id only
if every initial row or pending write with that id carries that key, the
dict is injective on ids, every pending write is registered in the dict
under its own key, every id the dict knows is carried by some row or
pending write, and every id in play is an initial-table id or was minted
below the current uuid counter. -/
def TPInv (table0 : List ThirdPartyRow) (fresh : Nat → String)
    (st : TPState) : Prop :=
  (∀ k i, dget st.existing k = some i →
    ∀ r ∈ table0 ++ st.written, r.id = i → (r.username, r.strategy) = k) ∧
  (∀ k1 k2 i, dget st.existing k1 = some i → dget st.existing k2 = some i →
    k1 = k2) ∧
  (∀ e ∈ st.written, dget st.existing (e.username, e.strategy) = some e.id) ∧
  (∀ k i, dget st.existing k = some i →
    i ∈ (table0 ++ st.written).map (·.id)) ∧
  (∀ r ∈ table0 ++ st.written,
    r.id ∈ table0.map (·.id) ∨ ∃ j, j < st.k ∧ r.id = fresh j)

/-! ## Spec-side definitions for refinement comparisons -/

/-- The reference resolver as the spec words it, parametric in the static
override table: (1) join-derived mapping, (2) static override table,
(3) pass the value through unchanged.  `_resolve_image_reference` is this
resolver applied to the hardcoded `uuid_mapping`. -/
def resolve_reference_spec (joinMapping overrideTable : List (String × String))
    (value : String) : String :=
  match dget joinMapping value with
  | some v => v
  | none =>
      match dget overrideTable value with
      | some v => v
      | none => value

/-! ## Theorems -/

/-- Helper: looking a key up in the kind table yields the single aspect id
exactly on the five known kinds. -/
theorem kind_lookup_eq (key : String) :
    List.lookup key KIND_TO_ASPECT =
      (if key ∈ ["BACKGROUND", "FRAME", "CHARACTER", "MASK", "LABEL"]
       then some "id-1-ff" else none) := by
  by_cases h1 : key = "BACKGROUND"
  · simp [KIND_TO_ASPECT, List.lookup, h1]
  · by_cases h2 : key = "FRAME"
    · simp [KIND_TO_ASPECT, List.lookup, h1, h2]
    · by_cases h3 : key = "CHARACTER"
      · simp [KIND_TO_ASPECT, List.lookup, h1, h2, h3]
      · by_cases h4 : key = "MASK"
        · simp [KIND_TO_ASPECT, List.lookup, h1, h2, h3, h4]
        · by_cases h5 : key = "LABEL"
          · simp [KIND_TO_ASPECT, List.lookup, h1, h2, h3, h4, h5]
          · have b1 : (key == "BACKGROUND") = false := by simp [h1]
            have b2 : (key == "FRAME") = false := by simp [h2]
            have b3 : (key == "CHARACTER") = false := by simp [h3]
            have b4 : (key == "MASK") = false := by simp [h4]
            have b5 : (key == "LABEL") = false := by simp [h5]
            simp [KIND_TO_ASPECT, List.lookup, b1, b2, b3, b4, b5,
              h1, h2, h3, h4, h5]

/-- Claim C6: for every string whose uppercasing is one of BACKGROUND, FRAME,
CHARACTER, MASK, LABEL (any letter case), derive_aspect_id returns
"id-1-ff"; for every other input (including "UNKNOWN" and the empty string)
it raises the UnknownAspect condition. -/
theorem derive_aspect_totality :
    (∀ s : String,
      derive_aspect_id s =
        (if pyUpper s ∈ ["BACKGROUND", "FRAME", "CHARACTER", "MASK", "LABEL"]
         then Except.ok "id-1-ff"
         else Except.error ("未识别的图片类型: " ++ s))) ∧
    derive_aspect_id "background" = Except.ok "id-1-ff" ∧
    derive_aspect_id "Frame" = Except.ok "id-1-ff" ∧
    derive_aspect_id "UNKNOWN" = Except.error ("未识别的图片类型: " ++ "UNKNOWN") ∧
    derive_aspect_id "" = Except.error ("未识别的图片类型: " ++ "") := by
  refine ⟨fun s => ?_, by decide, by decide, by decide, by decide⟩
  show (match List.lookup (pyUpper s) KIND_TO_ASPECT with
        | some v => Except.ok v
        | none => Except.error ("未识别的图片类型: " ++ s)) = _
  rw [kind_lookup_eq]
  by_cases h : pyUpper s ∈ ["BACKGROUND", "FRAME", "CHARACTER", "MASK", "LABEL"] <;>
    simp [h]

/-- Claim C7: build_image_labels returns the lowercased kind when non-empty,
then the lowercased trimmed category when present and non-blank, then the
literal workshop tag when flagged, in that order; including the two concrete
examples of the spec. -/
theorem build_image_labels_composition :
    (∀ (kind : String) (category : Option String) (workshop : Bool),
      build_image_labels kind category workshop =
        (if kind ≠ "" then [pyLower kind] else []) ++
        (match category with
         | none => []
         | some c => if pyTrim c ≠ "" then [pyLower (pyTrim c)] else []) ++
        (if workshop then ["workshop"] else [])) ∧
    build_image_labels "FRAME" (some "Holiday") true =
      ["frame", "holiday", "workshop"] ∧
    build_image_labels "MASK" none false = ["mask"] := by
  refine ⟨fun kind category workshop => ?_, by decide, by decide⟩
  cases category with
  | none =>
      by_cases hk : kind = "" <;> cases workshop <;>
        simp [build_image_labels, hk]
  | some c =>
      by_cases hc : c = ""
      · have htrim : pyTrim c = "" := by rw [hc]; rfl
        by_cases hk : kind = "" <;> cases workshop <;>
          simp [build_image_labels, hk, hc, htrim,
            show pyTrim "" = "" from rfl]
      · by_cases ht : pyTrim c = "" <;> by_cases hk : kind = "" <;>
          cases workshop <;> simp [build_image_labels, hk, hc, ht]

/-- Claim C5: _resolve_image_reference prefers the join-derived mapping, then
the static override table, else returns the value unchanged — it equals the
spec-worded parametric resolver applied to `uuid_mapping` — and the spec's
concrete precedence example holds of that resolver. -/
theorem resolve_reference_precedence :
    (∀ (value : String) (lookup : List (String × String)),
      _resolve_image_reference value lookup =
        resolve_reference_spec lookup uuid_mapping value) ∧
    resolve_reference_spec [("x", "y")] [("x", "z"), ("w", "q")] "x" = "y" ∧
    resolve_reference_spec [("x", "y")] [("x", "z"), ("w", "q")] "w" = "q" ∧
    resolve_reference_spec [("x", "y")] [("x", "z"), ("w", "q")] "unknown" =
      "unknown" := by
  exact ⟨fun value lookup => rfl, by decide, by decide, by decide⟩

/-- Claim C9: ensure_required_aspects inserts the "id-1-ff" aspect row when
absent and leaves the table entirely unchanged when present; it is invoked
before any image upsert in both migration variants, whose returned aspect
table is exactly `ensure_required_aspects` of the initial one (so the image
loops never touch it). -/
theorem ensure_aspects_create_if_absent :
    (∀ (table : List AspectRow),
      ensure_required_aspects table =
        if table.any (fun r => r.id == "id-1-ff") then table
        else table ++ [DEFAULT_ASPECT]) ∧
    (∀ src_users rows tbl_user tbl_image asp batch admin now res timg aout,
      merge_images src_users rows tbl_user tbl_image asp batch admin now =
        Except.ok (res, timg, aout) →
      aout = ensure_required_aspects asp) ∧
    (∀ src lep usagi batch fresh phash now res lep1 usagi1,
      _execute_merge_up src lep usagi batch fresh phash now =
        Except.ok (res, lep1, usagi1) →
      lep1.tbl_image_aspect = ensure_required_aspects lep.tbl_image_aspect) := by
  refine ⟨fun table => ?_,
    fun su rows tu ti asp b a n res timg aout h => ?_,
    fun src lep usagi b f p n res lep1 usagi1 h => ?_⟩
  · unfold ensure_required_aspects
    by_cases h : table.any (fun r => r.id == "id-1-ff")
    · have hmem : "id-1-ff" ∈
          (table.filter (fun r => r.id == "id-1-ff")).map (fun r => r.id) := by
        obtain ⟨r, hr, hid⟩ := List.any_eq_true.mp h
        have hid2 : r.id = "id-1-ff" := by simpa using hid
        exact List.mem_map.mpr ⟨r, List.mem_filter.mpr ⟨hr, hid⟩, hid2⟩
      simp [h, hmem]
    · have hmem : "id-1-ff" ∉
          (table.filter (fun r => r.id == "id-1-ff")).map (fun r => r.id) := by
        intro hc
        obtain ⟨r, hrf, hid⟩ := List.mem_map.mp hc
        exact h (List.any_eq_true.mpr
          ⟨r, (List.mem_filter.mp hrf).1, (List.mem_filter.mp hrf).2⟩)
      simp only [Bool.not_eq_true] at h
      simp [hmem, h, DEFAULT_ASPECT]
      intro x hx
      simpa using List.any_eq_false.mp h x hx
  · simp only [merge_images] at h
    split at h
    · cases h
    · simp only [Except.ok.injEq, Prod.mk.injEq] at h
      exact h.2.2.symm
  · simp only [_execute_merge_up] at h
    split at h
    · cases h
    · simp only [Except.ok.injEq, Prod.mk.injEq] at h
      obtain ⟨h1, h2, h3⟩ := h
      subst h2
      rfl

/-- Witness for the hypotheses of `ensure_aspects_create_if_absent`, at a
one-element run of merge_images and an empty run of _execute_merge_up with a
well-formed usagipass server table. -/
theorem ensure_aspects_create_if_absent_witness :
    (merge_images [] [] [] [] [] 500 none 0 =
      Except.ok (({} : MergeSectionResult), ([] : List TblImageRow),
        [DEFAULT_ASPECT])) ∧
    ([DEFAULT_ASPECT] = ensure_required_aspects ([] : List AspectRow)) ∧
    (_execute_merge_up ⟨[], [], [], []⟩ ⟨[], [], [], []⟩
        ⟨[⟨1, some "divingfish"⟩, ⟨2, some "lxns"⟩], [], [], []⟩ 500
        (fun _ => "u") (fun _ => "p") 0 =
      Except.ok
        ({ users := {}, third_parties := {}, accounts := {}, ratings := {}
           preferences := {}, images := {} },
         { tbl_user := [], tbl_user_third_party := [], tbl_image := []
           tbl_image_aspect := [DEFAULT_ASPECT] },
         { tbl_server := [⟨1, some "divingfish"⟩, ⟨2, some "lxns"⟩]
           tbl_account := [], tbl_rating := [], tbl_preference := [] })) ∧
    (({ tbl_user := [], tbl_user_third_party := [], tbl_image := []
        tbl_image_aspect := [DEFAULT_ASPECT] } : LeporidDB).tbl_image_aspect =
      ensure_required_aspects ([] : List AspectRow)) := by
  have h1 : merge_images [] [] [] [] [] 500 none 0 =
      Except.ok (({} : MergeSectionResult), ([] : List TblImageRow),
        [DEFAULT_ASPECT]) := by decide
  have h2 : _execute_merge_up ⟨[], [], [], []⟩ ⟨[], [], [], []⟩
      ⟨[⟨1, some "divingfish"⟩, ⟨2, some "lxns"⟩], [], [], []⟩ 500
      (fun _ => "u") (fun _ => "p") 0 =
    Except.ok
      ({ users := {}, third_parties := {}, accounts := {}, ratings := {}
         preferences := {}, images := {} },
       { tbl_user := [], tbl_user_third_party := [], tbl_image := []
         tbl_image_aspect := [DEFAULT_ASPECT] },
       { tbl_server := [⟨1, some "divingfish"⟩, ⟨2, some "lxns"⟩]
         tbl_account := [], tbl_rating := [], tbl_preference := [] }) := by
    decide
  exact ⟨h1,
    ensure_aspects_create_if_absent.2.1 [] [] [] [] [] 500 none 0 _ _ _ h1,
    h2,
    ensure_aspects_create_if_absent.2.2 _ _ _ 500 (fun _ => "u") (fun _ => "p")
      0 _ _ _ h2⟩

/-- Claim C2: run_merge and run_merge_up commit every participating
transaction exactly when the body succeeds and dry_run is false; in every
other case every transaction is rolled back, each endpoint is restored to its
pre-run state, and an exception is re-raised unchanged (the returned result
is the body's result), so the transaction fates are always uniform. -/
theorem transaction_coordination :
    (∀ (config : MergeConfig) (src : SourceDB) (tgt : TargetDB)
        (fresh : Nat → String) (now : Int),
      let o := run_merge config src tgt fresh now
      let b := run_merge_body config src tgt fresh now
      o.source_tx = o.target_tx ∧
      (o.source_tx = TxFate.committed ↔
        (b.isOk = true ∧ config.dry_run = false)) ∧
      o.result = b.map Prod.fst ∧
      o.finalSource = src ∧
      o.finalTarget =
        (if b.isOk = true ∧ config.dry_run = false then
          (match b with
           | Except.ok (_, t) => t
           | Except.error _ => tgt)
         else tgt)) ∧
    (∀ (config : MergeUpConfig) (src : UpSourceDB) (lep : LeporidDB)
        (usagi : UsagipassDB) (fresh phash : Nat → String) (now : Int),
      let o := run_merge_up config src lep usagi fresh phash now
      let b := _execute_merge_up src lep usagi config.batch_size fresh phash now
      o.source_tx = o.leporid_tx ∧ o.leporid_tx = o.usagipass_tx ∧
      (o.source_tx = TxFate.committed ↔
        (b.isOk = true ∧ config.dry_run = false)) ∧
      o.result = b.map Prod.fst ∧
      o.finalSource = src ∧
      o.finalLeporid =
        (if b.isOk = true ∧ config.dry_run = false then
          (match b with
           | Except.ok (_, l, _) => l
           | Except.error _ => lep)
         else lep) ∧
      o.finalUsagipass =
        (if b.isOk = true ∧ config.dry_run = false then
          (match b with
           | Except.ok (_, _, u) => u
           | Except.error _ => usagi)
         else usagi)) := by
  constructor
  · intro config src tgt fresh now
    cases hb : run_merge_body config src tgt fresh now with
    | error e =>
        cases hdry : config.dry_run <;>
          simp [run_merge, hb, hdry, Except.isOk, Except.toBool, Except.map]
    | ok v =>
        obtain ⟨res, tgt1⟩ := v
        cases hdry : config.dry_run <;>
          simp [run_merge, hb, hdry, Except.isOk, Except.toBool, Except.map]
  · intro config src lep usagi fresh phash now
    cases hb : _execute_merge_up src lep usagi config.batch_size fresh phash now with
    | error e =>
        cases hdry : config.dry_run <;>
          simp [run_merge_up, hb, hdry, Except.isOk, Except.toBool, Except.map]
    | ok v =>
        obtain ⟨res, lep1, usagi1⟩ := v
        cases hdry : config.dry_run <;>
          simp [run_merge_up, hb, hdry, Except.isOk, Except.toBool, Except.map]

/-- Helper: membership in the server-identifier mapping loop, generalized
over the accumulator, for a non-empty key. -/
theorem load_server_mapping_mem (rows : List ServerRow)
    (m0 : List (String × Int)) (key : String) (hkey : key ≠ "") :
    dmem (rows.foldl (fun m row =>
      let identifier := pyLower (pyTrim (row.identifier.getD ""))
      if identifier = "" then m else dictInsert m identifier row.id) m0) key =
    (dmem m0 key ||
      rows.any (fun r => pyLower (pyTrim (r.identifier.getD "")) == key)) := by
  induction rows generalizing m0 with
  | nil => simp
  | cons r rs ih =>
      simp only [List.foldl_cons, List.any_cons]
      rw [ih]
      by_cases hid : pyLower (pyTrim (r.identifier.getD "")) = ""
      · have hne : (("" : String) == key) = false :=
          beq_eq_false_iff_ne.mpr (Ne.symm hkey)
        simp [hid, hne]
      · have hm : dmem
            (dictInsert m0 (pyLower (pyTrim (r.identifier.getD ""))) r.id) key =
            ((key == pyLower (pyTrim (r.identifier.getD ""))) || dmem m0 key) := by
          by_cases hk : key = pyLower (pyTrim (r.identifier.getD ""))
          · simp [dmem, dget, dictInsert, List.lookup, hk]
          · simp [dmem, dget, dictInsert, List.lookup,
              beq_eq_false_iff_ne.mpr hk]
        have hcomm : (key == pyLower (pyTrim (r.identifier.getD ""))) =
            (pyLower (pyTrim (r.identifier.getD "")) == key) := by
          by_cases hk : key = pyLower (pyTrim (r.identifier.getD ""))
          · simp [hk]
          · simp [beq_eq_false_iff_ne.mpr hk,
              beq_eq_false_iff_ne.mpr (Ne.symm hk)]
        simp only [hid, if_neg, hm, hcomm]
        cases h1 : pyLower (pyTrim (r.identifier.getD "")) == key <;>
          cases h2 : dmem m0 key <;>
          cases h3 : rs.any (fun a => pyLower (pyTrim (a.identifier.getD "")) == key) <;>
          simp_all [hm, hcomm]

/-- Helper: _load_server_ids succeeds iff the mapping holds both required
identifiers. -/
theorem load_server_ids_isOk (rows : List ServerRow) :
    (_load_server_ids rows).isOk =
      (dmem (serverMapping rows) "divingfish" &&
       dmem (serverMapping rows) "lxns") := by
  unfold _load_server_ids
  cases h1 : dmem (serverMapping rows) "divingfish" <;>
    cases h2 : dmem (serverMapping rows) "lxns" <;>
    simp [List.filter, h1, h2, Except.isOk, Except.toBool]

/-- Claim C8: _load_server_ids succeeds exactly when the target's tbl_server
holds both required identifiers, and its failure is raised by
_execute_merge_up before any section runs, causing run_merge_up to roll back
all three endpoints and re-raise; likewise merge_images raises for an
admin-user-id absent from the target tbl_user before processing any image
row (the error does not depend on the rows), and run_merge then rolls both
endpoints back and re-raises. -/
theorem precondition_errors_are_fatal :
    (∀ rows : List ServerRow,
      (_load_server_ids rows).isOk = true ↔
        (rows.any (fun r => pyLower (pyTrim (r.identifier.getD "")) == "divingfish") = true ∧
         rows.any (fun r => pyLower (pyTrim (r.identifier.getD "")) == "lxns") = true)) ∧
    (∀ src lep usagi batch fresh phash now e,
      _load_server_ids usagi.tbl_server = Except.error e →
      _execute_merge_up src lep usagi batch fresh phash now = Except.error e) ∧
    (∀ (config : MergeUpConfig) src lep usagi fresh phash now e,
      _execute_merge_up src lep usagi config.batch_size fresh phash now =
        Except.error e →
      run_merge_up config src lep usagi fresh phash now =
        { result := Except.error e, finalSource := src, finalLeporid := lep
          finalUsagipass := usagi, source_tx := TxFate.rolledBack
          leporid_tx := TxFate.rolledBack
          usagipass_tx := TxFate.rolledBack }) ∧
    (∀ src_users rows tbl_user tbl_image asp batch a now,
      ((dvalues (targetUsernameDict tbl_user)).contains a) = false →
      merge_images src_users rows tbl_user tbl_image asp batch (some a) now =
        Except.error "admin-user-id 不存在于目标库的 tbl_user 中") ∧
    (∀ (config : MergeConfig) src tgt fresh now e,
      run_merge_body config src tgt fresh now = Except.error e →
      run_merge config src tgt fresh now =
        { result := Except.error e, finalSource := src, finalTarget := tgt
          source_tx := TxFate.rolledBack, target_tx := TxFate.rolledBack }) := by
  refine ⟨fun rows => ?_, fun src lep usagi batch fresh phash now e h => ?_,
    fun config src lep usagi fresh phash now e h => ?_,
    fun su rows tu ti asp b a n h => ?_,
    fun config src tgt fresh now e h => ?_⟩
  · have hd := load_server_mapping_mem rows [] "divingfish" (by decide)
    have hl := load_server_mapping_mem rows [] "lxns" (by decide)
    rw [show dmem ([] : List (String × Int)) "divingfish" = false from rfl,
      Bool.false_or] at hd
    rw [show dmem ([] : List (String × Int)) "lxns" = false from rfl,
      Bool.false_or] at hl
    rw [load_server_ids_isOk, show serverMapping rows = rows.foldl (fun m row =>
      let identifier := pyLower (pyTrim (row.identifier.getD ""))
      if identifier = "" then m else dictInsert m identifier row.id) []
      from rfl, hd, hl, Bool.and_eq_true]
  · simp only [_execute_merge_up, h]
  · simp [run_merge_up, h]
  · have hmem : a ∉ dvalues (targetUsernameDict tu) := by
      intro hc
      have h2 : (dvalues (targetUsernameDict tu)).elem a = false := h
      rw [(List.elem_iff).mpr hc] at h2
      simp at h2
    simp [merge_images, h, hmem]
  · simp [run_merge, h]

/-- Witness for the hypotheses of `precondition_errors_are_fatal`: an empty
usagipass server table makes run_merge_up roll back, and an unknown
admin-user-id makes run_merge roll back. -/
theorem precondition_errors_are_fatal_witness :
    (_load_server_ids ([] : List ServerRow) =
      Except.error "Usagipass 数据库缺少 server 标识: divingfish, lxns") ∧
    (run_merge_up { source_url := "s", leporid_url := "l", usagipass_url := "u" }
        ⟨[], [], [], []⟩ ⟨[], [], [], []⟩ ⟨[], [], [], []⟩
        (fun _ => "id") (fun _ => "pw") 0 =
      { result := Except.error "Usagipass 数据库缺少 server 标识: divingfish, lxns"
        finalSource := ⟨[], [], [], []⟩, finalLeporid := ⟨[], [], [], []⟩
        finalUsagipass := ⟨[], [], [], []⟩, source_tx := TxFate.rolledBack
        leporid_tx := TxFate.rolledBack, usagipass_tx := TxFate.rolledBack }) ∧
    (merge_images [] [] [] [] [] 500 (some "admin") 0 =
      Except.error "admin-user-id 不存在于目标库的 tbl_user 中") ∧
    (run_merge
        { source_url := "s", target_url := "t", admin_user_id := some "admin" }
        ⟨[], []⟩ ⟨[], [], []⟩ (fun _ => "id") 0 =
      { result := Except.error "admin-user-id 不存在于目标库的 tbl_user 中"
        finalSource := ⟨[], []⟩, finalTarget := ⟨[], [], []⟩
        source_tx := TxFate.rolledBack, target_tx := TxFate.rolledBack }) := by
  have h1 : _load_server_ids ([] : List ServerRow) =
      Except.error "Usagipass 数据库缺少 server 标识: divingfish, lxns" := by decide
  have h2 : _execute_merge_up ⟨[], [], [], []⟩ ⟨[], [], [], []⟩ ⟨[], [], [], []⟩
      ((({ source_url := "s", leporid_url := "l", usagipass_url := "u" } :
        MergeUpConfig)).batch_size) (fun _ => "id") (fun _ => "pw") 0 =
      Except.error "Usagipass 数据库缺少 server 标识: divingfish, lxns" :=
    precondition_errors_are_fatal.2.1 _ _ _ _ _ _ _ _ h1
  have h3 : merge_images [] [] [] [] [] 500 (some "admin") 0 =
      Except.error "admin-user-id 不存在于目标库的 tbl_user 中" :=
    precondition_errors_are_fatal.2.2.2.1 [] [] [] [] [] 500 "admin" 0 (by decide)
  have h4 : run_merge_body
      { source_url := "s", target_url := "t", admin_user_id := some "admin" }
      ⟨[], []⟩ ⟨[], [], []⟩ (fun _ => "id") 0 =
      Except.error "admin-user-id 不存在于目标库的 tbl_user 中" := by decide
  exact ⟨h1, precondition_errors_are_fatal.2.2.1 _ _ _ _ _ _ _ _ h2, h3,
    precondition_errors_are_fatal.2.2.2.2 _ _ _ _ _ _ h4⟩

/-- Helper: counter bookkeeping of the third-parties loop. -/
theorem tpLoop_stats (fresh : Nat → String)
    (pairs : List (MigratedUser × SourceAccount)) :
    ∀ st : TPState,
      (pairs.foldl (tpStep fresh) st).summary.processed =
        st.summary.processed + pairs.countP tpPairCounted ∧
      (pairs.foldl (tpStep fresh) st).summary.skipped = st.summary.skipped ∧
      (pairs.foldl (tpStep fresh) st).summary.inserted +
        (pairs.foldl (tpStep fresh) st).summary.updated =
        st.summary.inserted + st.summary.updated + pairs.countP tpPairCounted ∧
      (pairs.foldl (tpStep fresh) st).written.length =
        st.written.length + pairs.countP tpPairCounted := by
  induction pairs with
  | nil => intro st; simp
  | cons p ps ih =>
      intro st
      simp only [List.foldl_cons, List.countP_cons]
      obtain ⟨i1, i2, i3, i4⟩ := ih (tpStep fresh st p)
      cases hrule : SERVER_RULES.lookup p.2.account_server with
      | none =>
          have hc : tpPairCounted p = false := by simp [tpPairCounted, hrule]
          have hstep : tpStep fresh st p = st := by simp [tpStep, hrule]
          rw [hstep] at i1 i2 i3 i4 ⊢
          simp [i1, i2, i3, i4, hc]
      | some rule =>
          have hc : tpPairCounted p = true := by simp [tpPairCounted, hrule]
          have h1 : (tpStep fresh st p).summary.processed =
              st.summary.processed + 1 ∧
              (tpStep fresh st p).summary.skipped = st.summary.skipped ∧
              (tpStep fresh st p).summary.inserted +
                (tpStep fresh st p).summary.updated =
                st.summary.inserted + st.summary.updated + 1 ∧
              (tpStep fresh st p).written.length = st.written.length + 1 := by
            cases hre : dget st.existing (p.2.account_name, rule.strategy) <;>
              simp [tpStep, hrule, hre] <;> omega
          obtain ⟨h1, h2, h3, h4⟩ := h1
          rw [i1, i2, i3, i4, h1, h2, h3, h4]
          simp [hc]
          omega

/-- Helper: counter bookkeeping of the accounts loop, including the count of
rows actually written. -/
theorem accLoop_stats (server_ids : List (String × Int)) (fresh : Nat → String)
    (pairs : List (MigratedUser × SourceAccount)) :
    ∀ st : AccState,
      (pairs.foldl (accStep server_ids fresh) st).summary.processed =
        st.summary.processed + pairs.countP (accPairCounted server_ids) ∧
      (pairs.foldl (accStep server_ids fresh) st).summary.skipped =
        st.summary.skipped ∧
      (pairs.foldl (accStep server_ids fresh) st).summary.inserted +
        (pairs.foldl (accStep server_ids fresh) st).summary.updated =
        st.summary.inserted + st.summary.updated +
          pairs.countP (accPairCounted server_ids) ∧
      (pairs.foldl (accStep server_ids fresh) st).written.length =
        st.written.length + pairs.countP (accPairWritten server_ids) := by
  induction pairs with
  | nil => intro st; simp
  | cons p ps ih =>
      intro st
      simp only [List.foldl_cons, List.countP_cons]
      obtain ⟨i1, i2, i3, i4⟩ := ih (accStep server_ids fresh st p)
      cases hrule : SERVER_RULES.lookup p.2.account_server with
      | none =>
          have hc : accPairCounted server_ids p = false := by
            simp [accPairCounted, hrule]
          have hw : accPairWritten server_ids p = false := by
            simp [accPairWritten, hc]
          have hstep : accStep server_ids fresh st p = st := by
            simp [accStep, hrule]
          rw [hstep] at i1 i2 i3 i4 ⊢
          simp [i1, i2, i3, i4, hc, hw]
      | some rule =>
          cases hsid : dget server_ids rule.identifier with
          | none =>
              have hc : accPairCounted server_ids p = false := by
                simp [accPairCounted, hrule, hsid]
              have hw : accPairWritten server_ids p = false := by
                simp [accPairWritten, hc]
              have hstep : accStep server_ids fresh st p = st := by
                simp [accStep, hrule, hsid]
              rw [hstep] at i1 i2 i3 i4 ⊢
              simp [i1, i2, i3, i4, hc, hw]
          | some server_id =>
              have hc : accPairCounted server_ids p = true := by
                simp [accPairCounted, hrule, hsid]
              have h1 : (accStep server_ids fresh st p).summary.processed =
                  st.summary.processed + 1 ∧
                  (accStep server_ids fresh st p).summary.skipped =
                    st.summary.skipped ∧
                  (accStep server_ids fresh st p).summary.inserted +
                    (accStep server_ids fresh st p).summary.updated =
                    st.summary.inserted + st.summary.updated + 1 ∧
                  (accStep server_ids fresh st p).written.length =
                    st.written.length +
                      (if accPairWritten server_ids p then 1 else 0) := by
                have hwr : accPairWritten server_ids p =
                    !(p.2.account_server == "DIVING_FISH") := by
                  simp [accPairWritten, hc]
                cases hre : dget st.existing (p.1.new_user_id, server_id) <;>
                  cases hdf : p.2.account_server == "DIVING_FISH" <;>
                  simp [accStep, hrule, hsid, hre, hdf, hwr] <;> omega
              obtain ⟨h1, h2, h3, h4⟩ := h1
              rw [i1, i2, i3, i4, h1, h2, h3, h4]
              simp [hc]
              omega

/-- Helper: counter bookkeeping of the ratings loop. -/
theorem ratingsLoop_stats (migrated : List MigratedUser) :
    ∀ st : RatingsState,
      (migrated.foldl ratingsStep st).summary.processed =
        st.summary.processed + migrated.length ∧
      (migrated.foldl ratingsStep st).summary.skipped = st.summary.skipped ∧
      (migrated.foldl ratingsStep st).summary.inserted +
        (migrated.foldl ratingsStep st).summary.updated =
        st.summary.inserted + st.summary.updated + migrated.length := by
  induction migrated with
  | nil => intro st; simp
  | cons u us ih =>
      intro st
      simp only [List.foldl_cons, List.length_cons]
      obtain ⟨i1, i2, i3⟩ := ih (ratingsStep st u)
      have h1 : (ratingsStep st u).summary.processed =
          st.summary.processed + 1 ∧
          (ratingsStep st u).summary.skipped = st.summary.skipped ∧
          (ratingsStep st u).summary.inserted +
            (ratingsStep st u).summary.updated =
            st.summary.inserted + st.summary.updated + 1 := by
        by_cases hmem : u.new_user_id ∈ st.existing_users <;>
          simp [ratingsStep, hmem] <;> omega
      obtain ⟨h1, h2, h3⟩ := h1
      rw [i1, i2, i3, h1, h2, h3]
      omega

/-- Helper: counter bookkeeping of the preferences loop. -/
theorem prefsLoop_stats (pbu : List (String × SourcePreference))
    (lookup : List (String × String)) (migrated : List MigratedUser) :
    ∀ st : PrefsState,
      (migrated.foldl (prefsStep pbu lookup) st).summary.processed =
        st.summary.processed + migrated.length ∧
      (migrated.foldl (prefsStep pbu lookup) st).summary.skipped =
        st.summary.skipped ∧
      (migrated.foldl (prefsStep pbu lookup) st).summary.inserted +
        (migrated.foldl (prefsStep pbu lookup) st).summary.updated =
        st.summary.inserted + st.summary.updated + migrated.length := by
  induction migrated with
  | nil => intro st; simp
  | cons u us ih =>
      intro st
      simp only [List.foldl_cons, List.length_cons]
      obtain ⟨i1, i2, i3⟩ := ih (prefsStep pbu lookup st u)
      have h1 : (prefsStep pbu lookup st u).summary.processed =
          st.summary.processed + 1 ∧
          (prefsStep pbu lookup st u).summary.skipped = st.summary.skipped ∧
          (prefsStep pbu lookup st u).summary.inserted +
            (prefsStep pbu lookup st u).summary.updated =
            st.summary.inserted + st.summary.updated + 1 := by
        by_cases hmem : u.new_user_id ∈ st.existing_users <;>
          simp [prefsStep, hmem] <;> omega
      obtain ⟨h1, h2, h3⟩ := h1
      rw [i1, i2, i3, h1, h2, h3]
      omega

/-- Helper: the summary written by one merge_users iteration. -/
theorem usersStep_summary (batch_size : Nat) (fresh : Nat → String) (now : Int)
    (st : UsersLoopState) (row : SrcUser) :
    (usersStep batch_size fresh now st row).summary =
      (if row.id ∈ st.existing_ids then
        { st.summary with processed := st.summary.processed + 1
                          updated := st.summary.updated + 1 }
       else
        { st.summary with processed := st.summary.processed + 1
                          inserted := st.summary.inserted + 1 }) := by
  unfold usersStep
  by_cases hmem : row.id ∈ st.existing_ids <;> simp [hmem] <;> split <;> rfl

/-- Helper: counter bookkeeping of the merge_users loop: every row counts as
processed and as exactly one of inserted or updated, never as skipped. -/
theorem usersLoop_stats (batch_size : Nat) (fresh : Nat → String) (now : Int)
    (rows : List SrcUser) :
    ∀ st : UsersLoopState,
      (usersLoop batch_size fresh now rows st).summary.processed =
        st.summary.processed + rows.length ∧
      (usersLoop batch_size fresh now rows st).summary.skipped =
        st.summary.skipped ∧
      (usersLoop batch_size fresh now rows st).summary.inserted +
        (usersLoop batch_size fresh now rows st).summary.updated =
        st.summary.inserted + st.summary.updated + rows.length := by
  induction rows with
  | nil => intro st; simp [usersLoop]
  | cons r rs ih =>
      intro st
      simp only [usersLoop, List.length_cons]
      obtain ⟨i1, i2, i3⟩ := ih (usersStep batch_size fresh now st r)
      rw [i1, i2, i3, usersStep_summary]
      by_cases hmem : r.id ∈ st.existing_ids <;> simp [hmem] <;> omega

/-- Helper: the summary written by one merge_images iteration. -/
theorem imagesStep_summary (srcMap : List (String × Option String))
    (tgtMap : List (String × String)) (admin : Option String)
    (batch_size : Nat) (now : Int) (st : ImagesLoopState) (row : SrcImage) :
    (imagesStep srcMap tgtMap admin batch_size now st row).summary =
      (if imgRowSkips srcMap tgtMap admin row then
        { st.summary with processed := st.summary.processed + 1
                          skipped := st.summary.skipped + 1 }
       else if row.uuid ∈ st.existing_uuids then
        { st.summary with processed := st.summary.processed + 1
                          updated := st.summary.updated + 1 }
       else
        { st.summary with processed := st.summary.processed + 1
                          inserted := st.summary.inserted + 1 }) := by
  cases hres : imgResolve srcMap tgtMap admin row with
  | none => simp [imagesStep, imgRowSkips, hres]
  | some uv =>
      obtain ⟨user_id, visibility⟩ := uv
      cases hasp : derive_aspect_id row.kind with
      | error e =>
          simp [imagesStep, imgRowSkips, hres, hasp, Except.isOk, Except.toBool]
      | ok aspect_id =>
          by_cases hmem : row.uuid ∈ st.existing_uuids <;>
            simp [imagesStep, imgRowSkips, hres, hasp, hmem, Except.isOk,
              Except.toBool] <;>
            split <;> rfl

/-- Helper: the existing-uuid set written by one merge_images iteration. -/
theorem imagesStep_existing (srcMap : List (String × Option String))
    (tgtMap : List (String × String)) (admin : Option String)
    (batch_size : Nat) (now : Int) (st : ImagesLoopState) (row : SrcImage) :
    (imagesStep srcMap tgtMap admin batch_size now st row).existing_uuids =
      (if imgRowSkips srcMap tgtMap admin row then st.existing_uuids
       else if row.uuid ∈ st.existing_uuids then st.existing_uuids
       else row.uuid :: st.existing_uuids) := by
  cases hres : imgResolve srcMap tgtMap admin row with
  | none => simp [imagesStep, imgRowSkips, hres]
  | some uv =>
      obtain ⟨user_id, visibility⟩ := uv
      cases hasp : derive_aspect_id row.kind with
      | error e =>
          simp [imagesStep, imgRowSkips, hres, hasp, Except.isOk, Except.toBool]
      | ok aspect_id =>
          by_cases hmem : row.uuid ∈ st.existing_uuids <;>
            simp [imagesStep, imgRowSkips, hres, hasp, hmem, Except.isOk,
              Except.toBool] <;>
            split <;> rfl

/-- Helper: the ids accumulated for writing by one merge_images iteration
(flushed batches plus the open payload). -/
theorem imagesStep_written_ids (srcMap : List (String × Option String))
    (tgtMap : List (String × String)) (admin : Option String)
    (batch_size : Nat) (now : Int) (st : ImagesLoopState) (row : SrcImage) :
    (imagesStep srcMap tgtMap admin batch_size now st row).written.map (·.id) ++
      (imagesStep srcMap tgtMap admin batch_size now st row).payload.map (·.id) =
      st.written.map (·.id) ++ st.payload.map (·.id) ++
        (if imgRowSkips srcMap tgtMap admin row then [] else [row.uuid]) := by
  cases hres : imgResolve srcMap tgtMap admin row with
  | none => simp [imagesStep, imgRowSkips, hres]
  | some uv =>
      obtain ⟨user_id, visibility⟩ := uv
      cases hasp : derive_aspect_id row.kind with
      | error e =>
          simp [imagesStep, imgRowSkips, hres, hasp, Except.isOk, Except.toBool]
      | ok aspect_id =>
          by_cases hmem : row.uuid ∈ st.existing_uuids <;>
            simp [imagesStep, imgRowSkips, hres, hasp, hmem, Except.isOk,
              Except.toBool, _adapt_image_row] <;>
            split <;> simp [_adapt_image_row]

/-- Helper: counter bookkeeping of the merge_images loop. -/
theorem imagesLoop_stats (srcMap : List (String × Option String))
    (tgtMap : List (String × String)) (admin : Option String)
    (batch_size : Nat) (now : Int) (rows : List SrcImage) :
    ∀ st : ImagesLoopState,
      (imagesLoop srcMap tgtMap admin batch_size now rows st).summary.processed =
        st.summary.processed + rows.length ∧
      (imagesLoop srcMap tgtMap admin batch_size now rows st).summary.skipped =
        st.summary.skipped + rows.countP (imgRowSkips srcMap tgtMap admin) ∧
      (imagesLoop srcMap tgtMap admin batch_size now rows st).summary.inserted +
        (imagesLoop srcMap tgtMap admin batch_size now rows st).summary.updated =
        st.summary.inserted + st.summary.updated +
          rows.countP (fun r => !imgRowSkips srcMap tgtMap admin r) := by
  induction rows with
  | nil => intro st; simp [imagesLoop]
  | cons r rs ih =>
      intro st
      simp only [imagesLoop, List.length_cons, List.countP_cons]
      obtain ⟨i1, i2, i3⟩ :=
        ih (imagesStep srcMap tgtMap admin batch_size now st r)
      rw [i1, i2, i3, imagesStep_summary]
      cases hskip : imgRowSkips srcMap tgtMap admin r <;>
        by_cases hmem : r.uuid ∈ st.existing_uuids <;>
        simp [hskip, hmem] <;> omega

/-- Helper: counter bookkeeping of the merge_up images loop. -/
theorem upImagesLoop_stats (migmap : List (String × MigratedUser)) (now : Int)
    (rows : List RawUpImage) :
    ∀ st : UpImagesState,
      (rows.foldl (upImagesStep migmap now) st).summary.processed =
        st.summary.processed + rows.length ∧
      (rows.foldl (upImagesStep migmap now) st).summary.skipped =
        st.summary.skipped + rows.countP (upImgSkips migmap) ∧
      (rows.foldl (upImagesStep migmap now) st).summary.inserted +
        (rows.foldl (upImagesStep migmap now) st).summary.updated =
        st.summary.inserted + st.summary.updated +
          rows.countP (fun r => !upImgSkips migmap r) := by
  induction rows with
  | nil => intro st; simp
  | cons r rs ih =>
      intro st
      simp only [List.foldl_cons, List.length_cons, List.countP_cons]
      obtain ⟨i1, i2, i3⟩ := ih (upImagesStep migmap now st r)
      have h1 : (upImagesStep migmap now st r).summary =
          (if upImgSkips migmap r then
            { st.summary with processed := st.summary.processed + 1
                              skipped := st.summary.skipped + 1 }
           else if r.id ∈ st.existing_ids then
            { st.summary with processed := st.summary.processed + 1
                              updated := st.summary.updated + 1 }
           else
            { st.summary with processed := st.summary.processed + 1
                              inserted := st.summary.inserted + 1 }) := by
        cases hres : dget migmap (pyStr r.uploaded_by) with
        | none => simp [upImagesStep, upImgSkips, hres]
        | some user =>
            cases hasp : derive_aspect_id r.kind with
            | error e =>
                simp [upImagesStep, upImgSkips, hres, hasp, Except.isOk,
                  Except.toBool]
            | ok aspect_id =>
                by_cases hmem : r.id ∈ st.existing_ids <;>
                  simp [upImagesStep, upImgSkips, hres, hasp, hmem,
                    Except.isOk, Except.toBool]
      rw [i1, i2, i3, h1]
      cases hskip : upImgSkips migmap r <;>
        by_cases hmem : r.id ∈ st.existing_ids <;>
        simp [hskip, hmem] <;> omega

/-- Helper: the summary written by one _migrate_users iteration, in terms of
the derived target username and its presence in the username dict. -/
theorem upUsersStep_summary (abu : String → List SourceAccount)
    (fresh phash : Nat → String) (st : UpUsersState) (user : SourceUser) :
    (upUsersStep abu fresh phash st user).summary =
      (match upUserNewName abu user with
       | none =>
          { st.summary with processed := st.summary.processed + 1
                            skipped := st.summary.skipped + 1 }
       | some nm =>
          if (dget st.existing_users nm).isSome then
            { st.summary with processed := st.summary.processed + 1
                              updated := st.summary.updated + 1 }
          else
            { st.summary with processed := st.summary.processed + 1
                              inserted := st.summary.inserted + 1 }) := by
  by_cases hemp : (abu user.username).isEmpty
  · simp [upUsersStep, upUserNewName, upUserTarget, hemp]
  · cases hch : upUserChoice (abu user.username) user with
    | none => simp [upUsersStep, upUserNewName, upUserTarget, hemp, hch]
    | some primary =>
        cases hr : SERVER_RULES.lookup primary.account_server with
        | none => simp [upUsersStep, upUserNewName, upUserTarget, hemp, hch, hr]
        | some rule =>
            cases hre : dget st.existing_users
                (rule.prefixTag ++ primary.account_name) <;>
              simp [upUsersStep, upUserNewName, upUserTarget, hemp, hch, hr, hre]

/-- Helper: the username dict written by one _migrate_users iteration. -/
theorem upUsersStep_existing (abu : String → List SourceAccount)
    (fresh phash : Nat → String) (st : UpUsersState) (user : SourceUser) :
    (upUsersStep abu fresh phash st user).existing_users =
      (match upUserNewName abu user with
       | none => st.existing_users
       | some nm =>
          if (dget st.existing_users nm).isSome then st.existing_users
          else dictInsert st.existing_users nm (fresh st.k)) := by
  by_cases hemp : (abu user.username).isEmpty
  · simp [upUsersStep, upUserNewName, upUserTarget, hemp]
  · cases hch : upUserChoice (abu user.username) user with
    | none => simp [upUsersStep, upUserNewName, upUserTarget, hemp, hch]
    | some primary =>
        cases hr : SERVER_RULES.lookup primary.account_server with
        | none => simp [upUsersStep, upUserNewName, upUserTarget, hemp, hch, hr]
        | some rule =>
            cases hre : dget st.existing_users
                (rule.prefixTag ++ primary.account_name) <;>
              simp [upUsersStep, upUserNewName, upUserTarget, hemp, hch, hr, hre]

/-- Helper: counter bookkeeping of the _migrate_users loop. -/
theorem upUsersLoop_stats (abu : String → List SourceAccount)
    (fresh phash : Nat → String) (users : List SourceUser) :
    ∀ st : UpUsersState,
      (upUsersLoop abu fresh phash users st).summary.processed =
        st.summary.processed + users.length ∧
      (upUsersLoop abu fresh phash users st).summary.skipped =
        st.summary.skipped +
          users.countP (fun u => (upUserNewName abu u).isNone) ∧
      (upUsersLoop abu fresh phash users st).summary.inserted +
        (upUsersLoop abu fresh phash users st).summary.updated =
        st.summary.inserted + st.summary.updated +
          users.countP (fun u => (upUserNewName abu u).isSome) := by
  induction users with
  | nil => intro st; simp [upUsersLoop]
  | cons u us ih =>
      intro st
      simp only [upUsersLoop, List.length_cons, List.countP_cons]
      obtain ⟨i1, i2, i3⟩ := ih (upUsersStep abu fresh phash st u)
      rw [i1, i2, i3, upUsersStep_summary]
      cases hnm : upUserNewName abu u with
      | none => simp [hnm] <;> omega
      | some nm =>
          cases hre : (dget st.existing_users nm).isSome <;>
            simp [hnm, hre] <;> omega

/-- Helper: a key present in the username dict stays present through the
_migrate_users loop. -/
theorem upUsersLoop_dict_monotone (abu : String → List SourceAccount)
    (fresh phash : Nat → String) (users : List SourceUser) :
    ∀ (st : UpUsersState) (nm : String),
      (dget st.existing_users nm).isSome = true →
      (dget (upUsersLoop abu fresh phash users st).existing_users nm).isSome =
        true := by
  induction users with
  | nil => intro st nm h; simpa [upUsersLoop] using h
  | cons u us ih =>
      intro st nm h
      simp only [upUsersLoop]
      refine ih _ nm ?_
      rw [upUsersStep_existing]
      cases hnm : upUserNewName abu u with
      | none => simpa using h
      | some nm2 =>
          cases hre : (dget st.existing_users nm2).isSome
          · simp only [hre, if_false]
            by_cases he : nm = nm2
            · simp [dget, dictInsert, List.lookup, he]
            · simpa [dget, dictInsert, List.lookup, beq_eq_false_iff_ne.mpr he]
                using h
          · simpa [hre] using h

/-- Helper: after the _migrate_users loop, the derived username of every
non-skipped source user is a key of the username dict. -/
theorem upUsersLoop_names_present (abu : String → List SourceAccount)
    (fresh phash : Nat → String) (users : List SourceUser) :
    ∀ (st : UpUsersState) (u : SourceUser) (nm : String),
      u ∈ users → upUserNewName abu u = some nm →
      (dget (upUsersLoop abu fresh phash users st).existing_users nm).isSome =
        true := by
  induction users with
  | nil => intro st u nm h; cases h
  | cons v us ih =>
      intro st u nm hmem hnm
      rcases List.mem_cons.mp hmem with heq | htail
      · subst heq
        simp only [upUsersLoop]
        refine upUsersLoop_dict_monotone abu fresh phash us _ nm ?_
        rw [upUsersStep_existing]
        rw [hnm]
        cases hre : (dget st.existing_users nm).isSome
        · have hre2 : (List.lookup nm st.existing_users).isSome = false := hre
          simp [hre, hre2, dget, dictInsert, List.lookup]
        · simp [hre]
      · simp only [upUsersLoop]
        exact ih _ u nm htail hnm

/-- Helper: when every non-skipped user's derived username is already a key
of the dict, the _migrate_users loop inserts nothing and updates every
non-skipped user. -/
theorem upUsersLoop_second_run (abu : String → List SourceAccount)
    (fresh phash : Nat → String) (users : List SourceUser) :
    ∀ st : UpUsersState,
      (∀ u ∈ users, ∀ nm, upUserNewName abu u = some nm →
        (dget st.existing_users nm).isSome = true) →
      (upUsersLoop abu fresh phash users st).summary.inserted =
        st.summary.inserted ∧
      (upUsersLoop abu fresh phash users st).summary.updated =
        st.summary.updated +
          users.countP (fun u => (upUserNewName abu u).isSome) := by
  induction users with
  | nil => intro st h; simp [upUsersLoop]
  | cons u us ih =>
      intro st h
      simp only [upUsersLoop, List.countP_cons]
      have hstep : (upUsersStep abu fresh phash st u).existing_users =
          st.existing_users ∧
          (upUsersStep abu fresh phash st u).summary.inserted =
            st.summary.inserted ∧
          (upUsersStep abu fresh phash st u).summary.updated =
            st.summary.updated +
              (if (upUserNewName abu u).isSome then 1 else 0) := by
        rw [upUsersStep_existing, upUsersStep_summary]
        cases hnm : upUserNewName abu u with
        | none => simp [hnm]
        | some nm =>
            have hp := h u (List.mem_cons_self u us) nm hnm
            simp [hnm, hp]
      obtain ⟨e1, e2, e3⟩ := hstep
      obtain ⟨j1, j2⟩ := ih (upUsersStep abu fresh phash st u)
        (by intro v hv nm hnm; rw [e1]; exact h v (List.mem_cons_of_mem u hv) nm hnm)
      rw [j1, j2, e2, e3]
      cases hnm : (upUserNewName abu u).isSome <;> simp [hnm] <;> omega

/-- Helper: a Bool predicate and its negation split the length. -/
theorem countP_not_split {α : Type} (l : List α) (p : α → Bool) :
    l.countP p + l.countP (fun a => !p a) = l.length := by
  induction l with
  | nil => rfl
  | cons x xs ih => cases h : p x <;> simp [List.countP_cons, h] <;> omega

/-- Helper: counting isNone equals counting the negation of isSome. -/
theorem countP_isNone_eq {α β : Type} (l : List α) (f : α → Option β) :
    l.countP (fun a => (f a).isNone) = l.countP (fun a => !(f a).isSome) :=
  List.countP_congr (fun x _ => by cases h : f x <;> simp [h])

/-- Helper: the counted pairs of the accounts section split into the written
ones and the DIVING_FISH ones. -/
theorem accounts_countP_split (server_ids : List (String × Int))
    (l : List (MigratedUser × SourceAccount)) :
    l.countP (accPairCounted server_ids) =
      l.countP (accPairWritten server_ids) +
      l.countP (fun p => accPairCounted server_ids p &&
        (p.2.account_server == "DIVING_FISH")) := by
  induction l with
  | nil => rfl
  | cons x xs ih =>
      simp only [List.countP_cons, ih]
      cases hc : accPairCounted server_ids x <;>
        cases hdf : x.2.account_server == "DIVING_FISH" <;>
        simp [accPairWritten, hc, hdf] <;> omega

/-- Claim C4 (amended): in every section the returned counters satisfy
processed == inserted + updated + skipped, and a row that fails validation
with an unknown aspect or an unresolvable uploader increments skipped
without aborting the section; however, in the third-parties and accounts
sections an account with an unsupported server tag is excluded from all
counters (skipped included), rather than counted as skipped. -/
theorem counter_invariant :
    (∀ rows table batch_size fresh now,
      balancedCounters (merge_users rows table batch_size fresh now).1 ∧
      (merge_users rows table batch_size fresh now).1.skipped = 0) ∧
    (∀ su rows tu ti asp batch admin now res timg aout,
      merge_images su rows tu ti asp batch admin now =
        Except.ok (res, timg, aout) →
      balancedCounters res ∧ res.processed = rows.length ∧
      res.skipped = rows.countP
        (imgRowSkips (sourceIdToUsername su) (targetUsernameDict tu) admin)) ∧
    (∀ users abu existing fresh phash k0 j0,
      balancedCounters (_migrate_users users abu existing fresh phash k0 j0).summary) ∧
    (∀ migrated table fresh k0,
      balancedCounters (_migrate_third_parties migrated table fresh k0).1 ∧
      (_migrate_third_parties migrated table fresh k0).1.skipped = 0 ∧
      (_migrate_third_parties migrated table fresh k0).1.processed =
        (userAccountPairs migrated).countP tpPairCounted) ∧
    (∀ migrated server_ids table fresh k0,
      balancedCounters (_migrate_accounts migrated server_ids table fresh k0).1 ∧
      (_migrate_accounts migrated server_ids table fresh k0).1.skipped = 0) ∧
    (∀ migrated table,
      balancedCounters (_migrate_ratings migrated table).1 ∧
      (_migrate_ratings migrated table).1.skipped = 0 ∧
      (_migrate_ratings migrated table).1.processed = migrated.length) ∧
    (∀ src_images lep_tbl_image migrated pbu table,
      balancedCounters
        (_migrate_preferences src_images lep_tbl_image migrated pbu table).1) ∧
    (∀ source_images tbl_image migrated now,
      balancedCounters (_migrate_images_up source_images tbl_image migrated now).1 ∧
      (_migrate_images_up source_images tbl_image migrated now).1.skipped =
        source_images.countP (upImgSkips
          (dictOf (migrated.map (fun u => (u.source.username, u)))))) := by
  refine ⟨fun rows table batch_size fresh now => ?_,
    fun su rows tu ti asp batch admin now res timg aout h => ?_,
    fun users abu existing fresh phash k0 j0 => ?_,
    fun migrated table fresh k0 => ?_,
    fun migrated server_ids table fresh k0 => ?_,
    fun migrated table => ?_,
    fun src_images lep_tbl_image migrated pbu table => ?_,
    fun source_images tbl_image migrated now => ?_⟩
  · obtain ⟨h1, h2, h3⟩ := usersLoop_stats batch_size fresh now rows
      { summary := {}, payload := [], existing_ids := collectUserIds table
        table := table, k := 0 }
    simp only [show ({} : MergeSectionResult).processed = 0 from rfl,
      show ({} : MergeSectionResult).skipped = 0 from rfl,
      show ({} : MergeSectionResult).inserted = 0 from rfl,
      show ({} : MergeSectionResult).updated = 0 from rfl] at h1 h2 h3
    have hm : (merge_users rows table batch_size fresh now).1 =
        (usersLoop batch_size fresh now rows
          { summary := {}, payload := [], existing_ids := collectUserIds table
            table := table, k := 0 }).summary := rfl
    rw [hm]
    unfold balancedCounters
    omega
  · simp only [merge_images] at h
    split at h
    · cases h
    · simp only [Except.ok.injEq, Prod.mk.injEq] at h
      obtain ⟨hres, -, -⟩ := h
      obtain ⟨h1, h2, h3⟩ := imagesLoop_stats (sourceIdToUsername su)
        (targetUsernameDict tu) admin batch now rows
        { summary := {}, payload := []
          existing_uuids := collectImageIds ti, written := [] }
      simp only [show ({} : MergeSectionResult).processed = 0 from rfl,
        show ({} : MergeSectionResult).skipped = 0 from rfl,
        show ({} : MergeSectionResult).inserted = 0 from rfl,
        show ({} : MergeSectionResult).updated = 0 from rfl] at h1 h2 h3
      have hsplit := countP_not_split rows
        (imgRowSkips (sourceIdToUsername su) (targetUsernameDict tu) admin)
      rw [← hres]
      unfold balancedCounters
      omega
  · obtain ⟨h1, h2, h3⟩ := upUsersLoop_stats abu fresh phash users
      { summary := {}, migrated := [], payload := []
        existing_users := existing, k := k0, j := j0 }
    simp only [show ({} : MergeSectionResult).processed = 0 from rfl,
      show ({} : MergeSectionResult).skipped = 0 from rfl,
      show ({} : MergeSectionResult).inserted = 0 from rfl,
      show ({} : MergeSectionResult).updated = 0 from rfl] at h1 h2 h3
    have hsplit := countP_not_split users
      (fun u => (upUserNewName abu u).isSome)
    have hnone := countP_isNone_eq users (fun u => upUserNewName abu u)
    have hm : (_migrate_users users abu existing fresh phash k0 j0).summary =
        (upUsersLoop abu fresh phash users
          { summary := {}, migrated := [], payload := []
            existing_users := existing, k := k0, j := j0 }).summary := rfl
    rw [hm]
    unfold balancedCounters
    omega
  · obtain ⟨h1, h2, h3, h4⟩ := tpLoop_stats fresh (userAccountPairs migrated)
      { summary := {}
        existing := dictOf (table.map (fun r => ((r.username, r.strategy), r.id)))
        written := [], k := k0 }
    simp only [show ({} : MergeSectionResult).processed = 0 from rfl,
      show ({} : MergeSectionResult).skipped = 0 from rfl,
      show ({} : MergeSectionResult).inserted = 0 from rfl,
      show ({} : MergeSectionResult).updated = 0 from rfl] at h1 h2 h3 h4
    have hm : (_migrate_third_parties migrated table fresh k0).1 =
        ((userAccountPairs migrated).foldl (tpStep fresh)
          { summary := {}
            existing := dictOf (table.map (fun r => ((r.username, r.strategy), r.id)))
            written := [], k := k0 }).summary := rfl
    rw [hm]
    unfold balancedCounters
    omega
  · obtain ⟨h1, h2, h3, h4⟩ := accLoop_stats server_ids fresh
      (userAccountPairs migrated)
      { summary := {}
        existing := dictOf (table.map (fun r => ((r.user_id, r.server_id), r.id)))
        written := [], k := k0 }
    simp only [show ({} : MergeSectionResult).processed = 0 from rfl,
      show ({} : MergeSectionResult).skipped = 0 from rfl,
      show ({} : MergeSectionResult).inserted = 0 from rfl,
      show ({} : MergeSectionResult).updated = 0 from rfl] at h1 h2 h3 h4
    have hm : (_migrate_accounts migrated server_ids table fresh k0).1 =
        ((userAccountPairs migrated).foldl (accStep server_ids fresh)
          { summary := {}
            existing := dictOf (table.map (fun r => ((r.user_id, r.server_id), r.id)))
            written := [], k := k0 }).summary := rfl
    rw [hm]
    unfold balancedCounters
    omega
  · obtain ⟨h1, h2, h3⟩ := ratingsLoop_stats migrated
      { summary := {}, existing_users := table.map (·.user_id), written := [] }
    simp only [show ({} : MergeSectionResult).processed = 0 from rfl,
      show ({} : MergeSectionResult).skipped = 0 from rfl,
      show ({} : MergeSectionResult).inserted = 0 from rfl,
      show ({} : MergeSectionResult).updated = 0 from rfl] at h1 h2 h3
    have hm : (_migrate_ratings migrated table).1 =
        (migrated.foldl ratingsStep
          { summary := {}, existing_users := table.map (·.user_id)
            written := [] }).summary := rfl
    rw [hm]
    unfold balancedCounters
    omega
  · obtain ⟨h1, h2, h3⟩ := prefsLoop_stats pbu
      (_build_image_uuid_lookup src_images lep_tbl_image) migrated
      { summary := {}, existing_users := table.map (·.user_id), written := [] }
    simp only [show ({} : MergeSectionResult).processed = 0 from rfl,
      show ({} : MergeSectionResult).skipped = 0 from rfl,
      show ({} : MergeSectionResult).inserted = 0 from rfl,
      show ({} : MergeSectionResult).updated = 0 from rfl] at h1 h2 h3
    have hm : (_migrate_preferences src_images lep_tbl_image migrated pbu table).1 =
        (migrated.foldl
          (prefsStep pbu (_build_image_uuid_lookup src_images lep_tbl_image))
          { summary := {}, existing_users := table.map (·.user_id)
            written := [] }).summary := rfl
    rw [hm]
    unfold balancedCounters
    omega
  · obtain ⟨h1, h2, h3⟩ := upImagesLoop_stats
      (dictOf (migrated.map (fun u => (u.source.username, u)))) now source_images
      { summary := {}, existing_ids := tbl_image.map (·.id), written := [] }
    simp only [show ({} : MergeSectionResult).processed = 0 from rfl,
      show ({} : MergeSectionResult).skipped = 0 from rfl,
      show ({} : MergeSectionResult).inserted = 0 from rfl,
      show ({} : MergeSectionResult).updated = 0 from rfl] at h1 h2 h3
    have hsplit := countP_not_split source_images
      (upImgSkips (dictOf (migrated.map (fun u => (u.source.username, u)))))
    have hm : (_migrate_images_up source_images tbl_image migrated now).1 =
        (source_images.foldl
          (upImagesStep (dictOf (migrated.map (fun u => (u.source.username, u)))) now)
          { summary := {}, existing_ids := tbl_image.map (·.id)
            written := [] }).summary := rfl
    rw [hm]
    unfold balancedCounters
    omega

/-- Counterexample to claim C4 as stated: one migrated user with a single
account whose server tag OTHER is unsupported; the third-parties section
leaves every counter at zero, so the row is not counted as skipped even
though one (user, account) pair was presented to the section. -/
theorem counter_invariant_counterexample :
    (_migrate_third_parties
      [{ source := { username := "alice", prefer_server := "OTHER"
                     created_at := 0, updated_at := 0 }
         new_user_id := "uid-1", new_username := "other_alice"
         prefer_server := "OTHER"
         primary_account :=
           { username := "alice", account_name := "alice"
             account_server := "OTHER", account_password := "pw"
             nickname := "nick", bind_qq := "qq", player_rating := 0
             created_at := 0, updated_at := 0 }
         accounts :=
           [{ username := "alice", account_name := "alice"
              account_server := "OTHER", account_password := "pw"
              nickname := "nick", bind_qq := "qq", player_rating := 0
              created_at := 0, updated_at := 0 }] }]
      [] (fun _ => "tp-uuid") 0).1 =
      { processed := 0, inserted := 0, updated := 0, skipped := 0 } ∧
    (userAccountPairs
      [{ source := { username := "alice", prefer_server := "OTHER"
                     created_at := 0, updated_at := 0 }
         new_user_id := "uid-1", new_username := "other_alice"
         prefer_server := "OTHER"
         primary_account :=
           { username := "alice", account_name := "alice"
             account_server := "OTHER", account_password := "pw"
             nickname := "nick", bind_qq := "qq", player_rating := 0
             created_at := 0, updated_at := 0 }
         accounts :=
           [{ username := "alice", account_name := "alice"
              account_server := "OTHER", account_password := "pw"
              nickname := "nick", bind_qq := "qq", player_rating := 0
              created_at := 0, updated_at := 0 }] }]).length = 1 := by
  exact ⟨by decide, by decide⟩

/-- Claim C10: in the merge-up accounts section every DIVING_FISH account
with a resolvable server id is counted as processed and as exactly one of
inserted or updated, yet contributes nothing to the written payload, so when
such an account exists the section's inserted + updated strictly exceeds the
number of tbl_account parameter rows actually written. -/
theorem accounts_diving_fish_counted_not_written :
    (∀ migrated server_ids table fresh k0,
      (_migrate_accounts migrated server_ids table fresh k0).1.processed =
        (userAccountPairs migrated).countP (accPairCounted server_ids) ∧
      (_migrate_accounts migrated server_ids table fresh k0).2.1.length =
        (userAccountPairs migrated).countP (accPairWritten server_ids) ∧
      (_migrate_accounts migrated server_ids table fresh k0).1.skipped = 0 ∧
      (_migrate_accounts migrated server_ids table fresh k0).1.inserted +
        (_migrate_accounts migrated server_ids table fresh k0).1.updated =
        (_migrate_accounts migrated server_ids table fresh k0).1.processed) ∧
    (∀ migrated server_ids table fresh k0,
      ((userAccountPairs migrated).any
        (fun p => accPairCounted server_ids p &&
          (p.2.account_server == "DIVING_FISH"))) = true →
      (_migrate_accounts migrated server_ids table fresh k0).1.inserted +
        (_migrate_accounts migrated server_ids table fresh k0).1.updated >
        (_migrate_accounts migrated server_ids table fresh k0).2.1.length) := by
  have base : ∀ migrated server_ids table fresh k0,
      (_migrate_accounts migrated server_ids table fresh k0).1.processed =
        (userAccountPairs migrated).countP (accPairCounted server_ids) ∧
      (_migrate_accounts migrated server_ids table fresh k0).2.1.length =
        (userAccountPairs migrated).countP (accPairWritten server_ids) ∧
      (_migrate_accounts migrated server_ids table fresh k0).1.skipped = 0 ∧
      (_migrate_accounts migrated server_ids table fresh k0).1.inserted +
        (_migrate_accounts migrated server_ids table fresh k0).1.updated =
        (_migrate_accounts migrated server_ids table fresh k0).1.processed := by
    intro migrated server_ids table fresh k0
    obtain ⟨h1, h2, h3, h4⟩ := accLoop_stats server_ids fresh
      (userAccountPairs migrated)
      { summary := {}
        existing := dictOf (table.map (fun r => ((r.user_id, r.server_id), r.id)))
        written := [], k := k0 }
    simp only [show ({} : MergeSectionResult).processed = 0 from rfl,
      show ({} : MergeSectionResult).skipped = 0 from rfl,
      show ({} : MergeSectionResult).inserted = 0 from rfl,
      show ({} : MergeSectionResult).updated = 0 from rfl,
      show (([] : List AccountRow)).length = 0 from rfl] at h1 h2 h3 h4
    have hm : (_migrate_accounts migrated server_ids table fresh k0).1 =
        ((userAccountPairs migrated).foldl (accStep server_ids fresh)
          { summary := {}
            existing := dictOf (table.map (fun r => ((r.user_id, r.server_id), r.id)))
            written := [], k := k0 }).summary := rfl
    have hw : (_migrate_accounts migrated server_ids table fresh k0).2.1 =
        ((userAccountPairs migrated).foldl (accStep server_ids fresh)
          { summary := {}
            existing := dictOf (table.map (fun r => ((r.user_id, r.server_id), r.id)))
            written := [], k := k0 }).written := rfl
    rw [hm, hw]
    omega
  refine ⟨base, fun migrated server_ids table fresh k0 hdf => ?_⟩
  obtain ⟨h1, h2, h3, h4⟩ := base migrated server_ids table fresh k0
  have hsplit := accounts_countP_split server_ids (userAccountPairs migrated)
  have hpos : 0 < (userAccountPairs migrated).countP
      (fun p => accPairCounted server_ids p &&
        (p.2.account_server == "DIVING_FISH")) := by
    rw [List.countP_pos_iff]
    obtain ⟨p, hp, hps⟩ := List.any_eq_true.mp hdf
    exact ⟨p, hp, hps⟩
  omega

/-- Witness for the hypothesis of
`accounts_diving_fish_counted_not_written`: one DIVING_FISH account is
counted as inserted while the written payload stays empty. -/
theorem accounts_diving_fish_counted_not_written_witness :
    ((userAccountPairs
      [{ source := { username := "alice", prefer_server := "DIVING_FISH"
                     created_at := 0, updated_at := 0 }
         new_user_id := "uid-1", new_username := "dvfh_alice"
         prefer_server := "DIVING_FISH"
         primary_account :=
           { username := "alice", account_name := "alice"
             account_server := "DIVING_FISH", account_password := "pw"
             nickname := "nick", bind_qq := "qq", player_rating := 0
             created_at := 0, updated_at := 0 }
         accounts :=
           [{ username := "alice", account_name := "alice"
              account_server := "DIVING_FISH", account_password := "pw"
              nickname := "nick", bind_qq := "qq", player_rating := 0
              created_at := 0, updated_at := 0 }] }]).any
        (fun p => accPairCounted [("divingfish", 1), ("lxns", 2)] p &&
          (p.2.account_server == "DIVING_FISH"))) = true ∧
    (_migrate_accounts
      [{ source := { username := "alice", prefer_server := "DIVING_FISH"
                     created_at := 0, updated_at := 0 }
         new_user_id := "uid-1", new_username := "dvfh_alice"
         prefer_server := "DIVING_FISH"
         primary_account :=
           { username := "alice", account_name := "alice"
             account_server := "DIVING_FISH", account_password := "pw"
             nickname := "nick", bind_qq := "qq", player_rating := 0
             created_at := 0, updated_at := 0 }
         accounts :=
           [{ username := "alice", account_name := "alice"
              account_server := "DIVING_FISH", account_password := "pw"
              nickname := "nick", bind_qq := "qq", player_rating := 0
              created_at := 0, updated_at := 0 }] }]
      [("divingfish", 1), ("lxns", 2)] [] (fun _ => "acct-uuid") 0).1.inserted +
    (_migrate_accounts
      [{ source := { username := "alice", prefer_server := "DIVING_FISH"
                     created_at := 0, updated_at := 0 }
         new_user_id := "uid-1", new_username := "dvfh_alice"
         prefer_server := "DIVING_FISH"
         primary_account :=
           { username := "alice", account_name := "alice"
             account_server := "DIVING_FISH", account_password := "pw"
             nickname := "nick", bind_qq := "qq", player_rating := 0
             created_at := 0, updated_at := 0 }
         accounts :=
           [{ username := "alice", account_name := "alice"
              account_server := "DIVING_FISH", account_password := "pw"
              nickname := "nick", bind_qq := "qq", player_rating := 0
              created_at := 0, updated_at := 0 }] }]
      [("divingfish", 1), ("lxns", 2)] [] (fun _ => "acct-uuid") 0).1.updated >
    (_migrate_accounts
      [{ source := { username := "alice", prefer_server := "DIVING_FISH"
                     created_at := 0, updated_at := 0 }
         new_user_id := "uid-1", new_username := "dvfh_alice"
         prefer_server := "DIVING_FISH"
         primary_account :=
           { username := "alice", account_name := "alice"
             account_server := "DIVING_FISH", account_password := "pw"
             nickname := "nick", bind_qq := "qq", player_rating := 0
             created_at := 0, updated_at := 0 }
         accounts :=
           [{ username := "alice", account_name := "alice"
              account_server := "DIVING_FISH", account_password := "pw"
              nickname := "nick", bind_qq := "qq", player_rating := 0
              created_at := 0, updated_at := 0 }] }]
      [("divingfish", 1), ("lxns", 2)] [] (fun _ => "acct-uuid") 0).2.1.length :=
  ⟨by decide,
   accounts_diving_fish_counted_not_written.2 _ _ [] (fun _ => "acct-uuid") 0
     (by decide)⟩

/-- Witness for the hypothesis of `counter_invariant` (the merge_images
success equation), at an empty image run. -/
theorem counter_invariant_witness :
    merge_images [] [] [] [] [] 500 none 0 =
      Except.ok (({} : MergeSectionResult), ([] : List TblImageRow),
        [DEFAULT_ASPECT]) ∧
    (balancedCounters ({} : MergeSectionResult) ∧
      ({} : MergeSectionResult).processed = ([] : List SrcImage).length ∧
      ({} : MergeSectionResult).skipped = ([] : List SrcImage).countP
        (imgRowSkips (sourceIdToUsername []) (targetUsernameDict []) none)) := by
  have h : merge_images [] [] [] [] [] 500 none 0 =
      Except.ok (({} : MergeSectionResult), ([] : List TblImageRow),
        [DEFAULT_ASPECT]) := by decide
  exact ⟨h, counter_invariant.2.1 [] [] [] [] [] 500 none 0 _ _ _ h⟩

/-- Claim C3 (amended): in run_merge's users section, a payload row whose
username is already held by a target row with a different (non-empty) id is
dropped from the write — the upsert never modifies a row with a different
id, so the existing row survives unchanged and the target keeps at most one
row with that username among pre-existing rows — but the conflicting source
row is never counted as skipped (merge_users leaves skipped at 0); two
colliding rows flushed in the same batch are both written, as the
counterexample shows. -/
theorem username_collision_filtering :
    (∀ table payload e u eid,
      e ∈ payload → e.username = some u →
      dget (targetUsernameDict table) u = some eid → eid ≠ "" → eid ≠ e.id →
      e ∉ filteredUserPayload table payload) ∧
    (∀ (table : List TblUserRow) (e : UserEntry) (r : TblUserRow),
      r ∈ table → r.id ≠ e.id → r ∈ upsertUserRow table e) ∧
    (∀ rows table batch_size fresh now,
      (merge_users rows table batch_size fresh now).1.skipped = 0) := by
  refine ⟨fun table payload e u eid hmem hu hd hne1 hne2 hin => ?_,
    fun table e r hr hne => ?_,
    fun rows table batch_size fresh now => ?_⟩
  · have hk := (List.mem_filter.mp hin).2
    simp [userEntryKept, hu, hd, hne1, hne2] at hk
  · unfold upsertUserRow
    by_cases hany : table.any (fun r2 => r2.id == e.id)
    · simp only [hany, if_pos]
      refine List.mem_map.mpr ⟨r, hr, ?_⟩
      simp [beq_eq_false_iff_ne.mpr hne]
    · simp only [hany, if_neg, Bool.false_eq_true, not_false_iff]
      exact List.mem_append.mpr (Or.inl hr)
  · obtain ⟨h1, h2, h3⟩ := usersLoop_stats batch_size fresh now rows
      { summary := {}, payload := [], existing_ids := collectUserIds table
        table := table, k := 0 }
    simpa using h2

/-- Witness for the hypotheses of `username_collision_filtering`: a payload
entry colliding with an existing target row of a different id is filtered
out, and the upsert leaves the differently-keyed row in place. -/
theorem username_collision_filtering_witness :
    (⟨"u9", some "alice", "p", "e", 0, 0⟩ : UserEntry) ∉
      filteredUserPayload
        [⟨"t1", some "alice", "hp", "em", "", 0, 0⟩]
        [⟨"u9", some "alice", "p", "e", 0, 0⟩] ∧
    (⟨"t1", some "alice", "hp", "em", "", 0, 0⟩ : TblUserRow) ∈
      upsertUserRow [⟨"t1", some "alice", "hp", "em", "", 0, 0⟩]
        ⟨"u9", some "alice", "p", "e", 0, 0⟩ ∧
    (merge_users [] [] 500 (fun _ => "u") 0).1.skipped = 0 :=
  ⟨username_collision_filtering.1
      [⟨"t1", some "alice", "hp", "em", "", 0, 0⟩]
      [⟨"u9", some "alice", "p", "e", 0, 0⟩]
      ⟨"u9", some "alice", "p", "e", 0, 0⟩ "alice" "t1"
      (by decide) (by decide) (by decide) (by decide) (by decide),
   username_collision_filtering.2.1
      [⟨"t1", some "alice", "hp", "em", "", 0, 0⟩]
      ⟨"u9", some "alice", "p", "e", 0, 0⟩
      ⟨"t1", some "alice", "hp", "em", "", 0, 0⟩
      (by decide) (by decide),
   username_collision_filtering.2.2 [] [] 500 (fun _ => "u") 0⟩

/-- Counterexample to claim C3 as stated: two source users that both derive
target username alice, flushed in the same batch against an empty target,
are both written — the target ends with two tbl_user rows named alice — and
the second row is counted as inserted, not skipped. -/
theorem username_collision_counterexample :
    ((merge_users
        [{ id := "s1", username := some "alice", hashed_password := "p1"
           email := "e1", created_at := none },
         { id := "s2", username := some "alice", hashed_password := "p2"
           email := "e2", created_at := none }]
        [] 500 (fun k => if k == 0 then "u0" else "u1") 0).2.filter
      (fun r => r.username == some "alice")).length = 2 ∧
    (merge_users
        [{ id := "s1", username := some "alice", hashed_password := "p1"
           email := "e1", created_at := none },
         { id := "s2", username := some "alice", hashed_password := "p2"
           email := "e2", created_at := none }]
        [] 500 (fun k => if k == 0 then "u0" else "u1") 0).1 =
      { processed := 2, inserted := 2, updated := 0, skipped := 0 } := by
  exact ⟨by decide, by decide⟩

/-- Helper: the existing-id set written by one merge_users iteration. -/
theorem usersStep_existing (batch_size : Nat) (fresh : Nat → String) (now : Int)
    (st : UsersLoopState) (row : SrcUser) :
    (usersStep batch_size fresh now st row).existing_ids =
      (if row.id ∈ st.existing_ids then st.existing_ids
       else row.id :: st.existing_ids) := by
  unfold usersStep
  by_cases hmem : row.id ∈ st.existing_ids <;> simp [hmem] <;> split <;> rfl

/-- Helper: when no source id is among the existing target ids and the
source ids are distinct, the merge_users loop counts every row as
inserted. -/
theorem usersLoop_all_new (batch_size : Nat) (fresh : Nat → String) (now : Int)
    (rows : List SrcUser) :
    ∀ st : UsersLoopState,
      (∀ r ∈ rows, r.id ∉ st.existing_ids) → (rows.map (·.id)).Nodup →
      (usersLoop batch_size fresh now rows st).summary.inserted =
        st.summary.inserted + rows.length ∧
      (usersLoop batch_size fresh now rows st).summary.updated =
        st.summary.updated := by
  induction rows with
  | nil => intro st h hd; simp [usersLoop]
  | cons r rs ih =>
      intro st hnew hnodup
      simp only [usersLoop, List.length_cons]
      have hmem : r.id ∉ st.existing_ids := hnew r (List.mem_cons_self r rs)
      have hsum := usersStep_summary batch_size fresh now st r
      have hex := usersStep_existing batch_size fresh now st r
      rw [if_neg hmem] at hsum hex
      simp only [List.map_cons, List.nodup_cons] at hnodup
      have hside : ∀ r2 ∈ rs,
          r2.id ∉ (usersStep batch_size fresh now st r).existing_ids := by
        intro r2 hr2
        rw [hex]
        simp only [List.mem_cons, not_or]
        refine ⟨?_, hnew r2 (List.mem_cons_of_mem r hr2)⟩
        intro hc
        exact hnodup.1 (hc ▸ List.mem_map.mpr ⟨r2, hr2, rfl⟩)
      obtain ⟨i1, i2⟩ := ih (usersStep batch_size fresh now st r) hside hnodup.2
      rw [i1, i2, hsum]
      constructor
      · simp
        omega
      · simp

/-- Helper: the ids accumulated for writing by the merge_images loop are the
uuids of the non-skipped rows, after whatever was pending before. -/
theorem imagesLoop_written_ids (srcMap : List (String × Option String))
    (tgtMap : List (String × String)) (admin : Option String)
    (batch_size : Nat) (now : Int) (rows : List SrcImage) :
    ∀ st : ImagesLoopState,
      (imagesLoop srcMap tgtMap admin batch_size now rows st).written.map (·.id) ++
        (imagesLoop srcMap tgtMap admin batch_size now rows st).payload.map (·.id) =
      st.written.map (·.id) ++ st.payload.map (·.id) ++
        (rows.filter
          (fun r => !imgRowSkips srcMap tgtMap admin r)).map (·.uuid) := by
  induction rows with
  | nil => intro st; simp [imagesLoop]
  | cons r rs ih =>
      intro st
      simp only [imagesLoop]
      rw [ih (imagesStep srcMap tgtMap admin batch_size now st r),
        imagesStep_written_ids]
      cases hskip : imgRowSkips srcMap tgtMap admin r <;>
        simp [List.filter_cons, hskip]

/-- Helper: when every non-skipped row's uuid is already in the existing-id
set, the merge_images loop inserts nothing and counts every non-skipped row
as updated. -/
theorem imagesLoop_second_run (srcMap : List (String × Option String))
    (tgtMap : List (String × String)) (admin : Option String)
    (batch_size : Nat) (now : Int) (rows : List SrcImage) :
    ∀ st : ImagesLoopState,
      (∀ r ∈ rows, imgRowSkips srcMap tgtMap admin r = false →
        r.uuid ∈ st.existing_uuids) →
      (imagesLoop srcMap tgtMap admin batch_size now rows st).summary.inserted =
        st.summary.inserted ∧
      (imagesLoop srcMap tgtMap admin batch_size now rows st).summary.updated =
        st.summary.updated +
          rows.countP (fun r => !imgRowSkips srcMap tgtMap admin r) := by
  induction rows with
  | nil => intro st h; simp [imagesLoop]
  | cons r rs ih =>
      intro st h
      simp only [imagesLoop, List.countP_cons]
      have hsum := imagesStep_summary srcMap tgtMap admin batch_size now st r
      have hex := imagesStep_existing srcMap tgtMap admin batch_size now st r
      cases hskip : imgRowSkips srcMap tgtMap admin r
      · have hmem : r.uuid ∈ st.existing_uuids :=
          h r (List.mem_cons_self r rs) hskip
        rw [hskip] at hsum hex
        simp only [Bool.false_eq_true, if_false, if_pos hmem] at hsum hex
        obtain ⟨i1, i2⟩ := ih (imagesStep srcMap tgtMap admin batch_size now st r)
          (by intro r2 hr2 hsk2; rw [hex]; exact h r2 (List.mem_cons_of_mem r hr2) hsk2)
        rw [i1, i2, hsum]
        simp [hskip] <;> omega
      · rw [hskip] at hsum hex
        simp only [if_pos] at hsum hex
        obtain ⟨i1, i2⟩ := ih (imagesStep srcMap tgtMap admin batch_size now st r)
          (by intro r2 hr2 hsk2; rw [hex]; exact h r2 (List.mem_cons_of_mem r hr2) hsk2)
        rw [i1, i2, hsum]
        simp [hskip]

/-- Helper: ids present after a single image upsert. -/
theorem upsertImageRow_ids (t : List TblImageRow) (e : TblImageRow)
    (x : String) :
    (x ∈ (upsertImageRow t e).map (·.id)) ↔
      x = e.id ∨ x ∈ t.map (·.id) := by
  unfold upsertImageRow
  by_cases hany : t.any (fun r => r.id == e.id)
  · simp only [hany, if_pos]
    have hid : (t.map (fun r =>
        if r.id == e.id then { e with created_at := r.created_at } else r)).map
          (·.id) = t.map (·.id) := by
      rw [List.map_map]
      refine List.map_congr_left ?_
      intro r hr
      by_cases h : r.id = e.id
      · simp [h]
      · simp [beq_eq_false_iff_ne.mpr h, h]
    have he : e.id ∈ t.map (·.id) := by
      obtain ⟨r, hr, hbeq⟩ := List.any_eq_true.mp hany
      exact List.mem_map.mpr ⟨r, hr, by simpa using hbeq⟩
    rw [hid]
    constructor
    · exact Or.inr
    · rintro (rfl | hm)
      · exact he
      · exact hm
  · simp only [hany, Bool.false_eq_true, if_false]
    simp [or_comm]

/-- Helper: ids present after a sequence of image upserts. -/
theorem foldl_upsertImageRow_ids (es : List TblImageRow) :
    ∀ (t : List TblImageRow) (x : String),
      (x ∈ (es.foldl upsertImageRow t).map (·.id)) ↔
        x ∈ t.map (·.id) ∨ x ∈ es.map (·.id) := by
  induction es with
  | nil => intro t x; simp
  | cons e es ih =>
      intro t x
      simp only [List.foldl_cons]
      rw [ih, upsertImageRow_ids]
      simp only [List.map_cons, List.mem_cons]
      tauto

/-- Helper: a list whose image under `f` has no duplicates carries no two
distinct members with the same image. -/
theorem nodup_map_eq {α β : Type} (f : α → β) (l : List α)
    (h : (l.map f).Nodup) : ∀ x ∈ l, ∀ y ∈ l, f x = f y → x = y := by
  induction l with
  | nil => intro x hx; cases hx
  | cons a as ih =>
      intro x hx y hy hf
      simp only [List.map_cons, List.nodup_cons] at h
      obtain ⟨hna, htail⟩ := h
      rcases List.mem_cons.mp hx with rfl | hx2 <;>
        rcases List.mem_cons.mp hy with rfl | hy2
      · rfl
      · exact absurd (List.mem_map.mpr ⟨y, hy2, hf.symm⟩) hna
      · exact absurd (List.mem_map.mpr ⟨x, hx2, hf⟩) hna
      · exact ih htail x hx2 y hy2 hf

/-- Helper: looking up a key right after a dict assignment. -/
theorem dget_dictInsert_eq {K V : Type} [DecidableEq K] (m : List (K × V))
    (k : K) (v : V) (k2 : K) :
    dget (dictInsert m k v) k2 = if k2 = k then some v else dget m k2 := by
  by_cases h : k2 = k
  · simp [dget, dictInsert, List.lookup, h]
  · simp [dget, dictInsert, List.lookup, h, beq_eq_false_iff_ne.mpr h]

/-- Helper: a binding visible after folding dict assignments over a pair list
comes from the list or from the initial dict. -/
theorem dget_foldl_dictInsert_mem {K V : Type} [DecidableEq K]
    (pairs : List (K × V)) :
    ∀ (m0 : List (K × V)) (k : K) (v : V),
      dget (pairs.foldl (fun m p => dictInsert m p.1 p.2) m0) k = some v →
      (k, v) ∈ pairs ∨ dget m0 k = some v := by
  induction pairs with
  | nil => intro m0 k v h; exact Or.inr (by simpa using h)
  | cons p ps ih =>
      intro m0 k v h
      simp only [List.foldl_cons] at h
      rcases ih _ k v h with hmem | hd
      · exact Or.inl (List.mem_cons_of_mem p hmem)
      · rw [dget_dictInsert_eq] at hd
        by_cases he : k = p.1
        · rw [if_pos he] at hd
          have hv : p.2 = v := by injection hd
          left
          rw [he, ← hv]
          simpa using List.mem_cons_self p ps
        · rw [if_neg he] at hd
          exact Or.inr hd

/-- Helper: a binding visible in a comprehension dict comes from the pair
list. -/
theorem dget_dictOf_mem {K V : Type} [DecidableEq K] (pairs : List (K × V))
    (k : K) (v : V) (h : dget (dictOf pairs) k = some v) : (k, v) ∈ pairs := by
  rcases dget_foldl_dictInsert_mem pairs [] k v h with hm | hd
  · exact hm
  · simp [dget] at hd

/-- Helper: a key of the pair list stays visible after folding dict
assignments over it. -/
theorem dget_foldl_dictInsert_isSome_of {K V : Type} [DecidableEq K]
    (pairs : List (K × V)) :
    ∀ (m0 : List (K × V)) (k : K),
      (k ∈ pairs.map (·.1) ∨ (dget m0 k).isSome = true) →
      (dget (pairs.foldl (fun m p => dictInsert m p.1 p.2) m0) k).isSome =
        true := by
  induction pairs with
  | nil =>
      intro m0 k h
      rcases h with h | h
      · simp at h
      · simpa using h
  | cons p ps ih =>
      intro m0 k h
      simp only [List.foldl_cons]
      apply ih
      rcases h with h | h
      · simp only [List.map_cons, List.mem_cons] at h
        rcases h with heq | h2
        · right
          rw [dget_dictInsert_eq, if_pos heq]
          rfl
        · exact Or.inl h2
      · right
        rw [dget_dictInsert_eq]
        by_cases he : k = p.1
        · rw [if_pos he]; rfl
        · rw [if_neg he]; exact h

/-- Helper: every key of the pair list is visible in the comprehension
dict. -/
theorem dget_dictOf_isSome_of_mem {K V : Type} [DecidableEq K]
    (pairs : List (K × V)) (k : K) (h : k ∈ pairs.map (·.1)) :
    (dget (dictOf pairs) k).isSome = true :=
  dget_foldl_dictInsert_isSome_of pairs [] k (Or.inl h)

/-- Helper: a third-parties pair is counted exactly when it has a
reconciliation key. -/
theorem tpPairCounted_eq_tpKey (p : MigratedUser × SourceAccount) :
    tpPairCounted p = (tpKey p).isSome := by
  unfold tpPairCounted tpKey
  cases SERVER_RULES.lookup p.2.account_server <;> simp

/-- Helper: the summary written by one third-parties iteration, in terms of
the derived key and its presence in the key dict. -/
theorem tpStep_summary (fresh : Nat → String) (st : TPState)
    (p : MigratedUser × SourceAccount) :
    (tpStep fresh st p).summary =
      (match tpKey p with
       | none => st.summary
       | some k =>
          if (dget st.existing k).isSome then
            { st.summary with processed := st.summary.processed + 1
                              updated := st.summary.updated + 1 }
          else
            { st.summary with processed := st.summary.processed + 1
                              inserted := st.summary.inserted + 1 }) := by
  cases hrule : SERVER_RULES.lookup p.2.account_server with
  | none => simp [tpStep, tpKey, hrule]
  | some rule =>
      cases hre : dget st.existing (p.2.account_name, rule.strategy) <;>
        simp [tpStep, tpKey, hrule, hre]

/-- Helper: the key dict written by one third-parties iteration. -/
theorem tpStep_existing (fresh : Nat → String) (st : TPState)
    (p : MigratedUser × SourceAccount) :
    (tpStep fresh st p).existing =
      (match tpKey p with
       | none => st.existing
       | some k =>
          if (dget st.existing k).isSome then st.existing
          else dictInsert st.existing k (fresh st.k)) := by
  cases hrule : SERVER_RULES.lookup p.2.account_server with
  | none => simp [tpStep, tpKey, hrule]
  | some rule =>
      cases hre : dget st.existing (p.2.account_name, rule.strategy) <;>
        simp [tpStep, tpKey, hrule, hre]

/-- Helper: the pending writes appended by one third-parties iteration. -/
theorem tpStep_written (fresh : Nat → String) (st : TPState)
    (p : MigratedUser × SourceAccount) :
    (tpStep fresh st p).written =
      (match tpKey p with
       | none => st.written
       | some k => st.written ++
          [{ id := (dget st.existing k).getD (fresh st.k)
             user_id := p.1.new_user_id
             username := k.1
             strategy := k.2
             created_at := p.2.created_at
             updated_at := p.2.updated_at }]) := by
  cases hrule : SERVER_RULES.lookup p.2.account_server with
  | none => simp [tpStep, tpKey, hrule]
  | some rule =>
      cases hre : dget st.existing (p.2.account_name, rule.strategy) <;>
        simp [tpStep, tpKey, hrule, hre]

/-- Helper: the uuid counter advanced by one third-parties iteration. -/
theorem tpStep_k (fresh : Nat → String) (st : TPState)
    (p : MigratedUser × SourceAccount) :
    (tpStep fresh st p).k =
      (match tpKey p with
       | none => st.k
       | some k => if (dget st.existing k).isSome then st.k else st.k + 1) := by
  cases hrule : SERVER_RULES.lookup p.2.account_server with
  | none => simp [tpStep, tpKey, hrule]
  | some rule =>
      cases hre : dget st.existing (p.2.account_name, rule.strategy) <;>
        simp [tpStep, tpKey, hrule, hre]

/-- Helper: the third-parties invariant holds at the loop entry when the
initial table's ids are free of duplicates. -/
theorem TPInv_init (table0 : List ThirdPartyRow) (fresh : Nat → String)
    (k0 : Nat) (hnodup : (table0.map (·.id)).Nodup) :
    TPInv table0 fresh
      { summary := {}
        existing :=
          dictOf (table0.map (fun r => ((r.username, r.strategy), r.id)))
        written := [], k := k0 } := by
  have hmem : ∀ (k : String × Int) (i : String),
      dget (dictOf (table0.map (fun r => ((r.username, r.strategy), r.id))))
        k = some i →
      ∃ r ∈ table0, (r.username, r.strategy) = k ∧ r.id = i := by
    intro k i hd
    have hpm := dget_dictOf_mem _ k i hd
    obtain ⟨r, hr, hre⟩ := List.mem_map.mp hpm
    exact ⟨r, hr, congrArg Prod.fst hre, congrArg Prod.snd hre⟩
  have huniq : ∀ r ∈ table0, ∀ r2 ∈ table0, r.id = r2.id → r = r2 :=
    nodup_map_eq (·.id) table0 hnodup
  refine ⟨?_, ?_, ?_, ?_, ?_⟩
  · intro k i hd r hr hid
    obtain ⟨r0, hr0, hk0, hi0⟩ := hmem k i hd
    have hr' : r ∈ table0 := by simpa using hr
    have heq := huniq r hr' r0 hr0 (by rw [hid, hi0])
    rw [heq]
    exact hk0
  · intro k1 k2 i h1 h2
    obtain ⟨r1, hr1, hk1, hi1⟩ := hmem k1 i h1
    obtain ⟨r2, hr2, hk2, hi2⟩ := hmem k2 i h2
    have heq := huniq r1 hr1 r2 hr2 (by rw [hi1, hi2])
    rw [← hk1, ← hk2, heq]
  · intro e he
    exact absurd he (List.not_mem_nil e)
  · intro k i hd
    obtain ⟨r0, hr0, hk0, hi0⟩ := hmem k i hd
    simp only [List.append_nil]
    exact List.mem_map.mpr ⟨r0, hr0, hi0⟩
  · intro r hr
    left
    have hr' : r ∈ table0 := by simpa using hr
    exact List.mem_map.mpr ⟨r, hr', rfl⟩

/-- Helper: one third-parties iteration preserves the loop invariant, as long
as the uuid stream is injective and avoids the initial table's ids. -/
theorem TPInv_step (table0 : List ThirdPartyRow) (fresh : Nat → String)
    (hinj : ∀ i j, fresh i = fresh j → i = j)
    (hnew : ∀ j, fresh j ∉ table0.map (·.id))
    (st : TPState) (p : MigratedUser × SourceAccount)
    (hI : TPInv table0 fresh st) : TPInv table0 fresh (tpStep fresh st p) := by
  obtain ⟨I1, I2, I3, I4, I5⟩ := hI
  have hex := tpStep_existing fresh st p
  have hwr := tpStep_written fresh st p
  have hkk := tpStep_k fresh st p
  cases htk : tpKey p with
  | none =>
      simp only [htk] at hex hwr hkk
      refine ⟨?_, ?_, ?_, ?_, ?_⟩
      · intro k i hd r hr hid
        rw [hex] at hd; rw [hwr] at hr
        exact I1 k i hd r hr hid
      · intro k1 k2 i h1 h2
        rw [hex] at h1 h2
        exact I2 k1 k2 i h1 h2
      · intro e he
        rw [hwr] at he; rw [hex]
        exact I3 e he
      · intro k i hd
        rw [hex] at hd; rw [hwr]
        exact I4 k i hd
      · intro r hr
        rw [hwr] at hr; rw [hkk]
        exact I5 r hr
  | some k =>
      simp only [htk] at hex hwr hkk
      cases hre : (dget st.existing k).isSome
      · -- mint branch: a brand-new id is assigned to the key
        have hnone : dget st.existing k = none := by
          cases hd : dget st.existing k with
          | none => rfl
          | some i => rw [hd] at hre; simp at hre
        rw [if_neg (by simp [hre])] at hex hkk
        rw [hnone] at hwr
        simp only [Option.getD_none] at hwr
        have hfnotin : ∀ r ∈ table0 ++ st.written, r.id ≠ fresh st.k := by
          intro r hr heq
          rcases I5 r hr with hm | ⟨j, hj, hji⟩
          · rw [heq] at hm; exact hnew st.k hm
          · have hjk : j = st.k := hinj j st.k (by rw [← hji, heq])
            omega
        have hfdict : ∀ k2 i2, dget st.existing k2 = some i2 →
            i2 ≠ fresh st.k := by
          intro k2 i2 hd heq
          have hm := I4 k2 i2 hd
          rw [heq] at hm
          obtain ⟨r, hr, hid⟩ := List.mem_map.mp hm
          exact hfnotin r hr hid
        refine ⟨?_, ?_, ?_, ?_, ?_⟩
        · intro k2 i2 hd r hr hid
          rw [hex, dget_dictInsert_eq] at hd
          rw [hwr] at hr
          by_cases hkeq : k2 = k
          · rw [if_pos hkeq] at hd
            have hi2 : i2 = fresh st.k := by injection hd.symm
            rcases List.mem_append.mp hr with hrT | hrW
            · exact absurd (by rw [hid, hi2])
                (hfnotin r (List.mem_append.mpr (Or.inl hrT)))
            · rcases List.mem_append.mp hrW with hrW2 | hrE
              · exact absurd (by rw [hid, hi2])
                  (hfnotin r (List.mem_append.mpr (Or.inr hrW2)))
              · have hre2 : r =
                    { id := fresh st.k
                      user_id := p.1.new_user_id
                      username := k.1
                      strategy := k.2
                      created_at := p.2.created_at
                      updated_at := p.2.updated_at } := List.mem_singleton.mp hrE
                rw [hre2, hkeq]
          · rw [if_neg hkeq] at hd
            rcases List.mem_append.mp hr with hrT | hrW
            · exact I1 k2 i2 hd r (List.mem_append.mpr (Or.inl hrT)) hid
            · rcases List.mem_append.mp hrW with hrW2 | hrE
              · exact I1 k2 i2 hd r (List.mem_append.mpr (Or.inr hrW2)) hid
              · have hre2 : r =
                    { id := fresh st.k
                      user_id := p.1.new_user_id
                      username := k.1
                      strategy := k.2
                      created_at := p.2.created_at
                      updated_at := p.2.updated_at } := List.mem_singleton.mp hrE
                have hid2 : fresh st.k = i2 := by rw [← hid, hre2]
                exact absurd hid2.symm (hfdict k2 i2 hd)
        · intro k1 k2 i h1 h2
          rw [hex, dget_dictInsert_eq] at h1 h2
          by_cases he1 : k1 = k <;> by_cases he2 : k2 = k
          · rw [he1, he2]
          · rw [if_pos he1] at h1
            rw [if_neg he2] at h2
            have hi1 : i = fresh st.k := by injection h1.symm
            exact absurd hi1 (hfdict k2 i h2)
          · rw [if_neg he1] at h1
            rw [if_pos he2] at h2
            have hi2 : i = fresh st.k := by injection h2.symm
            exact absurd hi2 (hfdict k1 i h1)
          · rw [if_neg he1] at h1
            rw [if_neg he2] at h2
            exact I2 k1 k2 i h1 h2
        · intro e he
          rw [hwr] at he
          rw [hex, dget_dictInsert_eq]
          rcases List.mem_append.mp he with heW | heE
          · by_cases hkeq : (e.username, e.strategy) = k
            · have hd := I3 e heW
              rw [hkeq, hnone] at hd
              cases hd
            · rw [if_neg hkeq]
              exact I3 e heW
          · have hre2 : e =
                { id := fresh st.k
                  user_id := p.1.new_user_id
                  username := k.1
                  strategy := k.2
                  created_at := p.2.created_at
                  updated_at := p.2.updated_at } := List.mem_singleton.mp heE
            rw [hre2]
            simp
        · intro k2 i2 hd
          rw [hex, dget_dictInsert_eq] at hd
          rw [hwr]
          by_cases hkeq : k2 = k
          · rw [if_pos hkeq] at hd
            have hi2 : i2 = fresh st.k := by injection hd.symm
            rw [hi2]
            simp
          · rw [if_neg hkeq] at hd
            have hm := I4 k2 i2 hd
            simp only [List.map_append, List.mem_append] at hm ⊢
            rcases hm with hm | hm
            · exact Or.inl hm
            · exact Or.inr (Or.inl hm)
        · intro r hr
          rw [hwr] at hr; rw [hkk]
          rcases List.mem_append.mp hr with hrT | hrW
          · rcases I5 r (List.mem_append.mpr (Or.inl hrT)) with hm | ⟨j, hj, hji⟩
            · exact Or.inl hm
            · exact Or.inr ⟨j, by omega, hji⟩
          · rcases List.mem_append.mp hrW with hrW2 | hrE
            · rcases I5 r (List.mem_append.mpr (Or.inr hrW2)) with
                hm | ⟨j, hj, hji⟩
              · exact Or.inl hm
              · exact Or.inr ⟨j, by omega, hji⟩
            · have hre2 : r =
                  { id := fresh st.k
                    user_id := p.1.new_user_id
                    username := k.1
                    strategy := k.2
                    created_at := p.2.created_at
                    updated_at := p.2.updated_at } := List.mem_singleton.mp hrE
              rw [hre2]
              exact Or.inr ⟨st.k, by omega, rfl⟩
      · -- reuse branch: the existing id of the key is written again
        obtain ⟨i, hi⟩ := Option.isSome_iff_exists.mp hre
        rw [if_pos hre] at hex hkk
        rw [hi] at hwr
        simp only [Option.getD_some] at hwr
        refine ⟨?_, ?_, ?_, ?_, ?_⟩
        · intro k2 i2 hd r hr hid
          rw [hex] at hd
          rw [hwr] at hr
          rcases List.mem_append.mp hr with hrT | hrW
          · exact I1 k2 i2 hd r (List.mem_append.mpr (Or.inl hrT)) hid
          · rcases List.mem_append.mp hrW with hrW2 | hrE
            · exact I1 k2 i2 hd r (List.mem_append.mpr (Or.inr hrW2)) hid
            · have hre2 : r =
                  { id := i
                    user_id := p.1.new_user_id
                    username := k.1
                    strategy := k.2
                    created_at := p.2.created_at
                    updated_at := p.2.updated_at } := List.mem_singleton.mp hrE
              have hii : i = i2 := by rw [← hid, hre2]
              have hkk2 : k = k2 := I2 k k2 i2 (by rw [hi, hii]) hd
              rw [hre2, ← hkk2]
        · intro k1 k2 i2 h1 h2
          rw [hex] at h1 h2
          exact I2 k1 k2 i2 h1 h2
        · intro e he
          rw [hwr] at he
          rw [hex]
          rcases List.mem_append.mp he with heW | heE
          · exact I3 e heW
          · have hre2 : e =
                { id := i
                  user_id := p.1.new_user_id
                  username := k.1
                  strategy := k.2
                  created_at := p.2.created_at
                  updated_at := p.2.updated_at } := List.mem_singleton.mp heE
            rw [hre2]
            simpa using hi
        · intro k2 i2 hd
          rw [hex] at hd
          rw [hwr]
          have hm := I4 k2 i2 hd
          simp only [List.map_append, List.mem_append] at hm ⊢
          rcases hm with hm | hm
          · exact Or.inl hm
          · exact Or.inr (Or.inl hm)
        · intro r hr
          rw [hwr] at hr; rw [hkk]
          rcases List.mem_append.mp hr with hrT | hrW
          · exact I5 r (List.mem_append.mpr (Or.inl hrT))
          · rcases List.mem_append.mp hrW with hrW2 | hrE
            · exact I5 r (List.mem_append.mpr (Or.inr hrW2))
            · have hre2 : r =
                  { id := i
                    user_id := p.1.new_user_id
                    username := k.1
                    strategy := k.2
                    created_at := p.2.created_at
                    updated_at := p.2.updated_at } := List.mem_singleton.mp hrE
              have hm := I4 k i (by rw [hi])
              obtain ⟨r0, hr0, hid0⟩ := List.mem_map.mp hm
              have h5 := I5 r0 hr0
              rw [hid0] at h5
              rw [hre2]
              exact h5

/-- Helper: the third-parties loop preserves the invariant. -/
theorem tpLoop_inv (table0 : List ThirdPartyRow) (fresh : Nat → String)
    (hinj : ∀ i j, fresh i = fresh j → i = j)
    (hnew : ∀ j, fresh j ∉ table0.map (·.id))
    (pairs : List (MigratedUser × SourceAccount)) :
    ∀ st : TPState, TPInv table0 fresh st →
      TPInv table0 fresh (pairs.foldl (tpStep fresh) st) := by
  induction pairs with
  | nil => intro st h; simpa using h
  | cons p ps ih =>
      intro st h
      simp only [List.foldl_cons]
      exact ih _ (TPInv_step table0 fresh hinj hnew st p h)

/-- Helper: a key present in the third-parties dict stays present through the
loop. -/
theorem tpLoop_dict_monotone (fresh : Nat → String)
    (pairs : List (MigratedUser × SourceAccount)) :
    ∀ (st : TPState) (k : String × Int),
      (dget st.existing k).isSome = true →
      (dget (pairs.foldl (tpStep fresh) st).existing k).isSome = true := by
  induction pairs with
  | nil => intro st k h; simpa using h
  | cons p ps ih =>
      intro st k h
      simp only [List.foldl_cons]
      refine ih _ k ?_
      cases htk : tpKey p with
      | none =>
          rw [tpStep_existing]
          simp only [htk]
          exact h
      | some k2 =>
          rw [tpStep_existing]
          simp only [htk]
          cases hre : (dget st.existing k2).isSome
          · rw [if_neg (by simp [hre]), dget_dictInsert_eq]
            by_cases he : k = k2
            · rw [if_pos he]; rfl
            · rw [if_neg he]; exact h
          · rw [if_pos rfl]; exact h

/-- Helper: after the third-parties loop, the key of every counted pair is a
key of the dict. -/
theorem tpLoop_keys_present (fresh : Nat → String)
    (pairs : List (MigratedUser × SourceAccount)) :
    ∀ (st : TPState) (p : MigratedUser × SourceAccount) (k : String × Int),
      p ∈ pairs → tpKey p = some k →
      (dget (pairs.foldl (tpStep fresh) st).existing k).isSome = true := by
  induction pairs with
  | nil => intro st p k h; cases h
  | cons q qs ih =>
      intro st p k hmem htk
      rcases List.mem_cons.mp hmem with heq | htail
      · subst heq
        simp only [List.foldl_cons]
        refine tpLoop_dict_monotone fresh qs _ k ?_
        rw [tpStep_existing]
        simp only [htk]
        cases hre : (dget st.existing k).isSome
        · rw [if_neg (by simp [hre]), dget_dictInsert_eq, if_pos rfl]
          rfl
        · rw [if_pos rfl]; exact hre
      · simp only [List.foldl_cons]
        exact ih _ p k htail htk

/-- Helper: when every counted pair's key is already a key of the dict, the
third-parties loop inserts nothing and updates every counted pair. -/
theorem tpLoop_second_run (fresh : Nat → String)
    (pairs : List (MigratedUser × SourceAccount)) :
    ∀ st : TPState,
      (∀ p ∈ pairs, ∀ k, tpKey p = some k →
        (dget st.existing k).isSome = true) →
      (pairs.foldl (tpStep fresh) st).summary.inserted =
        st.summary.inserted ∧
      (pairs.foldl (tpStep fresh) st).summary.updated =
        st.summary.updated + pairs.countP tpPairCounted := by
  induction pairs with
  | nil => intro st h; simp
  | cons p ps ih =>
      intro st h
      simp only [List.foldl_cons, List.countP_cons]
      have hsum := tpStep_summary fresh st p
      have hex := tpStep_existing fresh st p
      have hc := tpPairCounted_eq_tpKey p
      cases htk : tpKey p with
      | none =>
          simp only [htk] at hsum hex hc
          obtain ⟨i1, i2⟩ := ih (tpStep fresh st p)
            (by intro q hq k hk; rw [hex]
                exact h q (List.mem_cons_of_mem p hq) k hk)
          rw [i1, i2, hsum]
          simp [hc]
      | some k =>
          simp only [htk] at hsum hex hc
          have hp := h p (List.mem_cons_self p ps) k htk
          rw [if_pos hp] at hsum
          rw [if_pos hp] at hex
          obtain ⟨i1, i2⟩ := ih (tpStep fresh st p)
            (by intro q hq k2 hk2; rw [hex]
                exact h q (List.mem_cons_of_mem p hq) k2 hk2)
          constructor
          · rw [i1, hsum]
          · rw [i2, hsum]
            simp [hc]
            omega

/-- Helper: applying a consistent batch of third-party upserts preserves and
introduces reconciliation keys: consistency means a pending write never
shares an id with a row or another write carrying a different key. -/
theorem tp_fold_key_present (es : List ThirdPartyRow) :
    ∀ (t : List ThirdPartyRow) (k : String × Int),
      (∀ r ∈ t, ∀ e ∈ es, r.id = e.id →
        (r.username, r.strategy) = (e.username, e.strategy)) →
      (∀ e1 ∈ es, ∀ e2 ∈ es, e1.id = e2.id →
        (e1.username, e1.strategy) = (e2.username, e2.strategy)) →
      ((∃ r ∈ t, (r.username, r.strategy) = k) ∨
        (∃ e ∈ es, (e.username, e.strategy) = k)) →
      ∃ r ∈ es.foldl upsertThirdPartyRow t, (r.username, r.strategy) = k := by
  induction es with
  | nil =>
      intro t k _ _ hsrc
      rcases hsrc with hsrc | ⟨e, he, _⟩
      · simpa using hsrc
      · cases he
  | cons e0 es ih =>
      intro t k hcons hpair hsrc
      simp only [List.foldl_cons]
      apply ih (upsertThirdPartyRow t e0) k
      · intro r hr e he hid
        unfold upsertThirdPartyRow at hr
        by_cases hany : t.any (fun r2 => r2.id == e0.id)
        · rw [if_pos hany] at hr
          obtain ⟨r0, hr0, hr0eq⟩ := List.mem_map.mp hr
          by_cases hid0 : r0.id = e0.id
          · rw [if_pos (by simpa using hid0)] at hr0eq
            have hkey : (r.username, r.strategy) =
                (e0.username, e0.strategy) := by rw [← hr0eq]
            have hidr : r.id = e0.id := by rw [← hr0eq]
            rw [hkey]
            exact hpair e0 (List.mem_cons_self e0 es) e
              (List.mem_cons_of_mem e0 he) (hidr.symm.trans hid)
          · rw [if_neg (by simpa using hid0)] at hr0eq
            subst hr0eq
            exact hcons r0 hr0 e (List.mem_cons_of_mem e0 he) hid
        · rw [if_neg hany] at hr
          rcases List.mem_append.mp hr with hrT | hrE
          · exact hcons r hrT e (List.mem_cons_of_mem e0 he) hid
          · have hre : r = e0 := List.mem_singleton.mp hrE
            rw [hre] at hid ⊢
            exact hpair e0 (List.mem_cons_self e0 es) e
              (List.mem_cons_of_mem e0 he) hid
      · intro e1 h1 e2 h2 hid
        exact hpair e1 (List.mem_cons_of_mem e0 h1) e2
          (List.mem_cons_of_mem e0 h2) hid
      · rcases hsrc with ⟨r, hr, hkey⟩ | ⟨e, he, hkey⟩
        · left
          unfold upsertThirdPartyRow
          by_cases hany : t.any (fun r2 => r2.id == e0.id)
          · rw [if_pos hany]
            by_cases hid0 : r.id = e0.id
            · refine ⟨{ e0 with created_at := r.created_at }, ?_, ?_⟩
              · exact List.mem_map.mpr ⟨r, hr, by simp [hid0]⟩
              · have hke := hcons r hr e0 (List.mem_cons_self e0 es) hid0
                show (e0.username, e0.strategy) = k
                rw [← hke]
                exact hkey
            · refine ⟨r, ?_, hkey⟩
              exact List.mem_map.mpr
                ⟨r, hr, by simp [beq_eq_false_iff_ne.mpr hid0]⟩
          · rw [if_neg hany]
            exact ⟨r, List.mem_append.mpr (Or.inl hr), hkey⟩
        · rcases List.mem_cons.mp he with heq | he2
          · subst heq
            left
            unfold upsertThirdPartyRow
            by_cases hany : t.any (fun r2 => r2.id == e.id)
            · rw [if_pos hany]
              obtain ⟨r2, hr2, hbeq⟩ := List.any_eq_true.mp hany
              have hid2 : r2.id = e.id := by simpa using hbeq
              refine ⟨{ e with created_at := r2.created_at }, ?_, ?_⟩
              · exact List.mem_map.mpr ⟨r2, hr2, by simp [hid2]⟩
              · show (e.username, e.strategy) = k
                exact hkey
            · rw [if_neg hany]
              exact ⟨e, List.mem_append.mpr
                (Or.inr (List.mem_singleton.mpr rfl)), hkey⟩
          · right
            exact ⟨e, he2, hkey⟩

/-- Helper: after a first third-parties run from a duplicate-free table with
a fresh injective uuid stream, every counted pair's reconciliation key is
carried by some row of the resulting table. -/
theorem tpRun_keys_present (table0 : List ThirdPartyRow)
    (fresh : Nat → String) (k0 : Nat)
    (pairs : List (MigratedUser × SourceAccount))
    (hnodup : (table0.map (·.id)).Nodup)
    (hinj : ∀ i j, fresh i = fresh j → i = j)
    (hnew : ∀ j, fresh j ∉ table0.map (·.id))
    (p : MigratedUser × SourceAccount) (hp : p ∈ pairs) (k : String × Int)
    (hk : tpKey p = some k) :
    ∃ r ∈ (pairs.foldl (tpStep fresh)
        { summary := {}
          existing :=
            dictOf (table0.map (fun r => ((r.username, r.strategy), r.id)))
          written := [], k := k0 }).written.foldl upsertThirdPartyRow table0,
      (r.username, r.strategy) = k := by
  have hinv := tpLoop_inv table0 fresh hinj hnew pairs
    { summary := {}
      existing := dictOf (table0.map (fun r => ((r.username, r.strategy), r.id)))
      written := [], k := k0 }
    (TPInv_init table0 fresh k0 hnodup)
  obtain ⟨I1, I2, I3, I4, I5⟩ := hinv
  have hpres := tpLoop_keys_present fresh pairs
    { summary := {}
      existing := dictOf (table0.map (fun r => ((r.username, r.strategy), r.id)))
      written := [], k := k0 } p k hp hk
  obtain ⟨i, hi⟩ := Option.isSome_iff_exists.mp hpres
  have hm := I4 k i hi
  obtain ⟨r0, hr0, hr0id⟩ := List.mem_map.mp hm
  have hr0key := I1 k i hi r0 hr0 hr0id
  have hcons : ∀ r ∈ table0,
      ∀ e ∈ (pairs.foldl (tpStep fresh)
        { summary := {}
          existing :=
            dictOf (table0.map (fun r => ((r.username, r.strategy), r.id)))
          written := [], k := k0 }).written, r.id = e.id →
      (r.username, r.strategy) = (e.username, e.strategy) := by
    intro r hr e he hid
    have hd := I3 e he
    exact I1 _ _ hd r (List.mem_append.mpr (Or.inl hr)) hid
  have hpair : ∀ e1 ∈ (pairs.foldl (tpStep fresh)
        { summary := {}
          existing :=
            dictOf (table0.map (fun r => ((r.username, r.strategy), r.id)))
          written := [], k := k0 }).written,
      ∀ e2 ∈ (pairs.foldl (tpStep fresh)
        { summary := {}
          existing :=
            dictOf (table0.map (fun r => ((r.username, r.strategy), r.id)))
          written := [], k := k0 }).written, e1.id = e2.id →
      (e1.username, e1.strategy) = (e2.username, e2.strategy) := by
    intro e1 h1 e2 h2 hid
    have hd1 := I3 e1 h1
    have hd2 := I3 e2 h2
    rw [hid] at hd1
    exact I2 _ _ e2.id hd1 hd2
  rcases List.mem_append.mp hr0 with hT | hW
  · exact tp_fold_key_present _ table0 k hcons hpair
      (Or.inl ⟨r0, hT, hr0key⟩)
  · exact tp_fold_key_present _ table0 k hcons hpair
      (Or.inr ⟨r0, hW, hr0key⟩)

/-- Helper: the ratings loop appends exactly one pending write per migrated
user, carrying the user's new id. -/
theorem ratingsLoop_written (migrated : List MigratedUser) :
    ∀ st : RatingsState,
      (migrated.foldl ratingsStep st).written =
        st.written ++ migrated.map (fun u =>
          ({ user_id := u.new_user_id
             name := ""
             rating := u.primary_account.player_rating
             friend_code := ""
             updated_at := u.primary_account.updated_at } : RatingRow)) := by
  induction migrated with
  | nil => intro st; simp
  | cons u us ih =>
      intro st
      simp only [List.foldl_cons, List.map_cons]
      rw [ih (ratingsStep st u)]
      have hstep : (ratingsStep st u).written = st.written ++
          [({ user_id := u.new_user_id
              name := ""
              rating := u.primary_account.player_rating
              friend_code := ""
              updated_at := u.primary_account.updated_at } : RatingRow)] := by
        by_cases hmem : u.new_user_id ∈ st.existing_users <;>
          simp [ratingsStep, hmem]
      rw [hstep]
      simp

/-- Helper: user ids present after a single rating upsert. -/
theorem upsertRatingRow_user_ids (t : List RatingRow) (e : RatingRow)
    (x : String) :
    (x ∈ (upsertRatingRow t e).map (·.user_id)) ↔
      x = e.user_id ∨ x ∈ t.map (·.user_id) := by
  unfold upsertRatingRow
  by_cases hany : t.any (fun r => r.user_id == e.user_id)
  · simp only [hany, if_pos]
    have hid : (t.map (fun r =>
        if r.user_id == e.user_id then e else r)).map (·.user_id) =
        t.map (·.user_id) := by
      rw [List.map_map]
      refine List.map_congr_left ?_
      intro r hr
      by_cases h : r.user_id = e.user_id
      · simp [h]
      · simp [beq_eq_false_iff_ne.mpr h, h]
    have he : e.user_id ∈ t.map (·.user_id) := by
      obtain ⟨r, hr, hbeq⟩ := List.any_eq_true.mp hany
      exact List.mem_map.mpr ⟨r, hr, by simpa using hbeq⟩
    rw [hid]
    constructor
    · exact Or.inr
    · rintro (rfl | hm)
      · exact he
      · exact hm
  · simp only [hany, Bool.false_eq_true, if_false]
    simp [or_comm]

/-- Helper: user ids present after a sequence of rating upserts. -/
theorem foldl_upsertRatingRow_user_ids (es : List RatingRow) :
    ∀ (t : List RatingRow) (x : String),
      (x ∈ (es.foldl upsertRatingRow t).map (·.user_id)) ↔
        x ∈ t.map (·.user_id) ∨ x ∈ es.map (·.user_id) := by
  induction es with
  | nil => intro t x; simp
  | cons e es ih =>
      intro t x
      simp only [List.foldl_cons]
      rw [ih, upsertRatingRow_user_ids]
      simp only [List.map_cons, List.mem_cons]
      tauto

/-- Helper: when every migrated user's new id is already an existing key, the
ratings loop inserts nothing and updates every user. -/
theorem ratingsLoop_second_run (migrated : List MigratedUser) :
    ∀ st : RatingsState,
      (∀ u ∈ migrated, u.new_user_id ∈ st.existing_users) →
      (migrated.foldl ratingsStep st).summary.inserted =
        st.summary.inserted ∧
      (migrated.foldl ratingsStep st).summary.updated =
        st.summary.updated + migrated.length := by
  induction migrated with
  | nil => intro st h; simp
  | cons u us ih =>
      intro st h
      simp only [List.foldl_cons, List.length_cons]
      have hmem : u.new_user_id ∈ st.existing_users :=
        h u (List.mem_cons_self u us)
      have hex : (ratingsStep st u).existing_users = st.existing_users := by
        simp [ratingsStep, hmem]
      have hin : (ratingsStep st u).summary.inserted =
          st.summary.inserted := by
        simp [ratingsStep, hmem]
      have hup : (ratingsStep st u).summary.updated =
          st.summary.updated + 1 := by
        simp [ratingsStep, hmem]
      obtain ⟨i1, i2⟩ := ih (ratingsStep st u)
        (by intro v hv; rw [hex]; exact h v (List.mem_cons_of_mem u hv))
      rw [i1, i2, hin, hup]
      omega

/-- Helper: the preferences loop appends exactly one pending write per
migrated user, built by _build_preference_row. -/
theorem prefsLoop_written (pbu : List (String × SourcePreference))
    (lookup : List (String × String)) (migrated : List MigratedUser) :
    ∀ st : PrefsState,
      (migrated.foldl (prefsStep pbu lookup) st).written =
        st.written ++ migrated.map (fun u =>
          _build_preference_row u (dget pbu u.source.username) lookup) := by
  induction migrated with
  | nil => intro st; simp
  | cons u us ih =>
      intro st
      simp only [List.foldl_cons, List.map_cons]
      rw [ih (prefsStep pbu lookup st u)]
      have hstep : (prefsStep pbu lookup st u).written = st.written ++
          [_build_preference_row u (dget pbu u.source.username) lookup] := by
        by_cases hmem : u.new_user_id ∈ st.existing_users <;>
          simp [prefsStep, hmem]
      rw [hstep]
      simp

/-- Helper: user ids present after a single preference upsert. -/
theorem upsertPreferenceRow_user_ids (t : List PreferenceRow)
    (e : PreferenceEntry) (x : String) :
    (x ∈ (upsertPreferenceRow t e).map (·.user_id)) ↔
      x = e.user_id ∨ x ∈ t.map (·.user_id) := by
  unfold upsertPreferenceRow
  by_cases hany : t.any (fun r => r.user_id == e.user_id)
  · simp only [hany, if_pos]
    have hid : (t.map (fun r =>
        if r.user_id == e.user_id then preferenceEntryToRow e else r)).map
          (·.user_id) = t.map (·.user_id) := by
      rw [List.map_map]
      refine List.map_congr_left ?_
      intro r hr
      by_cases h : r.user_id = e.user_id
      · simp [h, preferenceEntryToRow]
      · simp [beq_eq_false_iff_ne.mpr h, h]
    have he : e.user_id ∈ t.map (·.user_id) := by
      obtain ⟨r, hr, hbeq⟩ := List.any_eq_true.mp hany
      exact List.mem_map.mpr ⟨r, hr, by simpa using hbeq⟩
    rw [hid]
    constructor
    · exact Or.inr
    · rintro (rfl | hm)
      · exact he
      · exact hm
  · simp only [hany, Bool.false_eq_true, if_false]
    simp [preferenceEntryToRow, or_comm]

/-- Helper: user ids present after a sequence of preference upserts. -/
theorem foldl_upsertPreferenceRow_user_ids (es : List PreferenceEntry) :
    ∀ (t : List PreferenceRow) (x : String),
      (x ∈ (es.foldl upsertPreferenceRow t).map (·.user_id)) ↔
        x ∈ t.map (·.user_id) ∨ x ∈ es.map (·.user_id) := by
  induction es with
  | nil => intro t x; simp
  | cons e es ih =>
      intro t x
      simp only [List.foldl_cons]
      rw [ih, upsertPreferenceRow_user_ids]
      simp only [List.map_cons, List.mem_cons]
      tauto

/-- Helper: when every migrated user's new id is already an existing key, the
preferences loop inserts nothing and updates every user. -/
theorem prefsLoop_second_run (pbu : List (String × SourcePreference))
    (lookup : List (String × String)) (migrated : List MigratedUser) :
    ∀ st : PrefsState,
      (∀ u ∈ migrated, u.new_user_id ∈ st.existing_users) →
      (migrated.foldl (prefsStep pbu lookup) st).summary.inserted =
        st.summary.inserted ∧
      (migrated.foldl (prefsStep pbu lookup) st).summary.updated =
        st.summary.updated + migrated.length := by
  induction migrated with
  | nil => intro st h; simp
  | cons u us ih =>
      intro st h
      simp only [List.foldl_cons, List.length_cons]
      have hmem : u.new_user_id ∈ st.existing_users :=
        h u (List.mem_cons_self u us)
      have hex : (prefsStep pbu lookup st u).existing_users =
          st.existing_users := by
        simp [prefsStep, hmem]
      have hin : (prefsStep pbu lookup st u).summary.inserted =
          st.summary.inserted := by
        simp [prefsStep, hmem]
      have hup : (prefsStep pbu lookup st u).summary.updated =
          st.summary.updated + 1 := by
        simp [prefsStep, hmem]
      obtain ⟨i1, i2⟩ := ih (prefsStep pbu lookup st u)
        (by intro v hv; rw [hex]; exact h v (List.mem_cons_of_mem u hv))
      rw [i1, i2, hin, hup]
      omega

/-- Helper: the summary written by one merge_up images iteration. -/
theorem upImagesStep_summary (migmap : List (String × MigratedUser))
    (now : Int) (st : UpImagesState) (r : RawUpImage) :
    (upImagesStep migmap now st r).summary =
      (if upImgSkips migmap r then
        { st.summary with processed := st.summary.processed + 1
                          skipped := st.summary.skipped + 1 }
       else if r.id ∈ st.existing_ids then
        { st.summary with processed := st.summary.processed + 1
                          updated := st.summary.updated + 1 }
       else
        { st.summary with processed := st.summary.processed + 1
                          inserted := st.summary.inserted + 1 }) := by
  cases hres : dget migmap (pyStr r.uploaded_by) with
  | none => simp [upImagesStep, upImgSkips, hres]
  | some user =>
      cases hasp : derive_aspect_id r.kind with
      | error e =>
          simp [upImagesStep, upImgSkips, hres, hasp, Except.isOk,
            Except.toBool]
      | ok aspect_id =>
          by_cases hmem : r.id ∈ st.existing_ids <;>
            simp [upImagesStep, upImgSkips, hres, hasp, hmem, Except.isOk,
              Except.toBool]

/-- Helper: the existing-id set written by one merge_up images iteration. -/
theorem upImagesStep_existing (migmap : List (String × MigratedUser))
    (now : Int) (st : UpImagesState) (r : RawUpImage) :
    (upImagesStep migmap now st r).existing_ids =
      (if upImgSkips migmap r then st.existing_ids
       else if r.id ∈ st.existing_ids then st.existing_ids
       else r.id :: st.existing_ids) := by
  cases hres : dget migmap (pyStr r.uploaded_by) with
  | none => simp [upImagesStep, upImgSkips, hres]
  | some user =>
      cases hasp : derive_aspect_id r.kind with
      | error e =>
          simp [upImagesStep, upImgSkips, hres, hasp, Except.isOk,
            Except.toBool]
      | ok aspect_id =>
          by_cases hmem : r.id ∈ st.existing_ids <;>
            simp [upImagesStep, upImgSkips, hres, hasp, hmem, Except.isOk,
              Except.toBool]

/-- Helper: the ids accumulated for writing by one merge_up images
iteration. -/
theorem upImagesStep_written_ids (migmap : List (String × MigratedUser))
    (now : Int) (st : UpImagesState) (r : RawUpImage) :
    (upImagesStep migmap now st r).written.map (·.id) =
      st.written.map (·.id) ++
        (if upImgSkips migmap r then [] else [r.id]) := by
  cases hres : dget migmap (pyStr r.uploaded_by) with
  | none => simp [upImagesStep, upImgSkips, hres]
  | some user =>
      cases hasp : derive_aspect_id r.kind with
      | error e =>
          simp [upImagesStep, upImgSkips, hres, hasp, Except.isOk,
            Except.toBool]
      | ok aspect_id =>
          by_cases hmem : r.id ∈ st.existing_ids <;>
            simp [upImagesStep, upImgSkips, hres, hasp, hmem, Except.isOk,
              Except.toBool, _adapt_image_row_for_up]

/-- Helper: the ids the merge_up images loop accumulates for writing are the
ids of its non-skipped rows. -/
theorem upImagesLoop_written_ids (migmap : List (String × MigratedUser))
    (now : Int) (rows : List RawUpImage) :
    ∀ st : UpImagesState,
      (rows.foldl (upImagesStep migmap now) st).written.map (·.id) =
        st.written.map (·.id) ++
          (rows.filter (fun r => !upImgSkips migmap r)).map (·.id) := by
  induction rows with
  | nil => intro st; simp
  | cons r rs ih =>
      intro st
      simp only [List.foldl_cons]
      rw [ih (upImagesStep migmap now st r), upImagesStep_written_ids]
      cases hskip : upImgSkips migmap r <;>
        simp [List.filter_cons, hskip]

/-- Helper: when every non-skipped row's id is already in the existing-id
set, the merge_up images loop inserts nothing and counts every non-skipped
row as updated. -/
theorem upImagesLoop_second_run (migmap : List (String × MigratedUser))
    (now : Int) (rows : List RawUpImage) :
    ∀ st : UpImagesState,
      (∀ r ∈ rows, upImgSkips migmap r = false → r.id ∈ st.existing_ids) →
      (rows.foldl (upImagesStep migmap now) st).summary.inserted =
        st.summary.inserted ∧
      (rows.foldl (upImagesStep migmap now) st).summary.updated =
        st.summary.updated +
          rows.countP (fun r => !upImgSkips migmap r) := by
  induction rows with
  | nil => intro st h; simp
  | cons r rs ih =>
      intro st h
      simp only [List.foldl_cons, List.countP_cons]
      have hsum := upImagesStep_summary migmap now st r
      have hex := upImagesStep_existing migmap now st r
      cases hskip : upImgSkips migmap r
      · have hmem : r.id ∈ st.existing_ids :=
          h r (List.mem_cons_self r rs) hskip
        rw [hskip] at hsum hex
        simp only [Bool.false_eq_true, if_false, if_pos hmem] at hsum hex
        obtain ⟨i1, i2⟩ := ih (upImagesStep migmap now st r)
          (by intro r2 hr2 hsk2; rw [hex]
              exact h r2 (List.mem_cons_of_mem r hr2) hsk2)
        rw [i1, i2, hsum]
        simp [hskip] <;> omega
      · rw [hskip] at hsum hex
        simp only [if_pos] at hsum hex
        obtain ⟨i1, i2⟩ := ih (upImagesStep migmap now st r)
          (by intro r2 hr2 hsk2; rw [hex]
              exact h r2 (List.mem_cons_of_mem r hr2) hsk2)
        rw [i1, i2, hsum]
        simp [hskip]

/-- Helper: ids present after a single leporid image upsert. -/
theorem upsertLeporidImageRow_ids (t : List LeporidImageRow)
    (e : LeporidImageRow) (x : String) :
    (x ∈ (upsertLeporidImageRow t e).map (·.id)) ↔
      x = e.id ∨ x ∈ t.map (·.id) := by
  unfold upsertLeporidImageRow
  by_cases hany : t.any (fun r => r.id == e.id)
  · simp only [hany, if_pos]
    have hid : (t.map (fun r =>
        if r.id == e.id then { e with created_at := r.created_at }
        else r)).map (·.id) = t.map (·.id) := by
      rw [List.map_map]
      refine List.map_congr_left ?_
      intro r hr
      by_cases h : r.id = e.id
      · simp [h]
      · simp [beq_eq_false_iff_ne.mpr h, h]
    have he : e.id ∈ t.map (·.id) := by
      obtain ⟨r, hr, hbeq⟩ := List.any_eq_true.mp hany
      exact List.mem_map.mpr ⟨r, hr, by simpa using hbeq⟩
    rw [hid]
    constructor
    · exact Or.inr
    · rintro (rfl | hm)
      · exact he
      · exact hm
  · simp only [hany, Bool.false_eq_true, if_false]
    simp [or_comm]

/-- Helper: ids present after a sequence of leporid image upserts. -/
theorem foldl_upsertLeporidImageRow_ids (es : List LeporidImageRow) :
    ∀ (t : List LeporidImageRow) (x : String),
      (x ∈ (es.foldl upsertLeporidImageRow t).map (·.id)) ↔
        x ∈ t.map (·.id) ∨ x ∈ es.map (·.id) := by
  induction es with
  | nil => intro t x; simp
  | cons e es ih =>
      intro t x
      simp only [List.foldl_cons]
      rw [ih, upsertLeporidImageRow_ids]
      simp only [List.map_cons, List.mem_cons]
      tauto

/-- Claim C1 (amended): second-run idempotence holds for every section that
reconciles on a stable key — run_merge's images section and run_merge_up's
users, third-parties, ratings, preferences and images sections.  Rerun
against the state the first run produced (the upserted target table,
respectively the username-to-id map), with nothing skipped on the first run
(and, for third-parties, a duplicate-free initial table and an injective
fresh uuid stream), they count no insert and count every processed row as
updated.  It fails for run_merge's users section, which reconciles source
ids against the target's freshly minted uuid ids: whenever the target ids
avoid the (distinct) source ids, as they do after a first run, every row is
counted as inserted again (inserted == N, updated == 0). -/
theorem idempotence_amended :
    (∀ su rows tu ti asp batch admin now s1 T1 A1,
      merge_images su rows tu ti asp batch admin now =
        Except.ok (s1, T1, A1) →
      s1.skipped = 0 →
      ∃ s2 rest,
        merge_images su rows tu T1 A1 batch admin now = Except.ok (s2, rest) ∧
        s2.inserted = 0 ∧ s2.updated = s2.processed ∧
        s2.processed = s1.processed) ∧
    (∀ users abu E fresh phash fresh2 phash2 k0 j0 k1 j1,
      (_migrate_users users abu E fresh phash k0 j0).summary.skipped = 0 →
      (_migrate_users users abu
          (_migrate_users users abu E fresh phash k0 j0).existing_users
          fresh2 phash2 k1 j1).summary.inserted = 0 ∧
      (_migrate_users users abu
          (_migrate_users users abu E fresh phash k0 j0).existing_users
          fresh2 phash2 k1 j1).summary.updated =
        (_migrate_users users abu
          (_migrate_users users abu E fresh phash k0 j0).existing_users
          fresh2 phash2 k1 j1).summary.processed ∧
      (_migrate_users users abu
          (_migrate_users users abu E fresh phash k0 j0).existing_users
          fresh2 phash2 k1 j1).summary.processed =
        (_migrate_users users abu E fresh phash k0 j0).summary.processed) ∧
    (∀ rows table batch_size fresh now,
      (∀ r ∈ rows, r.id ∉ collectUserIds table) →
      (rows.map (·.id)).Nodup →
      (merge_users rows table batch_size fresh now).1.inserted = rows.length ∧
      (merge_users rows table batch_size fresh now).1.updated = 0) ∧
    (∀ (migrated : List MigratedUser) (table0 : List ThirdPartyRow)
        (fresh : Nat → String) (k0 : Nat) (fresh2 : Nat → String) (k1 : Nat),
      (table0.map (·.id)).Nodup →
      (∀ i j, fresh i = fresh j → i = j) →
      (∀ j, fresh j ∉ table0.map (·.id)) →
      (_migrate_third_parties migrated
          (_migrate_third_parties migrated table0 fresh k0).2.1
          fresh2 k1).1.inserted = 0 ∧
      (_migrate_third_parties migrated
          (_migrate_third_parties migrated table0 fresh k0).2.1
          fresh2 k1).1.updated =
        (_migrate_third_parties migrated
          (_migrate_third_parties migrated table0 fresh k0).2.1
          fresh2 k1).1.processed ∧
      (_migrate_third_parties migrated
          (_migrate_third_parties migrated table0 fresh k0).2.1
          fresh2 k1).1.processed =
        (_migrate_third_parties migrated table0 fresh k0).1.processed) ∧
    (∀ (migrated : List MigratedUser) (table : List RatingRow),
      (_migrate_ratings migrated
          (_migrate_ratings migrated table).2).1.inserted = 0 ∧
      (_migrate_ratings migrated
          (_migrate_ratings migrated table).2).1.updated =
        (_migrate_ratings migrated
          (_migrate_ratings migrated table).2).1.processed ∧
      (_migrate_ratings migrated
          (_migrate_ratings migrated table).2).1.processed =
        (_migrate_ratings migrated table).1.processed) ∧
    (∀ (si : List RawUpImage) (li : List LeporidImageRow)
        (si2 : List RawUpImage) (li2 : List LeporidImageRow)
        (migrated : List MigratedUser)
        (pbu : List (String × SourcePreference)) (table : List PreferenceRow),
      (_migrate_preferences si2 li2 migrated pbu
          (_migrate_preferences si li migrated pbu table).2).1.inserted = 0 ∧
      (_migrate_preferences si2 li2 migrated pbu
          (_migrate_preferences si li migrated pbu table).2).1.updated =
        (_migrate_preferences si2 li2 migrated pbu
          (_migrate_preferences si li migrated pbu table).2).1.processed ∧
      (_migrate_preferences si2 li2 migrated pbu
          (_migrate_preferences si li migrated pbu table).2).1.processed =
        (_migrate_preferences si li migrated pbu table).1.processed) ∧
    (∀ (source_images : List RawUpImage) (tbl_image : List LeporidImageRow)
        (migrated : List MigratedUser) (now now2 : Int),
      (_migrate_images_up source_images tbl_image migrated now).1.skipped =
        0 →
      (_migrate_images_up source_images
          (_migrate_images_up source_images tbl_image migrated now).2
          migrated now2).1.inserted = 0 ∧
      (_migrate_images_up source_images
          (_migrate_images_up source_images tbl_image migrated now).2
          migrated now2).1.updated =
        (_migrate_images_up source_images
          (_migrate_images_up source_images tbl_image migrated now).2
          migrated now2).1.processed ∧
      (_migrate_images_up source_images
          (_migrate_images_up source_images tbl_image migrated now).2
          migrated now2).1.processed =
        (_migrate_images_up source_images tbl_image migrated now).1.processed) := by
  refine ⟨fun su rows tu ti asp batch admin now s1 T1 A1 h hskip => ?_,
    fun users abu E fresh phash fresh2 phash2 k0 j0 k1 j1 hskip => ?_,
    fun rows table batch_size fresh now hnew hnodup => ?_,
    fun migrated table0 fresh k0 fresh2 k1 hnodup hinj hnew => ?_,
    fun migrated table => ?_,
    fun si li si2 li2 migrated pbu table => ?_,
    fun source_images tbl_image migrated now now2 hskip => ?_⟩
  · simp only [merge_images] at h
    split at h
    next hadm => cases h
    next hadm =>
      simp only [Except.ok.injEq, Prod.mk.injEq] at h
      obtain ⟨hs1, hT1, hA1⟩ := h
      obtain ⟨hp1, hsk1, hiu1⟩ := imagesLoop_stats (sourceIdToUsername su)
        (targetUsernameDict tu) admin batch now rows
        { summary := {}, payload := []
          existing_uuids := collectImageIds ti, written := [] }
      have hcount : rows.countP
          (imgRowSkips (sourceIdToUsername su) (targetUsernameDict tu) admin) = 0 := by
        rw [← hs1] at hskip
        rw [hsk1] at hskip
        simpa using hskip
      have hall : ∀ r ∈ rows,
          imgRowSkips (sourceIdToUsername su) (targetUsernameDict tu) admin r =
            false := by
        intro r hr
        have := List.countP_eq_zero.mp hcount r hr
        simpa using this
      have hw := imagesLoop_written_ids (sourceIdToUsername su)
        (targetUsernameDict tu) admin batch now rows
        { summary := {}, payload := []
          existing_uuids := collectImageIds ti, written := [] }
      have hmemT1 : ∀ r ∈ rows, r.uuid ∈ T1.map (·.id) := by
        intro r hr
        have hru : r.uuid ∈ ((rows.filter (fun r =>
            !imgRowSkips (sourceIdToUsername su) (targetUsernameDict tu) admin r)).map
              (·.uuid)) :=
          List.mem_map.mpr ⟨r, List.mem_filter.mpr ⟨hr, by simp [hall r hr]⟩, rfl⟩
        rw [← hT1, foldl_upsertImageRow_ids]
        right
        rw [List.map_append, hw]
        simpa using hru
      simp only [merge_images]
      rw [if_neg hadm]
      refine ⟨_, _, rfl, ?_, ?_, ?_⟩
      · have hsr := imagesLoop_second_run (sourceIdToUsername su)
          (targetUsernameDict tu) admin batch now rows
          { summary := {}, payload := []
            existing_uuids := collectImageIds T1, written := [] }
          (fun r hr hsk => hmemT1 r hr)
        simpa using hsr.1
      · have hsr := imagesLoop_second_run (sourceIdToUsername su)
          (targetUsernameDict tu) admin batch now rows
          { summary := {}, payload := []
            existing_uuids := collectImageIds T1, written := [] }
          (fun r hr hsk => hmemT1 r hr)
        obtain ⟨hp2, hsk2, hiu2⟩ := imagesLoop_stats (sourceIdToUsername su)
          (targetUsernameDict tu) admin batch now rows
          { summary := {}, payload := []
            existing_uuids := collectImageIds T1, written := [] }
        have hlen : rows.countP (fun r =>
            !imgRowSkips (sourceIdToUsername su) (targetUsernameDict tu) admin r) =
            rows.length :=
          List.countP_eq_length.mpr (fun a ha => by simp [hall a ha])
        have h1 := hsr.2
        simp only [show ({} : MergeSectionResult).processed = 0 from rfl,
          show ({} : MergeSectionResult).updated = 0 from rfl] at h1 hp2
        omega
      · obtain ⟨hp2, hsk2, hiu2⟩ := imagesLoop_stats (sourceIdToUsername su)
          (targetUsernameDict tu) admin batch now rows
          { summary := {}, payload := []
            existing_uuids := collectImageIds T1, written := [] }
        rw [← hs1]
        simp only [show ({} : MergeSectionResult).processed = 0 from rfl] at hp1 hp2
        omega
  · obtain ⟨hp1, hsk1, hiu1⟩ := upUsersLoop_stats abu fresh phash users
      { summary := {}, migrated := [], payload := []
        existing_users := E, k := k0, j := j0 }
    have hm1 : (_migrate_users users abu E fresh phash k0 j0) =
        upUsersLoop abu fresh phash users
          { summary := {}, migrated := [], payload := []
            existing_users := E, k := k0, j := j0 } := rfl
    have hcnt0 : users.countP (fun u => (upUserNewName abu u).isNone) = 0 := by
      rw [hm1, hsk1] at hskip
      simpa using hskip
    have hpres : ∀ u ∈ users, ∀ nm, upUserNewName abu u = some nm →
        (dget (_migrate_users users abu E fresh phash k0 j0).existing_users
          nm).isSome = true := by
      intro u hu nm hnm
      rw [hm1]
      exact upUsersLoop_names_present abu fresh phash users _ u nm hu hnm
    have hm2 : (_migrate_users users abu
        (_migrate_users users abu E fresh phash k0 j0).existing_users
        fresh2 phash2 k1 j1) =
        upUsersLoop abu fresh2 phash2 users
          { summary := {}, migrated := [], payload := []
            existing_users :=
              (_migrate_users users abu E fresh phash k0 j0).existing_users
            k := k1, j := j1 } := rfl
    obtain ⟨hi2, hu2⟩ := upUsersLoop_second_run abu fresh2 phash2 users
      { summary := {}, migrated := [], payload := []
        existing_users :=
          (_migrate_users users abu E fresh phash k0 j0).existing_users
        k := k1, j := j1 }
      (fun u hu nm hnm => hpres u hu nm hnm)
    obtain ⟨hp2, hsk2, hiu2⟩ := upUsersLoop_stats abu fresh2 phash2 users
      { summary := {}, migrated := [], payload := []
        existing_users :=
          (_migrate_users users abu E fresh phash k0 j0).existing_users
        k := k1, j := j1 }
    have hsplit := countP_not_split users (fun u => (upUserNewName abu u).isSome)
    have hnoneeq := countP_isNone_eq users (fun u => upUserNewName abu u)
    rw [← hm2] at hi2 hu2 hp2
    rw [← hm1] at hp1
    simp at hp1 hp2 hi2 hu2
    refine ⟨by omega, by omega, by omega⟩
  · have hnew2 : ∀ r ∈ rows, r.id ∉
        ({ summary := {}, payload := []
           existing_ids := collectUserIds table, table := table
           k := 0 } : UsersLoopState).existing_ids := hnew
    obtain ⟨hi, hu⟩ := usersLoop_all_new batch_size fresh now rows
      { summary := {}, payload := [], existing_ids := collectUserIds table
        table := table, k := 0 } hnew2 hnodup
    have hm : (merge_users rows table batch_size fresh now).1 =
        (usersLoop batch_size fresh now rows
          { summary := {}, payload := [], existing_ids := collectUserIds table
            table := table, k := 0 }).summary := rfl
    rw [hm, hi, hu]
    simp
  · -- third-parties: the keys written by the first run are reconciled
    have hpres2 : ∀ p ∈ userAccountPairs migrated, ∀ k, tpKey p = some k →
        (dget (dictOf
          (((_migrate_third_parties migrated table0 fresh k0).2.1).map
            (fun r => ((r.username, r.strategy), r.id)))) k).isSome = true := by
      intro p hp k hk
      obtain ⟨r, hr, hkey⟩ := tpRun_keys_present table0 fresh k0
        (userAccountPairs migrated) hnodup hinj hnew p hp k hk
      apply dget_dictOf_isSome_of_mem
      exact List.mem_map.mpr ⟨((r.username, r.strategy), r.id),
        List.mem_map.mpr ⟨r, hr, rfl⟩, hkey⟩
    obtain ⟨hi2, hu2⟩ := tpLoop_second_run fresh2 (userAccountPairs migrated)
      { summary := {}
        existing := dictOf
          (((_migrate_third_parties migrated table0 fresh k0).2.1).map
            (fun r => ((r.username, r.strategy), r.id)))
        written := [], k := k1 } hpres2
    obtain ⟨hp2, hs2, hiu2, hw2⟩ := tpLoop_stats fresh2
      (userAccountPairs migrated)
      { summary := {}
        existing := dictOf
          (((_migrate_third_parties migrated table0 fresh k0).2.1).map
            (fun r => ((r.username, r.strategy), r.id)))
        written := [], k := k1 }
    obtain ⟨hp1, hs1, hiu1, hw1⟩ := tpLoop_stats fresh
      (userAccountPairs migrated)
      { summary := {}
        existing :=
          dictOf (table0.map (fun r => ((r.username, r.strategy), r.id)))
        written := [], k := k0 }
    have hm2 : (_migrate_third_parties migrated
        (_migrate_third_parties migrated table0 fresh k0).2.1
        fresh2 k1).1 =
        ((userAccountPairs migrated).foldl (tpStep fresh2)
          { summary := {}
            existing := dictOf
              (((_migrate_third_parties migrated table0 fresh k0).2.1).map
                (fun r => ((r.username, r.strategy), r.id)))
            written := [], k := k1 }).summary := rfl
    have hm1 : (_migrate_third_parties migrated table0 fresh k0).1 =
        ((userAccountPairs migrated).foldl (tpStep fresh)
          { summary := {}
            existing :=
              dictOf (table0.map (fun r => ((r.username, r.strategy), r.id)))
            written := [], k := k0 }).summary := rfl
    rw [← hm2] at hi2 hu2 hp2
    rw [← hm1] at hp1
    simp at hi2 hu2 hp2 hp1
    refine ⟨by omega, by omega, by omega⟩
  · -- ratings: every migrated user's id is in the upserted rating table
    have hpres : ∀ u ∈ migrated, u.new_user_id ∈
        ((_migrate_ratings migrated table).2).map (·.user_id) := by
      intro u hu
      have hw := ratingsLoop_written migrated
        { summary := {}, existing_users := table.map (·.user_id)
          written := [] }
      show u.new_user_id ∈
        ((migrated.foldl ratingsStep
          { summary := {}, existing_users := table.map (·.user_id)
            written := [] }).written.foldl upsertRatingRow table).map
          (·.user_id)
      rw [foldl_upsertRatingRow_user_ids]
      right
      rw [hw]
      simp only [List.nil_append]
      rw [List.map_map]
      exact List.mem_map.mpr ⟨u, hu, rfl⟩
    obtain ⟨hi2, hu2⟩ := ratingsLoop_second_run migrated
      { summary := {}
        existing_users :=
          ((_migrate_ratings migrated table).2).map (·.user_id)
        written := [] } hpres
    obtain ⟨hp2, hs2, hiu2⟩ := ratingsLoop_stats migrated
      { summary := {}
        existing_users :=
          ((_migrate_ratings migrated table).2).map (·.user_id)
        written := [] }
    obtain ⟨hp1, hs1, hiu1⟩ := ratingsLoop_stats migrated
      { summary := {}, existing_users := table.map (·.user_id)
        written := [] }
    have hm2 : (_migrate_ratings migrated
        (_migrate_ratings migrated table).2).1 =
        (migrated.foldl ratingsStep
          { summary := {}
            existing_users :=
              ((_migrate_ratings migrated table).2).map (·.user_id)
            written := [] }).summary := rfl
    have hm1 : (_migrate_ratings migrated table).1 =
        (migrated.foldl ratingsStep
          { summary := {}, existing_users := table.map (·.user_id)
            written := [] }).summary := rfl
    rw [← hm2] at hi2 hu2 hp2
    rw [← hm1] at hp1
    simp at hi2 hu2 hp2 hp1
    refine ⟨by omega, by omega, by omega⟩
  · -- preferences: every migrated user's id is in the upserted table
    have hpres : ∀ u ∈ migrated, u.new_user_id ∈
        ((_migrate_preferences si li migrated pbu table).2).map
          (·.user_id) := by
      intro u hu
      have hw := prefsLoop_written pbu (_build_image_uuid_lookup si li)
        migrated
        { summary := {}, existing_users := table.map (·.user_id)
          written := [] }
      show u.new_user_id ∈
        ((migrated.foldl
          (prefsStep pbu (_build_image_uuid_lookup si li))
          { summary := {}, existing_users := table.map (·.user_id)
            written := [] }).written.foldl upsertPreferenceRow table).map
          (·.user_id)
      rw [foldl_upsertPreferenceRow_user_ids]
      right
      rw [hw]
      simp only [List.nil_append]
      rw [List.map_map]
      exact List.mem_map.mpr ⟨u, hu, rfl⟩
    obtain ⟨hi2, hu2⟩ := prefsLoop_second_run pbu
      (_build_image_uuid_lookup si2 li2) migrated
      { summary := {}
        existing_users :=
          ((_migrate_preferences si li migrated pbu table).2).map
            (·.user_id)
        written := [] } hpres
    obtain ⟨hp2, hs2, hiu2⟩ := prefsLoop_stats pbu
      (_build_image_uuid_lookup si2 li2) migrated
      { summary := {}
        existing_users :=
          ((_migrate_preferences si li migrated pbu table).2).map
            (·.user_id)
        written := [] }
    obtain ⟨hp1, hs1, hiu1⟩ := prefsLoop_stats pbu
      (_build_image_uuid_lookup si li) migrated
      { summary := {}, existing_users := table.map (·.user_id)
        written := [] }
    have hm2 : (_migrate_preferences si2 li2 migrated pbu
        (_migrate_preferences si li migrated pbu table).2).1 =
        (migrated.foldl
          (prefsStep pbu (_build_image_uuid_lookup si2 li2))
          { summary := {}
            existing_users :=
              ((_migrate_preferences si li migrated pbu table).2).map
                (·.user_id)
            written := [] }).summary := rfl
    have hm1 : (_migrate_preferences si li migrated pbu table).1 =
        (migrated.foldl
          (prefsStep pbu (_build_image_uuid_lookup si li))
          { summary := {}, existing_users := table.map (·.user_id)
            written := [] }).summary := rfl
    rw [← hm2] at hi2 hu2 hp2
    rw [← hm1] at hp1
    simp at hi2 hu2 hp2 hp1
    refine ⟨by omega, by omega, by omega⟩
  · -- merge_up images: every non-skipped id is in the upserted table
    obtain ⟨hp1, hsk1, hiu1⟩ := upImagesLoop_stats
      (dictOf (migrated.map (fun u => (u.source.username, u)))) now
      source_images
      { summary := {}, existing_ids := tbl_image.map (·.id), written := [] }
    have hm1 : (_migrate_images_up source_images tbl_image migrated now).1 =
        (source_images.foldl (upImagesStep
            (dictOf (migrated.map (fun u => (u.source.username, u)))) now)
          { summary := {}, existing_ids := tbl_image.map (·.id)
            written := [] }).summary := rfl
    have hcount : source_images.countP
        (upImgSkips (dictOf (migrated.map (fun u =>
          (u.source.username, u))))) = 0 := by
      rw [hm1, hsk1] at hskip
      simpa using hskip
    have hall : ∀ r ∈ source_images,
        upImgSkips (dictOf (migrated.map (fun u =>
          (u.source.username, u)))) r = false := by
      intro r hr
      have := List.countP_eq_zero.mp hcount r hr
      simpa using this
    have hw := upImagesLoop_written_ids
      (dictOf (migrated.map (fun u => (u.source.username, u)))) now
      source_images
      { summary := {}, existing_ids := tbl_image.map (·.id), written := [] }
    have hmemT1 : ∀ r ∈ source_images, r.id ∈
        ((_migrate_images_up source_images tbl_image migrated now).2).map
          (·.id) := by
      intro r hr
      show r.id ∈
        ((source_images.foldl (upImagesStep
            (dictOf (migrated.map (fun u => (u.source.username, u)))) now)
          { summary := {}, existing_ids := tbl_image.map (·.id)
            written := [] }).written.foldl upsertLeporidImageRow
          tbl_image).map (·.id)
      rw [foldl_upsertLeporidImageRow_ids]
      right
      rw [hw]
      simp only [List.nil_append]
      exact List.mem_map.mpr
        ⟨r, List.mem_filter.mpr ⟨hr, by simp [hall r hr]⟩, rfl⟩
    obtain ⟨hi2, hu2⟩ := upImagesLoop_second_run
      (dictOf (migrated.map (fun u => (u.source.username, u)))) now2
      source_images
      { summary := {}
        existing_ids :=
          ((_migrate_images_up source_images tbl_image migrated now).2).map
            (·.id)
        written := [] }
      (fun r hr _hsk => hmemT1 r hr)
    obtain ⟨hp2, hsk2, hiu2⟩ := upImagesLoop_stats
      (dictOf (migrated.map (fun u => (u.source.username, u)))) now2
      source_images
      { summary := {}
        existing_ids :=
          ((_migrate_images_up source_images tbl_image migrated now).2).map
            (·.id)
        written := [] }
    have hm2 : (_migrate_images_up source_images
        (_migrate_images_up source_images tbl_image migrated now).2
        migrated now2).1 =
        (source_images.foldl (upImagesStep
            (dictOf (migrated.map (fun u => (u.source.username, u)))) now2)
          { summary := {}
            existing_ids :=
              ((_migrate_images_up source_images tbl_image
                migrated now).2).map (·.id)
            written := [] }).summary := rfl
    have hlen : source_images.countP (fun r =>
        !upImgSkips (dictOf (migrated.map (fun u =>
          (u.source.username, u)))) r) = source_images.length :=
      List.countP_eq_length.mpr (fun a ha => by simp [hall a ha])
    rw [← hm2] at hi2 hu2 hp2
    rw [← hm1] at hp1
    simp at hi2 hu2 hp2 hp1
    refine ⟨by omega, by omega, by omega⟩

/-- Witness for the hypotheses of `idempotence_amended`: a one-image run of
merge_images, a one-user run of _migrate_users, a one-row merge_users
against a target with a foreign id, a one-account third-parties double run
from an empty table with an injective uuid stream, and a one-image merge_up
images double run with nothing skipped. -/
theorem idempotence_amended_witness :
    (merge_images []
        [{ uuid := "i1", kind := "FRAME", label := some "lbl"
           file_name := "f.png", uploaded_by := none, uploaded_at := none
           category := none, trace_id := none }]
        [{ id := "t1", username := some "alice", hashed_password := "hp"
           email := "em", permissions := "", created_at := 0, updated_at := 0 }]
        [] [] 500 (some "t1") 0 =
      Except.ok ({ processed := 1, inserted := 1, updated := 0, skipped := 0 },
        [{ id := "i1", user_id := "t1", aspect_id := "id-1-ff", name := "lbl"
           description := "", visibility := 1, labels := ["frame"]
           original_name := "f.png", original_id := none, created_at := 0
           updated_at := 0 }],
        [DEFAULT_ASPECT])) ∧
    (∃ s2 rest,
      merge_images []
        [{ uuid := "i1", kind := "FRAME", label := some "lbl"
           file_name := "f.png", uploaded_by := none, uploaded_at := none
           category := none, trace_id := none }]
        [{ id := "t1", username := some "alice", hashed_password := "hp"
           email := "em", permissions := "", created_at := 0, updated_at := 0 }]
        [{ id := "i1", user_id := "t1", aspect_id := "id-1-ff", name := "lbl"
           description := "", visibility := 1, labels := ["frame"]
           original_name := "f.png", original_id := none, created_at := 0
           updated_at := 0 }]
        [DEFAULT_ASPECT] 500 (some "t1") 0 = Except.ok (s2, rest) ∧
      s2.inserted = 0 ∧ s2.updated = s2.processed ∧ s2.processed = 1) ∧
    ((_migrate_users
        [{ username := "alice", prefer_server := "DIVING_FISH"
           created_at := 0, updated_at := 0 }]
        (fun u => if u == "alice" then
          [{ username := "alice", account_name := "alice"
             account_server := "DIVING_FISH", account_password := "pw"
             nickname := "n", bind_qq := "q", player_rating := 3
             created_at := 0, updated_at := 0 }] else [])
        [] (fun _ => "uid-a") (fun _ => "ph-a") 0 0).summary.skipped = 0) ∧
    ((_migrate_users
        [{ username := "alice", prefer_server := "DIVING_FISH"
           created_at := 0, updated_at := 0 }]
        (fun u => if u == "alice" then
          [{ username := "alice", account_name := "alice"
             account_server := "DIVING_FISH", account_password := "pw"
             nickname := "n", bind_qq := "q", player_rating := 3
             created_at := 0, updated_at := 0 }] else [])
        ((_migrate_users
          [{ username := "alice", prefer_server := "DIVING_FISH"
             created_at := 0, updated_at := 0 }]
          (fun u => if u == "alice" then
            [{ username := "alice", account_name := "alice"
               account_server := "DIVING_FISH", account_password := "pw"
               nickname := "n", bind_qq := "q", player_rating := 3
               created_at := 0, updated_at := 0 }] else [])
          [] (fun _ => "uid-a") (fun _ => "ph-a") 0 0).existing_users)
        (fun _ => "uid-b") (fun _ => "ph-b") 0 0).summary.inserted = 0) ∧
    ((merge_users
        [{ id := "s1", username := some "alice", hashed_password := "hp"
           email := "em", created_at := none }]
        [{ id := "t1", username := some "alice", hashed_password := "hp"
           email := "em", permissions := "", created_at := 0, updated_at := 0 }]
        500 (fun _ => "uuid-b") 0).1.inserted = 1 ∧
     (merge_users
        [{ id := "s1", username := some "alice", hashed_password := "hp"
           email := "em", created_at := none }]
        [{ id := "t1", username := some "alice", hashed_password := "hp"
           email := "em", permissions := "", created_at := 0, updated_at := 0 }]
        500 (fun _ => "uuid-b") 0).1.updated = 0) ∧
    ((([] : List ThirdPartyRow).map (·.id)).Nodup) ∧
    (∀ i j : Nat, String.mk (List.replicate i 'a') =
        String.mk (List.replicate j 'a') → i = j) ∧
    (∀ j : Nat, String.mk (List.replicate j 'a') ∉
        ([] : List ThirdPartyRow).map (·.id)) ∧
    ((_migrate_third_parties
        [{ source := { username := "alice", prefer_server := "DIVING_FISH"
                       created_at := 0, updated_at := 0 }
           new_user_id := "uid-a", new_username := "dvfh_alice"
           prefer_server := "DIVING_FISH"
           primary_account := { username := "alice", account_name := "alice"
                                account_server := "DIVING_FISH"
                                account_password := "pw", nickname := "n"
                                bind_qq := "q", player_rating := 3
                                created_at := 0, updated_at := 0 }
           accounts := [{ username := "alice", account_name := "alice"
                          account_server := "DIVING_FISH"
                          account_password := "pw", nickname := "n"
                          bind_qq := "q", player_rating := 3
                          created_at := 0, updated_at := 0 }] }]
        ((_migrate_third_parties
          [{ source := { username := "alice", prefer_server := "DIVING_FISH"
                         created_at := 0, updated_at := 0 }
             new_user_id := "uid-a", new_username := "dvfh_alice"
             prefer_server := "DIVING_FISH"
             primary_account := { username := "alice"
                                  account_name := "alice"
                                  account_server := "DIVING_FISH"
                                  account_password := "pw", nickname := "n"
                                  bind_qq := "q", player_rating := 3
                                  created_at := 0, updated_at := 0 }
             accounts := [{ username := "alice", account_name := "alice"
                            account_server := "DIVING_FISH"
                            account_password := "pw", nickname := "n"
                            bind_qq := "q", player_rating := 3
                            created_at := 0, updated_at := 0 }] }]
          [] (fun j => String.mk (List.replicate j 'a')) 0).2.1)
        (fun _ => "z") 0).1.inserted = 0) ∧
    ((_migrate_images_up
        [{ id := "img1", name := some "nm", kind := "FRAME"
           sega_name := none, uploaded_by := some "alice"
           uploaded_at := none }]
        []
        [{ source := { username := "alice", prefer_server := "DIVING_FISH"
                       created_at := 0, updated_at := 0 }
           new_user_id := "uid-a", new_username := "dvfh_alice"
           prefer_server := "DIVING_FISH"
           primary_account := { username := "alice", account_name := "alice"
                                account_server := "DIVING_FISH"
                                account_password := "pw", nickname := "n"
                                bind_qq := "q", player_rating := 3
                                created_at := 0, updated_at := 0 }
           accounts := [{ username := "alice", account_name := "alice"
                          account_server := "DIVING_FISH"
                          account_password := "pw", nickname := "n"
                          bind_qq := "q", player_rating := 3
                          created_at := 0, updated_at := 0 }] }]
        0).1.skipped = 0) ∧
    ((_migrate_images_up
        [{ id := "img1", name := some "nm", kind := "FRAME"
           sega_name := none, uploaded_by := some "alice"
           uploaded_at := none }]
        ((_migrate_images_up
          [{ id := "img1", name := some "nm", kind := "FRAME"
             sega_name := none, uploaded_by := some "alice"
             uploaded_at := none }]
          []
          [{ source := { username := "alice", prefer_server := "DIVING_FISH"
                         created_at := 0, updated_at := 0 }
             new_user_id := "uid-a", new_username := "dvfh_alice"
             prefer_server := "DIVING_FISH"
             primary_account := { username := "alice"
                                  account_name := "alice"
                                  account_server := "DIVING_FISH"
                                  account_password := "pw", nickname := "n"
                                  bind_qq := "q", player_rating := 3
                                  created_at := 0, updated_at := 0 }
             accounts := [{ username := "alice", account_name := "alice"
                            account_server := "DIVING_FISH"
                            account_password := "pw", nickname := "n"
                            bind_qq := "q", player_rating := 3
                            created_at := 0, updated_at := 0 }] }]
          0).2)
        [{ source := { username := "alice", prefer_server := "DIVING_FISH"
                       created_at := 0, updated_at := 0 }
           new_user_id := "uid-a", new_username := "dvfh_alice"
           prefer_server := "DIVING_FISH"
           primary_account := { username := "alice", account_name := "alice"
                                account_server := "DIVING_FISH"
                                account_password := "pw", nickname := "n"
                                bind_qq := "q", player_rating := 3
                                created_at := 0, updated_at := 0 }
           accounts := [{ username := "alice", account_name := "alice"
                          account_server := "DIVING_FISH"
                          account_password := "pw", nickname := "n"
                          bind_qq := "q", player_rating := 3
                          created_at := 0, updated_at := 0 }] }]
        1).1.inserted = 0) := by
  have hrun1 : merge_images []
      [{ uuid := "i1", kind := "FRAME", label := some "lbl"
         file_name := "f.png", uploaded_by := none, uploaded_at := none
         category := none, trace_id := none }]
      [{ id := "t1", username := some "alice", hashed_password := "hp"
         email := "em", permissions := "", created_at := 0, updated_at := 0 }]
      [] [] 500 (some "t1") 0 =
      Except.ok (({ processed := 1, inserted := 1, updated := 0, skipped := 0 } :
          MergeSectionResult),
        [{ id := "i1", user_id := "t1", aspect_id := "id-1-ff", name := "lbl"
           description := "", visibility := 1, labels := ["frame"]
           original_name := "f.png", original_id := none, created_at := 0
           updated_at := 0 }],
        [DEFAULT_ASPECT]) := by decide
  have hinjA : ∀ i j : Nat, String.mk (List.replicate i 'a') =
      String.mk (List.replicate j 'a') → i = j := by
    intro i j h
    have h2 := congrArg (fun s : String => s.data.length) h
    simpa using h2
  have hnewA : ∀ j : Nat, String.mk (List.replicate j 'a') ∉
      ([] : List ThirdPartyRow).map (·.id) := by
    intro j h
    simp at h
  refine ⟨hrun1, ?_, by decide, ?_, ⟨?_, ?_⟩, by decide, hinjA, hnewA, ?_,
    by decide, ?_⟩
  · exact idempotence_amended.1 _ _ _ _ _ 500 (some "t1") 0 _ _ _ hrun1 rfl
  · exact (idempotence_amended.2.1 _ _ [] (fun _ => "uid-a") (fun _ => "ph-a")
      (fun _ => "uid-b") (fun _ => "ph-b") 0 0 0 0 (by decide)).1
  · exact (idempotence_amended.2.2.1 _ _ 500 (fun _ => "uuid-b") 0 (by decide)
      (by decide)).1
  · exact (idempotence_amended.2.2.1 _ _ 500 (fun _ => "uuid-b") 0 (by decide)
      (by decide)).2
  · exact (idempotence_amended.2.2.2.1 _ []
      (fun j => String.mk (List.replicate j 'a')) 0 (fun _ => "z") 0
      (by decide) hinjA hnewA).1
  · exact (idempotence_amended.2.2.2.2.2.2 _ [] _ 0 1 (by decide)).1

/-- Counterexample to claim C1 as stated: running run_merge twice over a
one-user source, the second run against the first run's committed target
reports the users section as inserted == 1 and updated == 0 — not
inserted == 0 and updated == 1. -/
theorem idempotence_counterexample :
    ((run_merge { source_url := "s", target_url := "t" }
        { users := [{ id := "s1", username := some "alice"
                      hashed_password := "hp", email := "em"
                      created_at := none }]
          images := [] }
        ((run_merge { source_url := "s", target_url := "t" }
          { users := [{ id := "s1", username := some "alice"
                        hashed_password := "hp", email := "em"
                        created_at := none }]
            images := [] }
          { tbl_user := [], tbl_image := [], tbl_image_aspect := [] }
          (fun _ => "uuid-a") 0).finalTarget)
        (fun _ => "uuid-b") 0).result.map
      (fun r => (r.users.inserted, r.users.updated))) = Except.ok (1, 0) := by
  decide

end Migration
